import Mathlib

/-!
# Light Event System: the observer index of `ULES_EventSystem`

A shallow embedding of `Source/LightEventSystem` (`EventSystem.h`, `EventSystem.cpp`,
`ObserverHandle.h`, `Event.h`) together with the properties of its subscribe, send and
remove operations.

Conventions of the embedding.

* An engine object (`UObject`, `UClass`, `UFunction`, an event) is identified by a natural
  number; a raw pointer is an `Option Nat`, `none` being `nullptr`.
* The engine facts the code consults but does not define (the class hierarchy, the class
  flags, the reflected functions of an object) are a parameter `R : FReflection`.
* `FWorld` is the mutable state: which objects have been destroyed, the allocator of
  shared control blocks, the event system a member function is called on (`This`) and the
  other event systems of the process (`Others`).
* `TMultiMap` is a list of pairs. The engine leaves the iteration order of a multi map
  unspecified, so every property below is stated through membership and counting.
* `int` results are element counts of a container and are modelled in `Nat`.
-/

namespace LightEventSystem

/-! ## Engine types -/

/-- An `FName`, represented by its comparison index. -/
abbrev FName := Nat

/-- The name `NAME_None`, the default channel. -/
def NAME_None : FName := 0

/-- The hard coded engine name `NAME_Name`, the name `"Name"`. Its comparison index differs
from the one of `NAME_None`. -/
def NAME_Name : FName := 58

/-- The engine object `GetTransientPackage()`. -/
def GetTransientPackage : Option Nat := some 300

/-- The property flag `CPF_Parm` of the engine: the property is a function parameter. -/
def CPF_Parm : Nat := 0x80

/-- The property flag `CPF_OutParm` of the engine: the parameter is an output or return value. -/
def CPF_OutParm : Nat := 0x100

/-- The class flag `CLASS_Abstract` of the engine, set by `UCLASS(Abstract)`. -/
def CLASS_Abstract : Nat := 0x1

/-- A reflected property (`FProperty`). `Object` is an `FObjectProperty` with its
`PropertyClass`; `Other` is a property of any other kind. -/
inductive FProperty where
  | Object (PropertyFlags : Nat) (PropertyClass : Nat)
  | Other (PropertyFlags : Nat)
  deriving DecidableEq, Repr

/-- The member `PropertyFlags` of a property. -/
def FProperty.PropertyFlags : FProperty → Nat
  | .Object f _ => f
  | .Other f => f

/-- The engine cast `CastField<FObjectProperty>`: the property class when the property is an
object property, `none` (a null pointer) otherwise. -/
def CastField_FObjectProperty : FProperty → Option Nat
  | .Object _ c => some c
  | .Other _ => none

/-- A reflected function (`UFunction`): the object itself and its child properties in
declaration order, as `TFieldIterator<FProperty>` visits them. -/
structure UFunction where
  Self : Nat
  ChildProperties : List FProperty
  deriving DecidableEq, Repr

/-- The reflection data of the engine that the event system reads. `BaseChain c` lists the
proper ancestors of class `c`; `ClassFlags c` are its class flags; `FindFunction o n` is
`o->FindFunction(n)`. -/
structure FReflection where
  BaseChain : Nat → List Nat
  ClassFlags : Nat → Nat
  FindFunction : Nat → FName → Option UFunction

/-- The engine test `Class->IsChildOf(Parent)`: the class itself or one of its ancestors. -/
def FReflection.IsChildOf (R : FReflection) (Class Parent : Nat) : Bool :=
  decide (Class = Parent) || decide (Parent ∈ R.BaseChain Class)

/-- A class is abstract when it carries `CLASS_Abstract`. -/
def FReflection.IsAbstract (R : FReflection) (Class : Nat) : Bool :=
  R.ClassFlags Class &&& CLASS_Abstract != 0

/-- The dynamic delegate `FLES_EventHandler`: a weak object pointer and a function name. The
default constructed delegate is unbound. -/
structure FLES_EventHandler where
  Object : Option Nat
  FunctionName : FName
  deriving DecidableEq, Repr

/-- The closures that the subscribe functions store in `FObserverRecord::Callback`. Each
constructor is one `CallbackLambda` of the source with its captures. -/
inductive TFunction where
  | Method (Observer : Option Nat) (Callback : Nat)
  | Functor (Observer : Option Nat) (Callback : Nat)
  | Delegate (Observer : Option Nat) (Callback : FLES_EventHandler)
  | Function (Observer : Option Nat) (Callback : Option Nat)
  deriving DecidableEq, Repr

/-! ## Data model (`Event.h`, `ObserverHandle.h`, `EventSystem.h`) -/

/-- An event object: `Self` identifies the object, `Class` is `GetClass()`, and `Channel`,
`Sender` are the two properties of `ULES_Event`. -/
structure ULES_Event where
  Self : Nat
  Class : Nat
  Channel : FName
  Sender : Option Nat
  deriving DecidableEq, Repr

/-- The class object `ULES_Event::StaticClass()`. -/
def ULES_Event.StaticClass : Nat := 1

/-- The record `LES::FObserverRecord`. -/
structure FObserverRecord where
  Channel : FName
  Observer : Option Nat
  Callback : TFunction
  deriving DecidableEq, Repr

/-- A non null `TSharedPtr<LES::FObserverRecord>`: the control block that `MakeShared`
allocated and the record it points to. Two shared pointers are the same pointer when their
control blocks are the same. -/
structure FRecord where
  Block : Nat
  Object : FObserverRecord
  deriving DecidableEq, Repr

/-- The key of the index, `TPair<TStrongObjectPtr<UClass>, FName>`. -/
abbrev FKey := Option Nat × FName

/-- The container `TMultiMap<FKey, FRecord>`. -/
abbrev TMultiMap := List (FKey × FRecord)

/-- The handle `FLES_ObserverHandle`: `ObserverKey` holds a weak class pointer and the
channel; `ObserverRecord` is a `TWeakPtr` to the record, `none` when it was never set. -/
structure FLES_ObserverHandle where
  ObserverKey : Option Nat × FName
  ObserverRecord : Option FRecord
  deriving DecidableEq, Repr

/-- The default constructed handle `{}`. -/
def FLES_ObserverHandle.Default : FLES_ObserverHandle :=
  { ObserverKey := (none, NAME_None), ObserverRecord := none }

/-- The data member of `ULES_EventSystem`. -/
structure ULES_EventSystem where
  ObserverRecords : TMultiMap
  deriving DecidableEq, Repr

/-- The process state seen by the member functions of one event system: the objects
destroyed so far, the number of control blocks `MakeShared` has handed out, the event
system the member function is called on, the other event systems of the process, and the
shared pointers that the local arrays `Records` of the `SendEvent` calls in progress hold,
innermost call first. -/
structure FWorld where
  Destroyed : List Nat
  Allocated : Nat
  This : ULES_EventSystem
  Others : List ULES_EventSystem
  Running : List FRecord
  deriving DecidableEq, Repr

/-- Every event system of the process. -/
def FWorld.Systems (w : FWorld) : List ULES_EventSystem := w.This :: w.Others

/-- Every shared pointer to an observer record that some event system stores. These are the
strong references that keep a record alive between two member function calls. -/
def FWorld.Shared (w : FWorld) : List FRecord :=
  (w.Systems.flatMap fun b => b.ObserverRecords).map Prod.snd

/-- Every shared pointer to an observer record that exists: the ones the event systems
store and the ones the `SendEvent` calls in progress hold in their arrays. -/
def FWorld.Owners (w : FWorld) : List FRecord := w.Shared ++ w.Running

/-- Some `SendEvent` call in progress holds a shared pointer to the record in its array
`Records`. -/
def FWorld.Retains (w : FWorld) (r : FRecord) : Bool :=
  w.Running.any fun q => decide (q.Block = r.Block)

/-- The state once a `SendEvent` call has filled its local array `Records`. -/
def FWorld.Enter (w : FWorld) (Records : List FRecord) : FWorld :=
  { w with Running := Records ++ w.Running }

/-- The state once a `SendEvent` call has destroyed its local array `Records`. -/
def FWorld.Leave (w : FWorld) (Records : List FRecord) : FWorld :=
  { w with Running := w.Running.drop Records.length }

/-! ## Engine pointer operations -/

/-- The engine test `IsValid(Object)`: not null and not destroyed. -/
def IsValid (w : FWorld) (Object : Option Nat) : Bool :=
  match Object with
  | none => false
  | some o => decide (o ∉ w.Destroyed)

/-- The member `TWeakObjectPtr::Get`: the object while it is valid, null afterwards. -/
def TWeakObjectPtr.Get (w : FWorld) (p : Option Nat) : Option Nat :=
  if IsValid w p then p else none

/-- Equality of a `TWeakObjectPtr` and a raw pointer, `FWeakObjectPtr::operator==`: the same
object, or both stale. -/
def TWeakObjectPtr.Equals (w : FWorld) (p : Option Nat) (Object : Option Nat) : Bool :=
  decide (p = Object) || (!IsValid w p && !IsValid w Object)

/-- The member `TWeakPtr::IsValid`: some shared pointer to the same control block exists. -/
def TWeakPtr.IsValid (w : FWorld) (p : Option FRecord) : Bool :=
  match p with
  | none => false
  | some r => w.Owners.any fun q => decide (q.Block = r.Block)

/-- The member `TWeakPtr::Pin`: a shared pointer while the record is alive, null afterwards. -/
def TWeakPtr.Pin (w : FWorld) (p : Option FRecord) : Option FRecord :=
  if TWeakPtr.IsValid w p then p else none

/-- Equality of a stored shared pointer with a possibly null one: pointer identity. -/
def TSharedPtr.Equals (a : FRecord) (b : Option FRecord) : Bool :=
  match b with
  | none => false
  | some r => decide (a.Block = r.Block)

/-- The conversion of `TSubclassOf<ULES_Event>` to `UClass*`: null unless the class derives
from `ULES_Event`. -/
def TSubclassOf.Get (R : FReflection) (Class : Option Nat) : Option Nat :=
  match Class with
  | none => none
  | some c => if R.IsChildOf c ULES_Event.StaticClass then some c else none

/-! ## Multi map operations -/

/-- The member `TMultiMap::Add`. -/
def TMultiMap.Add (m : TMultiMap) (Key : FKey) (Value : FRecord) : TMultiMap :=
  m ++ [(Key, Value)]

/-- The member `TMultiMap::MultiFind`: the values stored under the key. -/
def TMultiMap.MultiFind (m : TMultiMap) (Key : FKey) : List FRecord :=
  (m.filter fun p => decide (p.1 = Key)).map Prod.snd

/-- The member `TMultiMap::RemoveSingle`: removes the first pair with this key and this value
and returns the number of pairs removed. -/
def TMultiMap.RemoveSingle : TMultiMap → FKey → Option FRecord → Nat × TMultiMap
  | [], _, _ => (0, [])
  | p :: rest, Key, Value =>
    if decide (p.1 = Key) && TSharedPtr.Equals p.2 Value then (1, rest)
    else ((TMultiMap.RemoveSingle rest Key Value).1,
          p :: (TMultiMap.RemoveSingle rest Key Value).2)

/-- The member `TMultiMap::Contains`: some pair has the key. -/
def TMultiMap.Contains (m : TMultiMap) (Key : FKey) : Bool :=
  m.any fun p => decide (p.1 = Key)

/-- The member `TMultiMap::GetKeys`: the loop over the pairs adds a key to `OutKeys` when it
has not visited that key before, so the distinct keys come out in the order of their first
pair. -/
def TMultiMap.GetKeys (m : TMultiMap) : List FKey :=
  m.foldl (fun OutKeys p => if p.1 ∈ OutKeys then OutKeys else OutKeys ++ [p.1]) []

/-- The member `TArray::AddUnique`. -/
def TArray.AddUnique (a : List FName) (Item : FName) : List FName :=
  if Item ∈ a then a else a ++ [Item]

/-! ## Hooks, handlers and the call trace -/

/-- The user code that a stored closure ends up running: a member function of the observer,
a functor, a bound dynamic delegate, or a reflected function run by `ProcessEvent`. -/
inductive FHandler where
  | Method (Observer : Nat) (Callback : Nat)
  | Functor (Callback : Nat)
  | Delegate (Callback : FLES_EventHandler)
  | Function (Observer : Nat) (Callback : Nat)
  deriving DecidableEq, Repr

/-- The effect of the user handlers on the process state. -/
abbrev FUserCode := FHandler → ULES_Event → FWorld → FWorld

/-- The four overridable hooks of `ULES_EventSystem` (`BlueprintNativeEvent`), each with
its result and its effect on the process state. -/
structure FHooks where
  BeforeSend : ULES_Event → FWorld → Bool × FWorld
  BeforeReceive : ULES_Event → Option Nat → FWorld → Bool × FWorld
  AfterReceive : ULES_Event → Option Nat → FWorld → FWorld
  AfterSend : ULES_Event → FWorld → FWorld

/-- One call made by `SendEvent`: a hook, or the stored callback of a record. -/
inductive FCall where
  | BeforeSend (Event : ULES_Event)
  | BeforeReceive (Event : ULES_Event) (Observer : Option Nat)
  | Callback (Record : FRecord) (Event : ULES_Event)
  | AfterReceive (Event : ULES_Event) (Observer : Option Nat)
  | AfterSend (Event : ULES_Event)
  deriving DecidableEq, Repr

/-- The engine test `TScriptDelegate::IsBound`: a function name, a valid object, and the
function exists on the object. -/
def FLES_EventHandler.IsBound (R : FReflection) (w : FWorld) (d : FLES_EventHandler) : Bool :=
  decide (d.FunctionName ≠ NAME_None) &&
    match TWeakObjectPtr.Get w d.Object with
    | none => false
    | some o => (R.FindFunction o d.FunctionName).isSome

/-- Running a stored closure on an event: the body of the `CallbackLambda` of each subscribe
function. Every closure tests its captured weak observer pointer first. -/
def TFunction.Call (R : FReflection) (U : FUserCode) (f : TFunction) (Event : ULES_Event)
    (w : FWorld) : FWorld :=
  match f with
  | .Method Observer Callback =>
    match TWeakObjectPtr.Get w Observer with
    | some o => U (.Method o Callback) Event w
    | none => w
  | .Functor Observer Callback =>
    if IsValid w Observer then U (.Functor Callback) Event w else w
  | .Delegate Observer Callback =>
    if IsValid w Observer then
      if Callback.IsBound R w then U (.Delegate Callback) Event w else w
    else w
  | .Function Observer Callback =>
    match TWeakObjectPtr.Get w Observer, TWeakObjectPtr.Get w Callback with
    | some o, some g => U (.Function o g) Event w
    | _, _ => w

/-! ## `ULES_EventSystem` (`EventSystem.cpp`, `EventSystem.h`) -/

namespace ULES_EventSystem

/-- Default hook `BeforeSend_Implementation`. -/
def BeforeSend_Implementation (_Event : ULES_Event) (w : FWorld) : Bool × FWorld := (true, w)

/-- Default hook `BeforeReceive_Implementation`. -/
def BeforeReceive_Implementation (_Event : ULES_Event) (_Observer : Option Nat) (w : FWorld) :
    Bool × FWorld := (true, w)

/-- Default hook `AfterReceive_Implementation`. -/
def AfterReceive_Implementation (_Event : ULES_Event) (_Observer : Option Nat) (w : FWorld) :
    FWorld := w

/-- Default hook `AfterSend_Implementation`. -/
def AfterSend_Implementation (_Event : ULES_Event) (w : FWorld) : FWorld := w

/-- The hooks of an event system that overrides none of them. -/
def DefaultHooks : FHooks :=
  { BeforeSend := BeforeSend_Implementation
    BeforeReceive := BeforeReceive_Implementation
    AfterReceive := AfterReceive_Implementation
    AfterSend := AfterSend_Implementation }

/-- Static member `IsHandleValid`. -/
def IsHandleValid (w : FWorld) (ObserverHandle : FLES_ObserverHandle) : Bool :=
  TWeakPtr.IsValid w ObserverHandle.ObserverRecord && IsValid w ObserverHandle.ObserverKey.1

/-- Member `Num`. -/
def Num (w : FWorld) : Nat := w.This.ObserverRecords.length

/-- Member `ContainsObserver`. -/
def ContainsObserver (w : FWorld) (Observer : Option Nat) : Bool :=
  w.This.ObserverRecords.any fun p => TWeakObjectPtr.Equals w p.2.Object.Observer Observer

/-- Member `ContainsValidHandle`. -/
def ContainsValidHandle (w : FWorld) (ObserverHandle : FLES_ObserverHandle) : Bool :=
  if !IsHandleValid w ObserverHandle then false
  else
    TMultiMap.Contains w.This.ObserverRecords
      (TWeakObjectPtr.Get w ObserverHandle.ObserverKey.1, ObserverHandle.ObserverKey.2)

/-- Static member `GetEventClass`. -/
def GetEventClass (w : FWorld) (ObserverHandle : FLES_ObserverHandle) : Option Nat :=
  if IsValid w ObserverHandle.ObserverKey.1 then TWeakObjectPtr.Get w ObserverHandle.ObserverKey.1
  else none

/-- Static member `GetChannel`. -/
def GetChannel (ObserverHandle : FLES_ObserverHandle) : FName :=
  ObserverHandle.ObserverKey.2

/-- Member `GetChannels`: the new content of `OutChannels` and the returned count. -/
def GetChannels (w : FWorld) (_OutChannels : List FName) : Nat × List FName :=
  let Keys := TMultiMap.GetKeys w.This.ObserverRecords
  let OutChannels := Keys.foldl (fun acc Key => TArray.AddUnique acc Key.2) []
  (OutChannels.length, OutChannels)

/-- Private member `AddObserver_Private`: allocates the record with `MakeShared`, adds it
under `(EventClass, Channel)` and returns the handle built from the same key and record. -/
def AddObserver_Private (R : FReflection) (w : FWorld) (EventClass : Option Nat)
    (Observer : Option Nat) (Callback : TFunction) (Channel : FName) :
    FLES_ObserverHandle × FWorld :=
  let NewRecord : FObserverRecord :=
    { Channel := Channel, Observer := Observer, Callback := Callback }
  let ObserverRecord : FRecord := { Block := w.Allocated, Object := NewRecord }
  let Key : FKey := (TSubclassOf.Get R EventClass, Channel)
  ({ ObserverKey := Key, ObserverRecord := some ObserverRecord },
   { w with
     Allocated := w.Allocated + 1
     This := { ObserverRecords := TMultiMap.Add w.This.ObserverRecords Key ObserverRecord } })

/-- Template member `AddObserver` for a member function callback; `TEvent` is
`TEvent::StaticClass()`. -/
def AddObserver_Method (R : FReflection) (w : FWorld) (TEvent : Nat) (Observer : Option Nat)
    (Callback : Nat) (Channel : FName) : FLES_ObserverHandle × FWorld :=
  if !IsValid w Observer then (FLES_ObserverHandle.Default, w)
  else AddObserver_Private R w (some TEvent) Observer (.Method Observer Callback) Channel

/-- Template member `AddObserver` for a functor callback; `TEvent` is
`TEvent::StaticClass()`. -/
def AddObserver_Functor (R : FReflection) (w : FWorld) (TEvent : Nat) (Observer : Option Nat)
    (Callback : Nat) (Channel : FName) : FLES_ObserverHandle × FWorld :=
  if !IsValid w Observer then (FLES_ObserverHandle.Default, w)
  else AddObserver_Private R w (some TEvent) Observer (.Functor Observer Callback) Channel

/-- Member `BP_AddObserver_Event`: the returned handle and the state after the call. -/
def BP_AddObserver_Event (R : FReflection) (w : FWorld) (EventClass : Option Nat)
    (Observer : Option Nat) (Callback : FLES_EventHandler) (Channel : FName) :
    FLES_ObserverHandle × FWorld :=
  if !IsValid w Observer || !IsValid w (TSubclassOf.Get R EventClass) then
    (FLES_ObserverHandle.Default, w)
  else AddObserver_Private R w EventClass Observer (.Delegate Observer Callback) Channel

/-- Private static member `FindCallbackFunction`. The loop visits the leading properties
that carry `CPF_Parm` and sorts them by `CPF_OutParm`. -/
def FindCallbackFunction (R : FReflection) (Object : Nat) (FunctionName : FName) :
    Option UFunction :=
  let FuncPtr := R.FindFunction Object FunctionName
  let Visited : List FProperty :=
    match FuncPtr with
    | none => []
    | some f => f.ChildProperties.takeWhile fun p => p.PropertyFlags &&& CPF_Parm != 0
  let OutParams := Visited.filter fun p => p.PropertyFlags &&& CPF_OutParm != 0
  let InParams := Visited.filter fun p => !(p.PropertyFlags &&& CPF_OutParm != 0)
  if FuncPtr.isSome && InParams.length == 1 && OutParams.length == 0 then
    match InParams.head? with
    | none => none
    | some p =>
      match CastField_FObjectProperty p with
      | none => none
      | some PropertyClass =>
        if R.IsChildOf PropertyClass ULES_Event.StaticClass then FuncPtr else none
  else none

/-- Member `BP_AddObserver_Function`: the returned handle and the state after the call. -/
def BP_AddObserver_Function (R : FReflection) (w : FWorld) (EventClass : Option Nat)
    (Observer : Option Nat) (FunctionName : FName) (Channel : FName) :
    FLES_ObserverHandle × FWorld :=
  if !IsValid w Observer || !IsValid w (TSubclassOf.Get R EventClass) then
    (FLES_ObserverHandle.Default, w)
  else
    match Observer with
    | none => (FLES_ObserverHandle.Default, w)
    | some o =>
      match FindCallbackFunction R o FunctionName with
      | none => (FLES_ObserverHandle.Default, w)
      | some Callback =>
        AddObserver_Private R w EventClass Observer (.Function Observer (some Callback.Self))
          Channel

/-- The loop of `SendEvent` over the array `Records`. -/
def SendEvent_Loop (R : FReflection) (V : FHooks) (U : FUserCode) (Event : ULES_Event) :
    List FRecord → FWorld → FWorld × List FCall
  | [], w => (w, [])
  | Record :: Records, w =>
    if !IsValid w Record.Object.Observer then SendEvent_Loop R V U Event Records w
    else
      let Observer := TWeakObjectPtr.Get w Record.Object.Observer
      let Received := V.BeforeReceive Event Observer w
      if Received.1 then
        let w2 := TFunction.Call R U Record.Object.Callback Event Received.2
        let Observer2 := TWeakObjectPtr.Get w2 Record.Object.Observer
        let w3 := V.AfterReceive Event Observer2 w2
        let Rest := SendEvent_Loop R V U Event Records w3
        (Rest.1,
         [FCall.BeforeReceive Event Observer, FCall.Callback Record Event,
          FCall.AfterReceive Event Observer2] ++ Rest.2)
      else
        let Rest := SendEvent_Loop R V U Event Records Received.2
        (Rest.1, FCall.BeforeReceive Event Observer :: Rest.2)

/-- Member `SendEvent`: the state after the call and the calls made, in order. The local
array `Records` holds a shared pointer to every matching record from the call of
`MultiFind` until the function returns. -/
def SendEvent (R : FReflection) (V : FHooks) (U : FUserCode) (w : FWorld)
    (Event : Option ULES_Event) : FWorld × List FCall :=
  match Event with
  | none => (w, [])
  | some e =>
    if !IsValid w (some e.Self) then (w, [])
    else
      let Sent := V.BeforeSend e w
      if !Sent.1 then (Sent.2, [FCall.BeforeSend e])
      else
        let Records := TMultiMap.MultiFind Sent.2.This.ObserverRecords (some e.Class, e.Channel)
        let Done := SendEvent_Loop R V U e Records (Sent.2.Enter Records)
        ((V.AfterSend e Done.1).Leave Records,
         [FCall.BeforeSend e] ++ Done.2 ++ [FCall.AfterSend e])

/-- Member `Clean`: the iterator removes the pairs whose observer is not valid and counts
them. -/
def Clean (w : FWorld) : Nat × FWorld :=
  ((w.This.ObserverRecords.filter fun p => !IsValid w p.2.Object.Observer).length,
   { w with
     This := { ObserverRecords :=
       w.This.ObserverRecords.filter fun p => IsValid w p.2.Object.Observer } })

/-- Member `RemoveByHandle`: the count `RemoveSingle` returns and the state without the
removed pair. -/
def RemoveByHandle (w : FWorld) (ObserverHandle : FLES_ObserverHandle) : Nat × FWorld :=
  if !IsHandleValid w ObserverHandle then (0, w)
  else
    let Key : FKey :=
      (TWeakObjectPtr.Get w ObserverHandle.ObserverKey.1, ObserverHandle.ObserverKey.2)
    let Removed :=
      TMultiMap.RemoveSingle w.This.ObserverRecords Key
        (TWeakPtr.Pin w ObserverHandle.ObserverRecord)
    (Removed.1, { w with This := { ObserverRecords := Removed.2 } })

/-- Member `RemoveByObserver`: the iterator removes the pairs whose observer equals the
argument and counts them. -/
def RemoveByObserver (w : FWorld) (Observer : Option Nat) : Nat × FWorld :=
  ((w.This.ObserverRecords.filter fun p =>
      TWeakObjectPtr.Equals w p.2.Object.Observer Observer).length,
   { w with
     This := { ObserverRecords :=
       w.This.ObserverRecords.filter fun p =>
         !TWeakObjectPtr.Equals w p.2.Object.Observer Observer } })

/-- Member `RemoveAll`. -/
def RemoveAll (w : FWorld) : FWorld :=
  { w with This := { ObserverRecords := [] } }

end ULES_EventSystem

/-! ## `LES::Create` (`BasicEvents.h`) -/

/-- An event of a class that satisfies the concept `IsBasicEvent`: a `ULES_Event` with a
member `Value` of type `TMember`. -/
structure TBasicEvent (TMember : Type) extends ULES_Event where
  Value : TMember

/-- The implicit conversion of a 64 bit signed integer to `int32`, the type of the member
`Value` of `ULES_IntegerEvent`: the value modulo 2^32 in the range of `int32`. -/
def int64_to_int32 (v : Int) : Int := (v + 2147483648) % 4294967296 - 2147483648

/-- The template function `LES::Create`; `TEvent` is `TEvent::StaticClass()`,
`NewObject TEvent Outer` is the object that the engine call `NewObject<TEvent>(Outer)`
returns, and `Assign` is the implicit conversion that the assignment `Event->Value = Value`
applies from the type of the argument to the type of the member, the identity when the two
types are the same. -/
def LES.Create {TValue TMember : Type} (Assign : TValue → TMember)
    (NewObject : Nat → Option Nat → Nat) (TEvent : Nat) (Value : TValue) (Sender : Option Nat)
    (Channel : FName) (Outer : Option Nat) : TBasicEvent TMember :=
  { Self := NewObject TEvent Outer
    Class := TEvent
    Channel := Channel
    Sender := Sender
    Value := Assign Value }

/-- A call of `LES::Create` that omits `Channel` and `Outer`: the compiler passes the
default arguments of the declaration, `NAME_Name` and `GetTransientPackage()`. -/
def LES.Create_Default {TValue TMember : Type} (Assign : TValue → TMember)
    (NewObject : Nat → Option Nat → Nat) (TEvent : Nat) (Value : TValue)
    (Sender : Option Nat) : TBasicEvent TMember :=
  LES.Create Assign NewObject TEvent Value Sender NAME_Name GetTransientPackage

/-- The default argument `Channel = NAME_None` that the declarations of the four subscribe
functions give. -/
def ULES_EventSystem.AddObserver_Channel_Default : FName := NAME_None

/-! ## Well formed states -/

/-- The invariant of the states the program can reach: no control block is stored twice,
every stored control block was handed out by the allocator, and the class of every stored
key is a valid object (the key holds it through a `TStrongObjectPtr`). -/
def FWorld.WellFormed (w : FWorld) : Prop :=
  (w.Shared.map fun r => r.Block).Nodup ∧
  (∀ r ∈ w.Shared, r.Block < w.Allocated) ∧
  (∀ b ∈ w.Systems, ∀ p ∈ b.ObserverRecords, IsValid w p.1.1 = true)

instance (w : FWorld) : Decidable w.WellFormed := by
  unfold FWorld.WellFormed; infer_instance

/-! ## Notions used to state the properties -/

/-- User handlers that do not touch the process state: they neither call back into an
event system nor destroy an object. -/
def FUserCode.Passive (U : FUserCode) : Prop := ∀ h e w, U h e w = w

/-- Hooks that do not touch the process state; their results are arbitrary. -/
def FHooks.Passive (V : FHooks) : Prop :=
  (∀ e w, (V.BeforeSend e w).2 = w) ∧ (∀ e o w, (V.BeforeReceive e o w).2 = w) ∧
  (∀ e o w, V.AfterReceive e o w = w) ∧ (∀ e w, V.AfterSend e w = w)

/-- The calls `SendEvent` makes for one record of its array when no user code touches the
process state. -/
def ULES_EventSystem.SendEvent_Visit (V : FHooks) (Event : ULES_Event) (w : FWorld)
    (Record : FRecord) : List FCall :=
  if !IsValid w Record.Object.Observer then []
  else if (V.BeforeReceive Event (TWeakObjectPtr.Get w Record.Object.Observer) w).1 then
    [FCall.BeforeReceive Event (TWeakObjectPtr.Get w Record.Object.Observer),
     FCall.Callback Record Event,
     FCall.AfterReceive Event (TWeakObjectPtr.Get w Record.Object.Observer)]
  else [FCall.BeforeReceive Event (TWeakObjectPtr.Get w Record.Object.Observer)]

/-- User handlers under which a destroyed object `X` stays destroyed. -/
def FUserCode.NeverRevives (U : FUserCode) (X : Nat) : Prop :=
  ∀ h e w, X ∈ w.Destroyed → X ∈ (U h e w).Destroyed

/-- Hooks under which a destroyed object `X` stays destroyed. -/
def FHooks.NeverRevive (V : FHooks) (X : Nat) : Prop :=
  (∀ e w, X ∈ w.Destroyed → X ∈ (V.BeforeSend e w).2.Destroyed) ∧
  (∀ e o w, X ∈ w.Destroyed → X ∈ (V.BeforeReceive e o w).2.Destroyed) ∧
  (∀ e o w, X ∈ w.Destroyed → X ∈ (V.AfterReceive e o w).Destroyed) ∧
  (∀ e w, X ∈ w.Destroyed → X ∈ (V.AfterSend e w).Destroyed)

/-- The call is made for observer `X`: it is the stored callback of a record of `X`, or
`BeforeReceive` or `AfterReceive` with `X`. -/
def FCall.IsFor (X : Nat) : FCall → Bool
  | .Callback Record _ => decide (Record.Object.Observer = some X)
  | .BeforeReceive _ Observer => decide (Observer = some X)
  | .AfterReceive _ Observer => decide (Observer = some X)
  | .BeforeSend _ => false
  | .AfterSend _ => false

/-- The call is a call of the hook `BeforeReceive`. -/
def FCall.IsBeforeReceive : FCall → Bool
  | .BeforeReceive _ _ => true
  | _ => false

/-- The call is a call of the stored callback of a record. -/
def FCall.IsCallback : FCall → Bool
  | .Callback _ _ => true
  | _ => false

/-- The call is a call of the hook `AfterReceive`. -/
def FCall.IsAfterReceive : FCall → Bool
  | .AfterReceive _ _ => true
  | _ => false

/-- User handlers that bring no destroyed object back. -/
def FUserCode.RevivesNothing (U : FUserCode) : Prop := ∀ X, U.NeverRevives X

/-- Hooks that bring no destroyed object back. -/
def FHooks.ReviveNothing (V : FHooks) : Prop := ∀ X, V.NeverRevive X

/-- The garbage collector destroys an object. No event system is told. -/
def FWorld.Destroy (w : FWorld) (Object : Nat) : FWorld :=
  { w with Destroyed := Object :: w.Destroyed }

/-- The record a handle refers to is stored in this event system under the key of the
handle. A handle returned by a subscribe function carries the key its record was added
under. -/
def FWorld.Holds (w : FWorld) (h : FLES_ObserverHandle) : Prop :=
  ∃ p ∈ w.This.ObserverRecords,
    p.1 = h.ObserverKey ∧ TSharedPtr.Equals p.2 h.ObserverRecord = true

instance (w : FWorld) (h : FLES_ObserverHandle) : Decidable (w.Holds h) := by
  unfold FWorld.Holds; infer_instance

/-- The parameters of a reflected function: its leading child properties that carry
`CPF_Parm`. -/
def UFunction.Parameters (f : UFunction) : List FProperty :=
  f.ChildProperties.takeWhile fun p => p.PropertyFlags &&& CPF_Parm != 0

/-- The input parameters of a reflected function: the parameters without `CPF_OutParm`. -/
def UFunction.Inputs (f : UFunction) : List FProperty :=
  f.Parameters.filter fun p => !(p.PropertyFlags &&& CPF_OutParm != 0)

/-- The output and return parameters of a reflected function: the parameters with
`CPF_OutParm`. -/
def UFunction.Outputs (f : UFunction) : List FProperty :=
  f.Parameters.filter fun p => p.PropertyFlags &&& CPF_OutParm != 0

/-- The property is an object pointer whose class is `ULES_Event` or derives from it. -/
def FProperty.IsEventObject (R : FReflection) (p : FProperty) : Bool :=
  match p with
  | .Object _ c => R.IsChildOf c ULES_Event.StaticClass
  | .Other _ => false

/-- User handlers that destroy no object and revive none; they may call any member
function of any event system. -/
def FUserCode.KeepsObjects (U : FUserCode) : Prop := ∀ h e w, (U h e w).Destroyed = w.Destroyed

/-- Hooks that destroy no object and revive none; their results are arbitrary. -/
def FHooks.KeepObjects (V : FHooks) : Prop :=
  (∀ e w, (V.BeforeSend e w).2.Destroyed = w.Destroyed) ∧
  (∀ e o w, (V.BeforeReceive e o w).2.Destroyed = w.Destroyed) ∧
  (∀ e o w, (V.AfterReceive e o w).Destroyed = w.Destroyed) ∧
  (∀ e w, (V.AfterSend e w).Destroyed = w.Destroyed)

/-! ## The garbage collector and sequences of operations -/

/-- Some key of some event system holds the object through its `TStrongObjectPtr`. -/
def FWorld.StronglyHeld (w : FWorld) (Object : Nat) : Bool :=
  w.Systems.any fun b => b.ObserverRecords.any fun p => decide (p.1.1 = some Object)

/-- One step of the garbage collector of the engine on one object: the object is destroyed
unless a strong pointer holds it. -/
def FWorld.CollectGarbage (w : FWorld) (Object : Nat) : FWorld :=
  if w.StronglyHeld Object then w else w.Destroy Object

/-- One operation on the event system `This`: a call of a public member function, or a
step of the garbage collector. -/
inductive FOp where
  | AddObserver_Method (TEvent : Nat) (Observer : Option Nat) (Callback : Nat)
      (Channel : FName)
  | AddObserver_Functor (TEvent : Nat) (Observer : Option Nat) (Callback : Nat)
      (Channel : FName)
  | BP_AddObserver_Event (EventClass : Option Nat) (Observer : Option Nat)
      (Callback : FLES_EventHandler) (Channel : FName)
  | BP_AddObserver_Function (EventClass : Option Nat) (Observer : Option Nat)
      (FunctionName : FName) (Channel : FName)
  | RemoveByHandle (ObserverHandle : FLES_ObserverHandle)
  | RemoveByObserver (Observer : Option Nat)
  | RemoveAll
  | Clean
  | SendEvent (Event : Option ULES_Event)
  | CollectGarbage (Object : Nat)
  deriving DecidableEq, Repr

/-- The operation is one of the four subscribe functions. -/
def FOp.IsSubscribe : FOp → Bool
  | .AddObserver_Method _ _ _ _ => true
  | .AddObserver_Functor _ _ _ _ => true
  | .BP_AddObserver_Event _ _ _ _ => true
  | .BP_AddObserver_Function _ _ _ _ => true
  | _ => false

/-- The channel argument of a subscribe operation; the default channel for the others. -/
def FOp.Channel : FOp → FName
  | .AddObserver_Method _ _ _ Channel => Channel
  | .AddObserver_Functor _ _ _ Channel => Channel
  | .BP_AddObserver_Event _ _ _ Channel => Channel
  | .BP_AddObserver_Function _ _ _ Channel => Channel
  | _ => NAME_None

/-- The observer argument of a subscribe operation; null for the others. -/
def FOp.Observer : FOp → Option Nat
  | .AddObserver_Method _ Observer _ _ => Observer
  | .AddObserver_Functor _ Observer _ _ => Observer
  | .BP_AddObserver_Event _ Observer _ _ => Observer
  | .BP_AddObserver_Function _ Observer _ _ => Observer
  | _ => none

/-- The handle an operation returns (the default handle when it returns none) and the
state after it. -/
def FOp.Call (R : FReflection) (V : FHooks) (U : FUserCode) (op : FOp) (w : FWorld) :
    FLES_ObserverHandle × FWorld :=
  match op with
  | .AddObserver_Method TEvent Observer Callback Channel =>
    ULES_EventSystem.AddObserver_Method R w TEvent Observer Callback Channel
  | .AddObserver_Functor TEvent Observer Callback Channel =>
    ULES_EventSystem.AddObserver_Functor R w TEvent Observer Callback Channel
  | .BP_AddObserver_Event EventClass Observer Callback Channel =>
    ULES_EventSystem.BP_AddObserver_Event R w EventClass Observer Callback Channel
  | .BP_AddObserver_Function EventClass Observer FunctionName Channel =>
    ULES_EventSystem.BP_AddObserver_Function R w EventClass Observer FunctionName Channel
  | .RemoveByHandle ObserverHandle =>
    (FLES_ObserverHandle.Default, (ULES_EventSystem.RemoveByHandle w ObserverHandle).2)
  | .RemoveByObserver Observer =>
    (FLES_ObserverHandle.Default, (ULES_EventSystem.RemoveByObserver w Observer).2)
  | .RemoveAll => (FLES_ObserverHandle.Default, ULES_EventSystem.RemoveAll w)
  | .Clean => (FLES_ObserverHandle.Default, (ULES_EventSystem.Clean w).2)
  | .SendEvent Event =>
    (FLES_ObserverHandle.Default, (ULES_EventSystem.SendEvent R V U w Event).1)
  | .CollectGarbage Object => (FLES_ObserverHandle.Default, w.CollectGarbage Object)

/-- The state after a sequence of operations, first to last. -/
def FWorld.Run (R : FReflection) (V : FHooks) (U : FUserCode) (ops : List FOp) (w : FWorld) :
    FWorld :=
  ops.foldl (fun w op => (op.Call R V U w).2) w

/-- The event systems of the process and the arrays of the `SendEvent` calls in progress
are the same in both states. -/
def FWorld.SameSystems (w' w : FWorld) : Prop :=
  w'.This = w.This ∧ w'.Others = w.Others ∧ w'.Running = w.Running

/-- User handlers that leave every event system as they find it: they call no member
function of an event system. -/
def FUserCode.KeepsSystems (U : FUserCode) : Prop :=
  ∀ h e w, (U h e w).SameSystems w

/-- Hooks that leave every event system as they find it; their results are arbitrary. -/
def FHooks.KeepsSystems (V : FHooks) : Prop :=
  (∀ e w, (V.BeforeSend e w).2.SameSystems w) ∧
  (∀ e o w, (V.BeforeReceive e o w).2.SameSystems w) ∧
  (∀ e o w, (V.AfterReceive e o w).SameSystems w) ∧
  (∀ e w, (V.AfterSend e w).SameSystems w)

/-- The invariant that links a handle with key `k` and record `r`, issued by `This`, to
the index: no control block is stored twice, every stored block and the block of `r` were
handed out by the allocator, a pair of `This` with the block of `r` is the pair `(k, r)`
and then the class of `k` is valid, and no other event system stores the block of `r`. -/
def FWorld.Tracks (w : FWorld) (k : FKey) (r : FRecord) : Prop :=
  (w.Shared.map fun q => q.Block).Nodup ∧
  (∀ q ∈ w.Shared, q.Block < w.Allocated) ∧
  r.Block < w.Allocated ∧
  (∀ p ∈ w.This.ObserverRecords, p.2.Block = r.Block → p = (k, r) ∧ IsValid w k.1 = true) ∧
  (∀ q ∈ (w.Others.flatMap fun b => b.ObserverRecords).map Prod.snd, q.Block ≠ r.Block)

/-- User handlers that keep the invariant of the handle with key `k` and record `r`, do not
put the pair back once it is gone, and leave the `SendEvent` calls in progress as they
find them. -/
def FUserCode.Respects (U : FUserCode) (k : FKey) (r : FRecord) : Prop :=
  ∀ h e w, w.Tracks k r →
    (U h e w).Tracks k r ∧
    ((k, r) ∉ w.This.ObserverRecords → (k, r) ∉ (U h e w).This.ObserverRecords) ∧
    (U h e w).Running = w.Running

/-- User handlers that call member functions of the event system: the handler `h` that
receives the event `e` performs the operations `S h e` in order. A `SendEvent` among them
runs handlers of the same kind, nested at most `n` deep; the handlers of depth 0 do
nothing. -/
def FUserCode.Script (R : FReflection) (V : FHooks) (S : FHandler → ULES_Event → List FOp) :
    Nat → FUserCode
  | 0 => fun _ _ w => w
  | n + 1 => fun h e w => FWorld.Run R V (FUserCode.Script R V S n) (S h e) w

/-! ## The classes of `TestClasses.h` -/

namespace TestClasses

/-- Class object of `UObject`. -/
def UObject_StaticClass : Nat := 0

/-- Class object of `ULES_TestEvent`, a subclass of `ULES_Event`. -/
def ULES_TestEvent_StaticClass : Nat := 2

/-- Class object of `ULES_DerivedEvent`, a subclass of `ULES_TestEvent`. -/
def ULES_DerivedEvent_StaticClass : Nat := 3

/-- Class object of `ULES_OtherTestEvent`, a subclass of `ULES_Event`. -/
def ULES_OtherTestEvent_StaticClass : Nat := 4

/-- Class object of `ULES_TestObserver`, a subclass of `UObject`. -/
def ULES_TestObserver_StaticClass : Nat := 5

/-- The function name `OnTestEvent`. -/
def OnTestEvent : FName := 11

/-- The function name `OnDerivedEvent`. -/
def OnDerivedEvent : FName := 12

/-- The function name `OnOtherTestEvent`. -/
def OnOtherTestEvent : FName := 13

/-- The function name `OnEvent`. -/
def OnEvent : FName := 14

/-- The reflected form of a handler `void F(const TEvent* Event)`: one input parameter, an
object property of the event class. -/
def HandlerFunction (Self : Nat) (ParamClass : Nat) : UFunction :=
  { Self := Self, ChildProperties := [FProperty.Object (CPF_Parm ||| 0x2) ParamClass] }

/-- The reflection data of the test module: `ULES_Event` is abstract, the three test events
derive from it, and every object from 100 on is a `ULES_TestObserver` with its four
`UFUNCTION` handlers. -/
def Reflection : FReflection :=
  { BaseChain := fun c =>
      if c = ULES_Event.StaticClass then [UObject_StaticClass]
      else if c = ULES_TestEvent_StaticClass then [ULES_Event.StaticClass, UObject_StaticClass]
      else if c = ULES_DerivedEvent_StaticClass then
        [ULES_TestEvent_StaticClass, ULES_Event.StaticClass, UObject_StaticClass]
      else if c = ULES_OtherTestEvent_StaticClass then
        [ULES_Event.StaticClass, UObject_StaticClass]
      else if c = ULES_TestObserver_StaticClass then [UObject_StaticClass]
      else []
    ClassFlags := fun c => if c = ULES_Event.StaticClass then CLASS_Abstract else 0
    FindFunction := fun o n =>
      if o < 100 then none
      else if n = OnTestEvent then some (HandlerFunction 51 ULES_TestEvent_StaticClass)
      else if n = OnDerivedEvent then some (HandlerFunction 52 ULES_DerivedEvent_StaticClass)
      else if n = OnOtherTestEvent then some (HandlerFunction 53 ULES_OtherTestEvent_StaticClass)
      else if n = OnEvent then some (HandlerFunction 54 ULES_Event.StaticClass)
      else none }

/-- A freshly created event system in a process with no other event system. -/
def Fresh : FWorld :=
  { Destroyed := []
    Allocated := 0
    This := { ObserverRecords := [] }
    Others := []
    Running := [] }

/-- User handlers that have no effect on the process state. -/
def Idle : FUserCode := fun _ _ w => w

/-- The channel `"Some channel"` of the test "Sending events". -/
def FirstChannel : FName := 21

/-- The channel `"Yet another channel"` of the test "Sending events". -/
def SecondChannel : FName := 22

/-- The index that the test "Sending events" builds: observers 100 to 103 stand for
`Observers[0]` to `Observers[3]`. -/
def SendingEvents : FWorld :=
  let w :=
    (ULES_EventSystem.AddObserver_Method Reflection Fresh ULES_TestEvent_StaticClass (some 100) 1
      NAME_None).2
  let w :=
    (ULES_EventSystem.AddObserver_Functor Reflection w ULES_TestEvent_StaticClass (some 100) 7
      NAME_None).2
  let w :=
    (ULES_EventSystem.AddObserver_Method Reflection w ULES_TestEvent_StaticClass (some 101) 1
      NAME_None).2
  let w :=
    (ULES_EventSystem.AddObserver_Method Reflection w ULES_TestEvent_StaticClass (some 102) 1
      FirstChannel).2
  let w :=
    (ULES_EventSystem.AddObserver_Method Reflection w ULES_TestEvent_StaticClass (some 103) 1
      SecondChannel).2
  let w :=
    (ULES_EventSystem.AddObserver_Method Reflection w ULES_DerivedEvent_StaticClass (some 103) 2
      SecondChannel).2
  let w :=
    (ULES_EventSystem.AddObserver_Method Reflection w ULES_OtherTestEvent_StaticClass (some 103) 3
      NAME_None).2
  let w :=
    (ULES_EventSystem.BP_AddObserver_Event Reflection w (some ULES_TestEvent_StaticClass)
      (some 103) { Object := some 103, FunctionName := OnEvent } NAME_None).2
  (ULES_EventSystem.BP_AddObserver_Function Reflection w (some ULES_TestEvent_StaticClass)
    (some 103) OnTestEvent NAME_None).2

/-- First record of `Observers[0]`: the member function handler on the default channel. -/
def Record0 : FRecord :=
  { Block := 0
    Object := { Channel := NAME_None, Observer := some 100, Callback := .Method (some 100) 1 } }

/-- Second record of `Observers[0]`: the functor handler on the default channel. -/
def Record1 : FRecord :=
  { Block := 1
    Object := { Channel := NAME_None, Observer := some 100, Callback := .Functor (some 100) 7 } }

/-- The record of `Observers[3]` for `ULES_TestEvent` on `SecondChannel`. -/
def Record4 : FRecord :=
  { Block := 4
    Object := { Channel := SecondChannel, Observer := some 103, Callback := .Method (some 103) 1 } }

/-- A `ULES_TestEvent` sent on the default channel. -/
def TestEvent : ULES_Event :=
  { Self := 200, Class := ULES_TestEvent_StaticClass, Channel := NAME_None, Sender := none }

/-- A `ULES_DerivedEvent` sent on `SecondChannel`. -/
def DerivedEvent : ULES_Event :=
  { Self := 201, Class := ULES_DerivedEvent_StaticClass, Channel := SecondChannel, Sender := none }

/-- The handle that the second subscribe call of the test "Sending events" returned. -/
def Handle1 : FLES_ObserverHandle :=
  { ObserverKey := (some ULES_TestEvent_StaticClass, NAME_None), ObserverRecord := some Record1 }

/-- Two event systems with one record each under the same key: this one stores `Record0`,
the other one stores `Record1`. -/
def TwoSystems : FWorld :=
  { Destroyed := []
    Allocated := 2
    This := { ObserverRecords := [((some ULES_TestEvent_StaticClass, NAME_None), Record0)] }
    Others := [{ ObserverRecords := [((some ULES_TestEvent_StaticClass, NAME_None), Record1)] }]
    Running := [] }

/-- The handle that `Observers[3]` got for `ULES_TestEvent` on `SecondChannel`. -/
def Handle4 : FLES_ObserverHandle :=
  { ObserverKey := (some ULES_TestEvent_StaticClass, SecondChannel)
    ObserverRecord := some Record4 }

/-- Hooks of an event system that overrides `BeforeSend` to refuse every event. -/
def Veto : FHooks :=
  { ULES_EventSystem.DefaultHooks with BeforeSend := fun _ w => (false, w) }

/-- Hooks of an event system that overrides `BeforeSend` to subscribe observer 100 to the
class and channel of the event that is about to be sent. -/
def SubscribingHooks : FHooks :=
  { ULES_EventSystem.DefaultHooks with
    BeforeSend := fun e w =>
      (true, (ULES_EventSystem.AddObserver_Method Reflection w e.Class (some 100) 1 e.Channel).2) }

/-- User handlers that subscribe observer 100 once more to the class and channel of the
event they receive. -/
def Resubscribe : FUserCode := fun _ e w =>
  (ULES_EventSystem.AddObserver_Method Reflection w e.Class (some 100) 1 e.Channel).2

/-- The record that the tenth subscribe call on the index of the test allocates when it
subscribes observer 100 as `Resubscribe` does for `TestEvent`. -/
def Record9 : FRecord :=
  { Block := 9
    Object := { Channel := NAME_None, Observer := some 100, Callback := .Method (some 100) 1 } }

/-- A subscribe call of `Observers[3]` for `ULES_TestEvent` on `SecondChannel`, as an
operation. -/
def SubscribeSecond : FOp :=
  .AddObserver_Method ULES_TestEvent_StaticClass (some 103) 1 SecondChannel

/-- User handlers that call `RemoveAll` on the event system that sends the event. -/
def Clearing : FUserCode := fun _ _ w => ULES_EventSystem.RemoveAll w

/-- User handlers that call `RemoveByHandle` with `Handle1` and then `RemoveByObserver`
with `Observers[3]`. -/
def Unsubscribing : FUserCode := fun _ _ w =>
  (ULES_EventSystem.RemoveByObserver (ULES_EventSystem.RemoveByHandle w Handle1).2 (some 103)).2

/-- The record of `Observers[3]` that `BP_AddObserver_Function` added in the test
"Sending events". -/
def Record8 : FRecord :=
  { Block := 8
    Object :=
      { Channel := NAME_None, Observer := some 103, Callback := .Function (some 103) (some 51) } }

/-- The class object `ULES_IntegerEvent::StaticClass()` of `BasicEvents.h`. -/
def ULES_IntegerEvent_StaticClass : Nat := 6

/-- The reflection data of the test module together with `ULES_IntegerEvent`, which derives
from `ULES_Event`. -/
def Reflection_BasicEvents : FReflection :=
  { Reflection with
    BaseChain := fun c =>
      if c = ULES_IntegerEvent_StaticClass then [ULES_Event.StaticClass, UObject_StaticClass]
      else Reflection.BaseChain c }

/-- An event system in which `Observers[0]` listens for `ULES_IntegerEvent` and the call
omitted the channel. -/
def IntegerListener : FWorld :=
  (ULES_EventSystem.AddObserver_Method Reflection_BasicEvents Fresh ULES_IntegerEvent_StaticClass
    (some 100) 1 ULES_EventSystem.AddObserver_Channel_Default).2

/-- The engine call `NewObject` of a process whose next object is 200. -/
def NewObject : Nat → Option Nat → Nat := fun _ _ => 200

/-- Handlers that call `RemoveAll`. -/
def RemovingAll : FHandler → ULES_Event → List FOp := fun _ _ => [.RemoveAll]

end TestClasses

/-! ## Lemmas on the multi map and on weak pointers -/

open ULES_EventSystem

theorem mem_MultiFind (m : TMultiMap) (Key : FKey) (r : FRecord) :
    r ∈ TMultiMap.MultiFind m Key ↔ (Key, r) ∈ m := by
  unfold TMultiMap.MultiFind
  constructor
  · intro h
    obtain ⟨p, hp, rfl⟩ := List.mem_map.1 h
    have h2 := List.mem_filter.1 hp
    have hk : p.1 = Key := by simpa using h2.2
    have : p = (Key, p.2) := by rw [← hk]
    rw [← this]; exact h2.1
  · intro h
    exact List.mem_map.2 ⟨(Key, r), List.mem_filter.2 ⟨h, by simp⟩, rfl⟩

theorem This_subset_Shared (w : FWorld) (p : FKey × FRecord) (hp : p ∈ w.This.ObserverRecords) :
    p.2 ∈ w.Shared := by
  unfold FWorld.Shared FWorld.Systems
  exact List.mem_map.2 ⟨p, by simp [hp], rfl⟩

theorem nodup_This_blocks (w : FWorld) (hwf : w.WellFormed) :
    (w.This.ObserverRecords.map fun p => p.2.Block).Nodup := by
  have h := hwf.1
  unfold FWorld.Shared FWorld.Systems at h
  simp only [List.flatMap_cons, List.map_append, List.map_map] at h
  exact (List.nodup_append.1 h).1

theorem key_unique (w : FWorld) (hwf : w.WellFormed) (p q : FKey × FRecord)
    (hp : p ∈ w.This.ObserverRecords) (hq : q ∈ w.This.ObserverRecords)
    (hb : p.2.Block = q.2.Block) : p = q :=
  List.inj_on_of_nodup_map (nodup_This_blocks w hwf) hp hq hb

theorem nodup_MultiFind (w : FWorld) (hwf : w.WellFormed) (Key : FKey) :
    (TMultiMap.MultiFind w.This.ObserverRecords Key).Nodup := by
  have h := nodup_This_blocks w hwf
  have h1 : (w.This.ObserverRecords.map Prod.snd).Nodup := by
    have : (w.This.ObserverRecords.map fun p => p.2.Block)
        = (w.This.ObserverRecords.map Prod.snd).map fun r => r.Block := by
      simp [List.map_map, Function.comp]
    rw [this] at h
    exact List.Nodup.of_map _ h
  unfold TMultiMap.MultiFind
  exact List.Nodup.sublist (List.Sublist.map _ (List.filter_sublist _)) h1

/-! ## Lemmas on `SendEvent` -/

theorem Call_passive (R : FReflection) (U : FUserCode) (hU : U.Passive) (f : TFunction)
    (e : ULES_Event) (w : FWorld) : TFunction.Call R U f e w = w := by
  cases f <;> simp only [TFunction.Call] <;> repeat (first | split | rfl | exact hU _ _ _)

theorem SendEvent_Loop_passive (R : FReflection) (V : FHooks) (U : FUserCode)
    (hV : V.Passive) (hU : U.Passive) (e : ULES_Event) (Records : List FRecord) (w : FWorld) :
    SendEvent_Loop R V U e Records w = (w, Records.flatMap (SendEvent_Visit V e w)) := by
  induction Records with
  | nil => rfl
  | cons Record Records ih =>
    obtain ⟨_, hBR, hAR, _⟩ := hV
    simp only [SendEvent_Loop, List.flatMap_cons, SendEvent_Visit]
    by_cases hv : IsValid w Record.Object.Observer = true
    · by_cases hb : (V.BeforeReceive e (TWeakObjectPtr.Get w Record.Object.Observer) w).1 = true
      · simp [hv, hb, hBR, hAR, Call_passive R U hU, ih]
      · simp [hv, hb, hBR, ih]
    · simp [hv, ih]

theorem Leave_Enter (w : FWorld) (Records : List FRecord) :
    (w.Enter Records).Leave Records = w := by
  simp [FWorld.Enter, FWorld.Leave]

theorem IsValid_Enter (w : FWorld) (Records : List FRecord) (p : Option Nat) :
    IsValid (w.Enter Records) p = IsValid w p := by
  cases p <;> rfl

theorem SendEvent_passive (R : FReflection) (V : FHooks) (U : FUserCode)
    (hV : V.Passive) (hU : U.Passive) (w : FWorld) (e : ULES_Event)
    (hvalid : IsValid w (some e.Self) = true) :
    SendEvent R V U w (some e) =
      (w, if (V.BeforeSend e w).1 then
            [FCall.BeforeSend e] ++
              (TMultiMap.MultiFind w.This.ObserverRecords (some e.Class, e.Channel)).flatMap
                (SendEvent_Visit V e
                  (w.Enter
                    (TMultiMap.MultiFind w.This.ObserverRecords (some e.Class, e.Channel)))) ++
              [FCall.AfterSend e]
          else [FCall.BeforeSend e]) := by
  have hBS := hV.1
  have hAS := hV.2.2.2
  simp only [SendEvent, hvalid]
  by_cases hb : (V.BeforeSend e w).1 = true
  · simp [hb, hBS, hAS, SendEvent_Loop_passive R V U hV hU, Leave_Enter]
  · simp [hb, hBS]

theorem SendEvent_Loop_callback (R : FReflection) (V : FHooks) (U : FUserCode)
    (e : ULES_Event) (Records : List FRecord) (w : FWorld) (r : FRecord) (e' : ULES_Event)
    (h : FCall.Callback r e' ∈ (SendEvent_Loop R V U e Records w).2) :
    r ∈ Records ∧ e' = e := by
  induction Records generalizing w with
  | nil => simp [SendEvent_Loop] at h
  | cons Record Records ih =>
    simp only [SendEvent_Loop] at h
    split at h
    · have := ih _ h
      exact ⟨List.mem_cons_of_mem _ this.1, this.2⟩
    · split at h
      · simp only [List.cons_append, List.nil_append, List.mem_cons, FCall.Callback.injEq,
          reduceCtorEq, false_or] at h
        rcases h with ⟨rfl, rfl⟩ | h
        · exact ⟨List.mem_cons_self _ _, rfl⟩
        · have := ih _ h
          exact ⟨List.mem_cons_of_mem _ this.1, this.2⟩
      · simp only [List.mem_cons, reduceCtorEq, false_or] at h
        have := ih _ h
        exact ⟨List.mem_cons_of_mem _ this.1, this.2⟩

theorem SendEvent_callback (R : FReflection) (V : FHooks) (U : FUserCode) (w : FWorld)
    (e : ULES_Event) (r : FRecord) (e' : ULES_Event)
    (h : FCall.Callback r e' ∈ (SendEvent R V U w (some e)).2) :
    ((some e.Class, e.Channel), r) ∈ (V.BeforeSend e w).2.This.ObserverRecords ∧ e' = e := by
  simp only [SendEvent] at h
  split at h
  · simp at h
  · split at h
    · simp at h
    · simp only [List.cons_append, List.nil_append, List.mem_cons, reduceCtorEq, false_or,
        List.mem_append, List.mem_singleton, List.not_mem_nil, or_false] at h
      have := SendEvent_Loop_callback R V U e _ _ r e' h
      exact ⟨(mem_MultiFind _ _ _).1 this.1, this.2⟩

theorem count_callback_default (e : ULES_Event) (w : FWorld) (Records : List FRecord)
    (r : FRecord) (e' : ULES_Event) :
    (Records.flatMap (SendEvent_Visit DefaultHooks e w)).count (FCall.Callback r e') =
      if e' = e ∧ IsValid w r.Object.Observer = true then Records.count r else 0 := by
  induction Records with
  | nil => simp
  | cons Record Records ih =>
    simp only [List.flatMap_cons, List.count_append, ih, List.count_cons]
    by_cases hv : IsValid w Record.Object.Observer = true
    · by_cases hr : Record = r
      · subst hr
        by_cases he : e' = e
        · subst he
          simp [SendEvent_Visit, DefaultHooks, BeforeReceive_Implementation, hv, List.count_cons]
          omega
        · have he2 : ¬ e = e' := fun h => he h.symm
          simp [SendEvent_Visit, DefaultHooks, BeforeReceive_Implementation, hv, List.count_cons,
            he, he2]
      · have hr2 : ¬ r = Record := fun h => hr h.symm
        simp [SendEvent_Visit, DefaultHooks, BeforeReceive_Implementation, hv, List.count_cons,
          hr, hr2]
    · by_cases hr : Record = r
      · subst hr
        simp [SendEvent_Visit, hv]
      · simp [SendEvent_Visit, hv, hr]

theorem count_MultiFind (w : FWorld) (hwf : w.WellFormed) (Key : FKey) (r : FRecord) :
    (TMultiMap.MultiFind w.This.ObserverRecords Key).count r =
      if (Key, r) ∈ w.This.ObserverRecords then 1 else 0 := by
  rw [List.count_eq_of_nodup (nodup_MultiFind w hwf Key)]
  simp only [mem_MultiFind]

theorem count_callback_SendEvent (R : FReflection) (U : FUserCode) (w : FWorld)
    (e : ULES_Event) (hwf : w.WellFormed) (hvalid : IsValid w (some e.Self) = true)
    (hU : U.Passive) (r : FRecord) (e' : ULES_Event) :
    ((SendEvent R DefaultHooks U w (some e)).2).count (FCall.Callback r e') =
      if e' = e ∧ ((some e.Class, e.Channel), r) ∈ w.This.ObserverRecords ∧
          IsValid w r.Object.Observer = true then 1 else 0 := by
  have hV : DefaultHooks.Passive :=
    ⟨fun _ _ => rfl, fun _ _ _ => rfl, fun _ _ _ => rfl, fun _ _ => rfl⟩
  rw [SendEvent_passive R DefaultHooks U hV hU w e hvalid]
  have hb : (DefaultHooks.BeforeSend e w).1 = true := rfl
  simp only [hb, if_true, List.count_append, count_callback_default, count_MultiFind w hwf,
    IsValid_Enter]
  simp only [List.count_cons, List.count_nil, beq_iff_eq, reduceCtorEq, if_false, zero_add,
    add_zero]
  by_cases h1 : e' = e <;>
    by_cases h2 : ((some e.Class, e.Channel), r) ∈ w.This.ObserverRecords <;>
    by_cases h3 : IsValid w r.Object.Observer = true <;> simp [h1, h2, h3]

theorem Call_invariant (R : FReflection) (U : FUserCode) (P : FWorld → Prop)
    (hU : ∀ h e w, P w → P (U h e w)) (f : TFunction) (e : ULES_Event) (w : FWorld)
    (hw : P w) : P (TFunction.Call R U f e w) := by
  cases f <;> simp only [TFunction.Call] <;>
    repeat (first | split | exact hw | exact hU _ _ _ hw)

theorem SendEvent_Loop_invariant (R : FReflection) (V : FHooks) (U : FUserCode)
    (P : FWorld → Prop) (hBR : ∀ e o w, P w → P (V.BeforeReceive e o w).2)
    (hAR : ∀ e o w, P w → P (V.AfterReceive e o w)) (hU : ∀ h e w, P w → P (U h e w))
    (e : ULES_Event) (Records : List FRecord) (w : FWorld) (hw : P w) :
    P (SendEvent_Loop R V U e Records w).1 := by
  induction Records generalizing w with
  | nil => exact hw
  | cons Record Records ih =>
    simp only [SendEvent_Loop]
    split
    · exact ih w hw
    · split
      · exact ih _ (hAR _ _ _ (Call_invariant R U P hU _ _ _ (hBR _ _ _ hw)))
      · exact ih _ (hBR _ _ _ hw)

theorem SendEvent_invariant (R : FReflection) (V : FHooks) (U : FUserCode)
    (P : FWorld → Prop) (hBS : ∀ e w, P w → P (V.BeforeSend e w).2)
    (hBR : ∀ e o w, P w → P (V.BeforeReceive e o w).2)
    (hAR : ∀ e o w, P w → P (V.AfterReceive e o w)) (hAS : ∀ e w, P w → P (V.AfterSend e w))
    (hU : ∀ h e w, P w → P (U h e w)) (hEnter : ∀ w Records, P w → P (w.Enter Records))
    (hLeave : ∀ w Records, P w → P (w.Leave Records)) (w : FWorld)
    (Event : Option ULES_Event) (hw : P w) : P (SendEvent R V U w Event).1 := by
  cases Event with
  | none => exact hw
  | some e =>
    simp only [SendEvent]
    split
    · exact hw
    · split
      · exact hBS _ _ hw
      · exact hLeave _ _ (hAS _ _ (SendEvent_Loop_invariant R V U P hBR hAR hU e _ _
          (hEnter _ _ (hBS _ _ hw))))

theorem Call_neverRevives (R : FReflection) (U : FUserCode) (X : Nat) (hU : U.NeverRevives X)
    (f : TFunction) (e : ULES_Event) (w : FWorld) (hX : X ∈ w.Destroyed) :
    X ∈ (TFunction.Call R U f e w).Destroyed := by
  cases f <;> simp only [TFunction.Call] <;>
    repeat (first | split | exact hX | exact hU _ _ _ hX)

theorem Get_ne_destroyed (w w' : FWorld) (X : Nat) (hX : X ∈ w.Destroyed)
    (p : Option Nat) (hp : IsValid w p = true) : TWeakObjectPtr.Get w' p ≠ some X := by
  have hne : p ≠ some X := by
    rintro rfl
    simp [IsValid, hX] at hp
  unfold TWeakObjectPtr.Get
  split
  · exact hne
  · simp

theorem SendEvent_Loop_destroyed (R : FReflection) (V : FHooks) (U : FUserCode) (X : Nat)
    (hV : V.NeverRevive X) (hU : U.NeverRevives X) (e : ULES_Event) (Records : List FRecord)
    (w : FWorld) (hX : X ∈ w.Destroyed) :
    X ∈ (SendEvent_Loop R V U e Records w).1.Destroyed ∧
      ∀ c ∈ (SendEvent_Loop R V U e Records w).2, c.IsFor X = false := by
  induction Records generalizing w with
  | nil => exact ⟨hX, by simp [SendEvent_Loop]⟩
  | cons Record Records ih =>
    simp only [SendEvent_Loop]
    split
    · exact ih w hX
    · rename_i hv
      have hv' : IsValid w Record.Object.Observer = true := by simpa using hv
      have hobs : Record.Object.Observer ≠ some X := by
        intro h
        rw [h] at hv'
        simp [IsValid, hX] at hv'
      have h1 := hV.2.1 e (TWeakObjectPtr.Get w Record.Object.Observer) w hX
      split
      · have h2 := Call_neverRevives R U X hU Record.Object.Callback e _ h1
        have h3 := hV.2.2.1 e (TWeakObjectPtr.Get (TFunction.Call R U Record.Object.Callback e
          (V.BeforeReceive e (TWeakObjectPtr.Get w Record.Object.Observer) w).2)
          Record.Object.Observer) _ h2
        obtain ⟨ih1, ih2⟩ := ih _ h3
        refine ⟨ih1, ?_⟩
        intro c hc
        simp only [List.cons_append, List.nil_append, List.mem_cons] at hc
        rcases hc with rfl | rfl | rfl | hc
        · simpa [FCall.IsFor] using Get_ne_destroyed w w X hX _ hv'
        · simpa [FCall.IsFor] using hobs
        · simpa [FCall.IsFor] using Get_ne_destroyed w _ X hX _ hv'
        · exact ih2 c hc
      · obtain ⟨ih1, ih2⟩ := ih _ h1
        refine ⟨ih1, ?_⟩
        intro c hc
        simp only [List.mem_cons] at hc
        rcases hc with rfl | hc
        · simpa [FCall.IsFor] using Get_ne_destroyed w w X hX _ hv'
        · exact ih2 c hc

theorem SendEvent_destroyed (R : FReflection) (V : FHooks) (U : FUserCode) (X : Nat)
    (hV : V.NeverRevive X) (hU : U.NeverRevives X) (w : FWorld) (Event : Option ULES_Event)
    (hX : X ∈ w.Destroyed) :
    X ∈ (SendEvent R V U w Event).1.Destroyed ∧
      ∀ c ∈ (SendEvent R V U w Event).2, c.IsFor X = false := by
  cases Event with
  | none => exact ⟨hX, by simp [SendEvent]⟩
  | some e =>
    simp only [SendEvent]
    split
    · exact ⟨hX, by simp⟩
    · have h1 := hV.1 e w hX
      split
      · exact ⟨h1, by simp [FCall.IsFor]⟩
      · obtain ⟨l1, l2⟩ := SendEvent_Loop_destroyed R V U X hV hU e
          (TMultiMap.MultiFind (V.BeforeSend e w).2.This.ObserverRecords (some e.Class, e.Channel))
          ((V.BeforeSend e w).2.Enter
            (TMultiMap.MultiFind (V.BeforeSend e w).2.This.ObserverRecords
              (some e.Class, e.Channel))) h1
        refine ⟨hV.2.2.2 e _ l1, ?_⟩
        intro c hc
        simp only [List.cons_append, List.nil_append, List.mem_cons, List.mem_append,
          List.not_mem_nil, or_false] at hc
        rcases hc with rfl | hc | rfl
        · rfl
        · exact l2 c hc
        · rfl

theorem SendEvent_passive_state (R : FReflection) (V : FHooks) (U : FUserCode)
    (hV : V.Passive) (hU : U.Passive) (w : FWorld) (Event : Option ULES_Event) :
    (SendEvent R V U w Event).1 = w := by
  cases Event with
  | none => rfl
  | some e =>
    by_cases hvalid : IsValid w (some e.Self) = true
    · rw [SendEvent_passive R V U hV hU w e hvalid]
    · simp [SendEvent, hvalid]

theorem SendEvent_Loop_shape (R : FReflection) (V : FHooks) (U : FUserCode) (e : ULES_Event)
    (Records : List FRecord) (w : FWorld) :
    (∀ e', FCall.BeforeReceive e' none ∉ (SendEvent_Loop R V U e Records w).2) ∧
    (SendEvent_Loop R V U e Records w).2.countP FCall.IsAfterReceive =
      (SendEvent_Loop R V U e Records w).2.countP FCall.IsCallback ∧
    (SendEvent_Loop R V U e Records w).2.countP FCall.IsCallback ≤
      (SendEvent_Loop R V U e Records w).2.countP FCall.IsBeforeReceive := by
  induction Records generalizing w with
  | nil => simp [SendEvent_Loop]
  | cons Record Records ih =>
    simp only [SendEvent_Loop]
    split
    · exact ih w
    · rename_i hv
      have hv' : IsValid w Record.Object.Observer = true := by simpa using hv
      have hget : TWeakObjectPtr.Get w Record.Object.Observer ≠ none := by
        unfold TWeakObjectPtr.Get
        rw [hv', if_pos rfl]
        intro hnone
        rw [hnone] at hv'
        simp [IsValid] at hv'
      split
      · obtain ⟨h1, h2, h3⟩ := ih (V.AfterReceive e
          (TWeakObjectPtr.Get (TFunction.Call R U Record.Object.Callback e
            (V.BeforeReceive e (TWeakObjectPtr.Get w Record.Object.Observer) w).2)
            Record.Object.Observer)
          (TFunction.Call R U Record.Object.Callback e
            (V.BeforeReceive e (TWeakObjectPtr.Get w Record.Object.Observer) w).2))
        refine ⟨?_, ?_, ?_⟩
        · intro e' hmem
          simp only [List.cons_append, List.nil_append, List.mem_cons, FCall.BeforeReceive.injEq,
            reduceCtorEq, false_or] at hmem
          rcases hmem with ⟨_, ho⟩ | hmem
          · exact hget ho.symm
          · exact h1 e' hmem
        · simp only [List.cons_append, List.nil_append, List.countP_cons, FCall.IsAfterReceive,
            FCall.IsCallback, h2]
          simp
        · simp only [List.cons_append, List.nil_append, List.countP_cons, FCall.IsCallback,
            FCall.IsBeforeReceive]
          simp only [Bool.false_eq_true, if_false, if_true, add_zero]
          omega
      · obtain ⟨h1, h2, h3⟩ := ih (V.BeforeReceive e
          (TWeakObjectPtr.Get w Record.Object.Observer) w).2
        refine ⟨?_, ?_, ?_⟩
        · intro e' hmem
          simp only [List.mem_cons, FCall.BeforeReceive.injEq] at hmem
          rcases hmem with ⟨_, ho⟩ | hmem
          · exact hget ho.symm
          · exact h1 e' hmem
        · simp only [List.countP_cons, FCall.IsAfterReceive, FCall.IsCallback, h2]
        · simp only [List.countP_cons, FCall.IsCallback, FCall.IsBeforeReceive]
          simp only [Bool.false_eq_true, if_false, if_true, add_zero]
          omega

theorem SendEvent_shape (R : FReflection) (V : FHooks) (U : FUserCode) (w : FWorld)
    (Event : Option ULES_Event) :
    (∀ e', FCall.BeforeReceive e' none ∉ (SendEvent R V U w Event).2) ∧
    (SendEvent R V U w Event).2.countP FCall.IsAfterReceive =
      (SendEvent R V U w Event).2.countP FCall.IsCallback ∧
    (SendEvent R V U w Event).2.countP FCall.IsCallback ≤
      (SendEvent R V U w Event).2.countP FCall.IsBeforeReceive := by
  cases Event with
  | none => simp [SendEvent]
  | some e =>
    simp only [SendEvent]
    split
    · simp
    · split
      · simp [FCall.IsAfterReceive, FCall.IsCallback, FCall.IsBeforeReceive]
      · obtain ⟨h1, h2, h3⟩ := SendEvent_Loop_shape R V U e
          (TMultiMap.MultiFind (V.BeforeSend e w).2.This.ObserverRecords (some e.Class, e.Channel))
          ((V.BeforeSend e w).2.Enter
            (TMultiMap.MultiFind (V.BeforeSend e w).2.This.ObserverRecords
              (some e.Class, e.Channel)))
        refine ⟨?_, ?_, ?_⟩
        · intro e' hmem
          simp only [List.cons_append, List.nil_append, List.mem_cons, reduceCtorEq, false_or,
            List.mem_append, List.not_mem_nil, or_false] at hmem
          exact h1 e' hmem
        · simp [List.countP_append, List.countP_cons, FCall.IsAfterReceive, FCall.IsCallback,
            h2]
        · simpa [List.countP_append, List.countP_cons, FCall.IsCallback,
            FCall.IsBeforeReceive] using h3

theorem Call_grows (R : FReflection) (U : FUserCode) (hU : U.RevivesNothing) (f : TFunction)
    (e : ULES_Event) (w : FWorld) : ∀ X ∈ w.Destroyed, X ∈ (TFunction.Call R U f e w).Destroyed :=
  fun X hX => Call_neverRevives R U X (hU X) f e w hX

theorem SendEvent_Loop_bound (R : FReflection) (V : FHooks) (U : FUserCode)
    (hV : V.ReviveNothing) (hU : U.RevivesNothing) (e : ULES_Event) (w₀ : FWorld)
    (Records : List FRecord) (w : FWorld) (hw : ∀ X ∈ w₀.Destroyed, X ∈ w.Destroyed) :
    (SendEvent_Loop R V U e Records w).2.countP FCall.IsBeforeReceive ≤
      (Records.filter fun r => IsValid w₀ r.Object.Observer).length := by
  induction Records generalizing w with
  | nil => simp [SendEvent_Loop]
  | cons Record Records ih =>
    simp only [SendEvent_Loop]
    split
    · have := ih w hw
      rw [List.filter_cons]
      split
      · simp only [List.length_cons]
        omega
      · exact this
    · rename_i hv
      have hv' : IsValid w Record.Object.Observer = true := by simpa using hv
      have hv0 : IsValid w₀ Record.Object.Observer = true := by
        cases ho : Record.Object.Observer with
        | none => rw [ho] at hv'; simp [IsValid] at hv'
        | some o =>
          rw [ho] at hv'
          simp only [IsValid, decide_eq_true_eq] at hv' ⊢
          exact fun h0 => hv' (hw o h0)
      have h1 : ∀ X ∈ w₀.Destroyed, X ∈ (V.BeforeReceive e
          (TWeakObjectPtr.Get w Record.Object.Observer) w).2.Destroyed :=
        fun X hX => (hV X).2.1 e _ w (hw X hX)
      rw [List.filter_cons, if_pos hv0, List.length_cons]
      split
      · have h2 : ∀ X ∈ w₀.Destroyed, X ∈ (TFunction.Call R U Record.Object.Callback e
            (V.BeforeReceive e (TWeakObjectPtr.Get w Record.Object.Observer) w).2).Destroyed :=
          fun X hX => Call_grows R U hU _ e _ X (h1 X hX)
        have h3 := ih (V.AfterReceive e
          (TWeakObjectPtr.Get (TFunction.Call R U Record.Object.Callback e
            (V.BeforeReceive e (TWeakObjectPtr.Get w Record.Object.Observer) w).2)
            Record.Object.Observer)
          (TFunction.Call R U Record.Object.Callback e
            (V.BeforeReceive e (TWeakObjectPtr.Get w Record.Object.Observer) w).2))
          (fun X hX => (hV X).2.2.1 e _ _ (h2 X hX))
        simp only [List.cons_append, List.nil_append, List.countP_cons, FCall.IsBeforeReceive]
        simp only [Bool.false_eq_true, if_false, if_true, add_zero]
        omega
      · have h3 := ih _ h1
        simp only [List.countP_cons, FCall.IsBeforeReceive, if_true]
        omega

theorem SendEvent_bound (R : FReflection) (V : FHooks) (U : FUserCode)
    (hV : V.ReviveNothing) (hU : U.RevivesNothing) (w : FWorld) (e : ULES_Event) :
    (SendEvent R V U w (some e)).2.countP FCall.IsBeforeReceive ≤
      ((TMultiMap.MultiFind (V.BeforeSend e w).2.This.ObserverRecords
        (some e.Class, e.Channel)).filter fun r => IsValid w r.Object.Observer).length := by
  simp only [SendEvent]
  split
  · simp
  · split
    · simp [FCall.IsBeforeReceive]
    · have := SendEvent_Loop_bound R V U hV hU e w
        (TMultiMap.MultiFind (V.BeforeSend e w).2.This.ObserverRecords (some e.Class, e.Channel))
        ((V.BeforeSend e w).2.Enter
          (TMultiMap.MultiFind (V.BeforeSend e w).2.This.ObserverRecords
            (some e.Class, e.Channel)))
        (fun X hX => (hV X).1 e w hX)
      simpa [List.countP_append, List.countP_cons, FCall.IsBeforeReceive] using this

theorem flatMap_Visit_filter (V : FHooks) (e : ULES_Event) (w : FWorld)
    (Held Records : List FRecord) :
    Records.flatMap (SendEvent_Visit V e (w.Enter Held)) =
      (Records.filter fun r => IsValid w r.Object.Observer).flatMap
        (fun Record =>
          if (V.BeforeReceive e Record.Object.Observer (w.Enter Held)).1 then
            [FCall.BeforeReceive e Record.Object.Observer, FCall.Callback Record e,
             FCall.AfterReceive e Record.Object.Observer]
          else [FCall.BeforeReceive e Record.Object.Observer]) := by
  induction Records with
  | nil => rfl
  | cons Record Records ih =>
    rw [List.flatMap_cons, ih, List.filter_cons]
    by_cases hv : IsValid w Record.Object.Observer = true
    · rw [if_pos hv, List.flatMap_cons]
      congr 1
      simp [SendEvent_Visit, TWeakObjectPtr.Get, IsValid_Enter, hv]
    · rw [if_neg hv]
      simp [SendEvent_Visit, IsValid_Enter, hv]

/-! ## Properties of `SendEvent` -/

/-- C1: with the default hooks and passive handlers, `SendEvent` of a valid event calls the
stored callback of a record exactly once when the record is indexed under the class and
channel of the event and its observer is valid, and never otherwise; two distinct records
of one valid observer under that key are both called. -/
theorem SendEvent_calls_each_live_match_once (R : FReflection) (U : FUserCode) (w : FWorld)
    (e : ULES_Event) (hwf : w.WellFormed) (hvalid : IsValid w (some e.Self) = true)
    (hU : U.Passive) :
    (∀ r e', ((SendEvent R DefaultHooks U w (some e)).2).count (FCall.Callback r e') =
      if e' = e ∧ ((some e.Class, e.Channel), r) ∈ w.This.ObserverRecords ∧
          IsValid w r.Object.Observer = true then 1 else 0) ∧
    (∀ r₁ r₂ o, r₁ ≠ r₂ →
      ((some e.Class, e.Channel), r₁) ∈ w.This.ObserverRecords →
      ((some e.Class, e.Channel), r₂) ∈ w.This.ObserverRecords →
      r₁.Object.Observer = some o → r₂.Object.Observer = some o →
      IsValid w (some o) = true →
      ((SendEvent R DefaultHooks U w (some e)).2).count (FCall.Callback r₁ e) = 1 ∧
      ((SendEvent R DefaultHooks U w (some e)).2).count (FCall.Callback r₂ e) = 1) := by
  refine ⟨count_callback_SendEvent R U w e hwf hvalid hU, ?_⟩
  intro r₁ r₂ o _ h1 h2 ho1 ho2 hv
  rw [count_callback_SendEvent R U w e hwf hvalid hU,
    count_callback_SendEvent R U w e hwf hvalid hU]
  simp [h1, h2, ho1, ho2, hv]

/-- C2: matching is by exact class. When the event has class `D`, a strict subclass of `B`,
no record indexed under `(B, channel)` has its callback called, and every record whose
callback is called is indexed under `(D, channel)`. The hooks and handlers are arbitrary,
provided `BeforeSend` leaves the index as it found it. -/
theorem SendEvent_matches_exact_class (R : FReflection) (V : FHooks) (U : FUserCode)
    (w : FWorld) (e : ULES_Event) (B : Nat) (hwf : w.WellFormed)
    (_hsub : R.IsChildOf e.Class B = true) (hstrict : e.Class ≠ B)
    (hBS : (V.BeforeSend e w).2.This = w.This) :
    (∀ r e', ((some B, e.Channel), r) ∈ w.This.ObserverRecords →
      FCall.Callback r e' ∉ (SendEvent R V U w (some e)).2) ∧
    (∀ r e', FCall.Callback r e' ∈ (SendEvent R V U w (some e)).2 →
      ((some e.Class, e.Channel), r) ∈ w.This.ObserverRecords) := by
  constructor
  · intro r e' hB hc
    have hD := (SendEvent_callback R V U w e r e' hc).1
    rw [hBS] at hD
    have := key_unique w hwf _ _ hB hD rfl
    simp only [Prod.mk.injEq, Option.some.injEq, and_true] at this
    exact hstrict this.symm
  · intro r e' hc
    have hD := (SendEvent_callback R V U w e r e' hc).1
    rw [hBS] at hD
    exact hD

/-- C3: channel isolation. No record indexed on a channel other than the channel of the
event has its callback called; in particular an event on a named channel reaches no record
of the default channel `NAME_None`, and an event on the default channel reaches no record
of a named channel. The hooks and handlers are arbitrary, provided `BeforeSend` leaves the
index as it found it. -/
theorem SendEvent_isolates_channels (R : FReflection) (V : FHooks) (U : FUserCode)
    (w : FWorld) (e : ULES_Event) (hwf : w.WellFormed)
    (hBS : (V.BeforeSend e w).2.This = w.This) :
    (∀ Class Channel r e', Channel ≠ e.Channel →
      ((Class, Channel), r) ∈ w.This.ObserverRecords →
      FCall.Callback r e' ∉ (SendEvent R V U w (some e)).2) ∧
    (e.Channel ≠ NAME_None → ∀ Class r e',
      ((Class, NAME_None), r) ∈ w.This.ObserverRecords →
      FCall.Callback r e' ∉ (SendEvent R V U w (some e)).2) ∧
    (e.Channel = NAME_None → ∀ Class Channel r e', Channel ≠ NAME_None →
      ((Class, Channel), r) ∈ w.This.ObserverRecords →
      FCall.Callback r e' ∉ (SendEvent R V U w (some e)).2) := by
  have main : ∀ Class Channel r e', Channel ≠ e.Channel →
      ((Class, Channel), r) ∈ w.This.ObserverRecords →
      FCall.Callback r e' ∉ (SendEvent R V U w (some e)).2 := by
    intro Class Channel r e' hne hin hc
    have hD := (SendEvent_callback R V U w e r e' hc).1
    rw [hBS] at hD
    have := key_unique w hwf _ _ hin hD rfl
    simp only [Prod.mk.injEq, and_true] at this
    exact hne this.2
  refine ⟨main, ?_, ?_⟩
  · intro hne Class r e' hin
    exact main Class NAME_None r e' (fun h => hne h.symm) hin
  · intro heq Class Channel r e' hne hin
    exact main Class Channel r e' (fun h => hne (h.trans heq)) hin

/-- C4: weak liveness. In a state where observer `X` has been destroyed, `SendEvent` of any
event calls no stored callback of a record of `X` and calls neither `BeforeReceive` nor
`AfterReceive` with `X`, whatever the hooks and handlers do, short of bringing `X` back.
No hook call is made for a record whose observer is not valid: `BeforeReceive` is never
called with a null observer, `AfterReceive` is called exactly as often as a stored
callback and a stored callback at most as often as `BeforeReceive`, and when nothing
destroyed comes back `BeforeReceive` is called at most once per matching record with a
valid observer; with passive hooks and handlers the calls are exactly the calls for the
matching records with a valid observer. A pass whose hooks and handlers are passive returns
the state as it was, so `Num` keeps counting the stale records; the destruction of `X`
itself removes nothing from the index either. -/
theorem SendEvent_skips_destroyed_observer (R : FReflection) (V : FHooks) (U : FUserCode)
    (w : FWorld) (X : Nat) (Event : Option ULES_Event) (hV : V.NeverRevive X)
    (hU : U.NeverRevives X) (hX : IsValid w (some X) = false) :
    (∀ r e', r.Object.Observer = some X →
      FCall.Callback r e' ∉ (SendEvent R V U w Event).2) ∧
    (∀ e', FCall.BeforeReceive e' (some X) ∉ (SendEvent R V U w Event).2 ∧
      FCall.AfterReceive e' (some X) ∉ (SendEvent R V U w Event).2) ∧
    (∀ e', FCall.BeforeReceive e' none ∉ (SendEvent R V U w Event).2) ∧
    ((SendEvent R V U w Event).2.countP FCall.IsAfterReceive =
      (SendEvent R V U w Event).2.countP FCall.IsCallback ∧
     (SendEvent R V U w Event).2.countP FCall.IsCallback ≤
      (SendEvent R V U w Event).2.countP FCall.IsBeforeReceive) ∧
    (V.ReviveNothing → U.RevivesNothing → ∀ e, Event = some e →
      (SendEvent R V U w Event).2.countP FCall.IsBeforeReceive ≤
        ((TMultiMap.MultiFind (V.BeforeSend e w).2.This.ObserverRecords
          (some e.Class, e.Channel)).filter fun r => IsValid w r.Object.Observer).length) ∧
    (V.Passive → U.Passive → ∀ e, Event = some e → IsValid w (some e.Self) = true →
      (V.BeforeSend e w).1 = true →
      (SendEvent R V U w Event).2 =
        [FCall.BeforeSend e] ++
          ((TMultiMap.MultiFind w.This.ObserverRecords (some e.Class, e.Channel)).filter
            fun r => IsValid w r.Object.Observer).flatMap
            (fun Record =>
              if (V.BeforeReceive e Record.Object.Observer
                  (w.Enter (TMultiMap.MultiFind w.This.ObserverRecords
                    (some e.Class, e.Channel)))).1 then
                [FCall.BeforeReceive e Record.Object.Observer, FCall.Callback Record e,
                 FCall.AfterReceive e Record.Object.Observer]
              else [FCall.BeforeReceive e Record.Object.Observer]) ++
          [FCall.AfterSend e]) ∧
    IsValid (SendEvent R V U w Event).1 (some X) = false ∧
    (V.Passive → U.Passive →
      (SendEvent R V U w Event).1 = w ∧
      Num (SendEvent R V U w Event).1 = Num w ∧
      (w.This.ObserverRecords.filter fun p => p.2.Object.Observer = some X).length ≤
        Num (SendEvent R V U w Event).1) ∧
    (∀ w₀ : FWorld,
      IsValid (w₀.Destroy X) (some X) = false ∧ (w₀.Destroy X).This = w₀.This) := by
  have hX' : X ∈ w.Destroyed := by simpa [IsValid] using hX
  obtain ⟨hd, hc⟩ := SendEvent_destroyed R V U X hV hU w Event hX'
  obtain ⟨hs1, hs2, hs3⟩ := SendEvent_shape R V U w Event
  refine ⟨?_, ?_, hs1, ⟨hs2, hs3⟩, ?_, ?_, by simpa [IsValid] using hd, ?_, ?_⟩
  · intro r e' hr hmem
    have := hc _ hmem
    simp [FCall.IsFor, hr] at this
  · intro e'
    constructor
    · intro hmem
      have := hc _ hmem
      simp [FCall.IsFor] at this
    · intro hmem
      have := hc _ hmem
      simp [FCall.IsFor] at this
  · intro hVr hUr e he
    subst he
    exact SendEvent_bound R V U hVr hUr w e
  · intro hVp hUp e he hvalid hsend
    subst he
    rw [SendEvent_passive R V U hVp hUp w e hvalid, hsend, if_pos rfl, flatMap_Visit_filter]
  · intro hVp hUp
    have hstate := SendEvent_passive_state R V U hVp hUp w Event
    rw [hstate]
    exact ⟨rfl, rfl, List.length_filter_le _ _⟩
  · intro w₀
    exact ⟨by simp [IsValid, FWorld.Destroy], rfl⟩

/-! ## Instances on the index of the test "Sending events" -/

/-- Instance of C1: a `ULES_TestEvent` on the default channel reaches both records of
`Observers[0]` once. -/
theorem SendEvent_calls_each_live_match_once_witness :
    TestClasses.SendingEvents.WellFormed ∧
    IsValid TestClasses.SendingEvents (some TestClasses.TestEvent.Self) = true ∧
    ((SendEvent TestClasses.Reflection DefaultHooks TestClasses.Idle TestClasses.SendingEvents
        (some TestClasses.TestEvent)).2).count
      (FCall.Callback TestClasses.Record0 TestClasses.TestEvent) = 1 ∧
    ((SendEvent TestClasses.Reflection DefaultHooks TestClasses.Idle TestClasses.SendingEvents
        (some TestClasses.TestEvent)).2).count
      (FCall.Callback TestClasses.Record1 TestClasses.TestEvent) = 1 :=
  ⟨by decide, by decide,
    (SendEvent_calls_each_live_match_once TestClasses.Reflection TestClasses.Idle
      TestClasses.SendingEvents TestClasses.TestEvent (by decide) (by decide)
      (fun _ _ _ => rfl)).2 TestClasses.Record0 TestClasses.Record1 100 (by decide) (by decide)
      (by decide) rfl rfl (by decide)⟩

/-- Instance of C2: a `ULES_DerivedEvent` on `SecondChannel` does not reach the record that
`Observers[3]` holds for `ULES_TestEvent` on that channel. -/
theorem SendEvent_matches_exact_class_witness :
    TestClasses.Reflection.IsChildOf TestClasses.DerivedEvent.Class
      TestClasses.ULES_TestEvent_StaticClass = true ∧
    ((some TestClasses.ULES_TestEvent_StaticClass, TestClasses.DerivedEvent.Channel),
      TestClasses.Record4) ∈ TestClasses.SendingEvents.This.ObserverRecords ∧
    FCall.Callback TestClasses.Record4 TestClasses.DerivedEvent ∉
      (SendEvent TestClasses.Reflection DefaultHooks TestClasses.Idle TestClasses.SendingEvents
        (some TestClasses.DerivedEvent)).2 :=
  ⟨by decide, by decide,
    (SendEvent_matches_exact_class TestClasses.Reflection DefaultHooks TestClasses.Idle
      TestClasses.SendingEvents TestClasses.DerivedEvent TestClasses.ULES_TestEvent_StaticClass
      (by decide) (by decide) (by decide) rfl).1 TestClasses.Record4 TestClasses.DerivedEvent
      (by decide)⟩

/-- Instance of C3: an event on `SecondChannel` does not reach a record of the default
channel. -/
theorem SendEvent_isolates_channels_witness :
    TestClasses.DerivedEvent.Channel ≠ NAME_None ∧
    ((some TestClasses.ULES_TestEvent_StaticClass, NAME_None), TestClasses.Record0) ∈
      TestClasses.SendingEvents.This.ObserverRecords ∧
    FCall.Callback TestClasses.Record0 TestClasses.DerivedEvent ∉
      (SendEvent TestClasses.Reflection DefaultHooks TestClasses.Idle TestClasses.SendingEvents
        (some TestClasses.DerivedEvent)).2 :=
  ⟨by decide, by decide,
    (SendEvent_isolates_channels TestClasses.Reflection DefaultHooks TestClasses.Idle
      TestClasses.SendingEvents TestClasses.DerivedEvent (by decide) rfl).2.1 (by decide)
      (some TestClasses.ULES_TestEvent_StaticClass) TestClasses.Record0 TestClasses.DerivedEvent
      (by decide)⟩

/-- Instance of C4: after `Observers[0]` is destroyed its first record is not called, of the
five matching records at most the three with a valid observer get `BeforeReceive`, and
`Num` is what it was. -/
theorem SendEvent_skips_destroyed_observer_witness :
    IsValid (TestClasses.SendingEvents.Destroy 100) (some 100) = false ∧
    FCall.Callback TestClasses.Record0 TestClasses.TestEvent ∉
      (SendEvent TestClasses.Reflection DefaultHooks TestClasses.Idle
        (TestClasses.SendingEvents.Destroy 100) (some TestClasses.TestEvent)).2 ∧
    (SendEvent TestClasses.Reflection DefaultHooks TestClasses.Idle
      (TestClasses.SendingEvents.Destroy 100) (some TestClasses.TestEvent)).2.countP
        FCall.IsBeforeReceive ≤ 3 ∧
    Num (SendEvent TestClasses.Reflection DefaultHooks TestClasses.Idle
        (TestClasses.SendingEvents.Destroy 100) (some TestClasses.TestEvent)).1 =
      Num (TestClasses.SendingEvents.Destroy 100) :=
  have h := SendEvent_skips_destroyed_observer TestClasses.Reflection DefaultHooks
    TestClasses.Idle (TestClasses.SendingEvents.Destroy 100) 100 (some TestClasses.TestEvent)
    ⟨fun _ _ h => h, fun _ _ _ h => h, fun _ _ _ h => h, fun _ _ h => h⟩ (fun _ _ _ h => h)
    (by decide)
  ⟨by decide, h.1 TestClasses.Record0 TestClasses.TestEvent rfl,
    Nat.le_trans
      (h.2.2.2.2.1 (fun _ => ⟨fun _ _ h => h, fun _ _ _ h => h, fun _ _ _ h => h, fun _ _ h => h⟩)
        (fun _ _ _ _ h => h) TestClasses.TestEvent rfl) (by decide),
    (h.2.2.2.2.2.2.2.1 ⟨fun _ _ => rfl, fun _ _ _ => rfl, fun _ _ _ => rfl, fun _ _ => rfl⟩
      (fun _ _ _ => rfl)).2.1⟩

/-! ## Lemmas on the subscribe functions -/

theorem IsValid_congr (w w' : FWorld) (h : w'.Destroyed = w.Destroyed) (p : Option Nat) :
    IsValid w' p = IsValid w p := by
  cases p <;> simp [IsValid, h]

theorem TSubclassOf_Get_valid (R : FReflection) (w : FWorld) (c : Nat)
    (h : IsValid w (TSubclassOf.Get R (some c)) = true) :
    TSubclassOf.Get R (some c) = some c ∧ IsValid w (some c) = true := by
  unfold TSubclassOf.Get at h ⊢
  by_cases hc : R.IsChildOf c ULES_Event.StaticClass = true
  · simp only [hc, if_true] at h ⊢
    exact ⟨trivial, h⟩
  · simp [hc, IsValid] at h

theorem TWeakPtr_IsValid_of_mem (w : FWorld) (r : FRecord) (h : r ∈ w.Shared) :
    TWeakPtr.IsValid w (some r) = true := by
  simp only [TWeakPtr.IsValid, List.any_eq_true, decide_eq_true_eq]
  exact ⟨r, List.mem_append_left _ h, rfl⟩

theorem Shared_eq (w : FWorld) :
    w.Shared = w.This.ObserverRecords.map Prod.snd ++
      (w.Others.flatMap fun b => b.ObserverRecords).map Prod.snd := by
  simp [FWorld.Shared, FWorld.Systems]

theorem AddObserver_Private_wellFormed (R : FReflection) (w : FWorld) (c : Nat)
    (Observer : Option Nat) (Callback : TFunction) (Channel : FName) (hwf : w.WellFormed)
    (hCls : IsValid w (TSubclassOf.Get R (some c)) = true) :
    (AddObserver_Private R w (some c) Observer Callback Channel).2.WellFormed := by
  obtain ⟨hget, hc⟩ := TSubclassOf_Get_valid R w c hCls
  obtain ⟨hnd, hlt, hcls⟩ := hwf
  have hperm : (AddObserver_Private R w (some c) Observer Callback Channel).2.Shared.Perm
      (⟨w.Allocated, ⟨Channel, Observer, Callback⟩⟩ :: w.Shared) := by
    rw [Shared_eq, Shared_eq]
    simp only [AddObserver_Private, TMultiMap.Add, List.map_append, List.map_cons, List.map_nil,
      List.append_assoc, List.singleton_append]
    exact List.perm_middle
  refine ⟨?_, ?_, ?_⟩
  · rw [(hperm.map _).nodup_iff]
    simp only [List.map_cons, List.nodup_cons, List.mem_map, not_exists, not_and]
    refine ⟨?_, hnd⟩
    intro q hq hb
    have := hlt q hq
    omega
  · intro r hr
    have hr2 := hperm.subset hr
    simp only [List.mem_cons] at hr2
    simp only [AddObserver_Private]
    rcases hr2 with rfl | hr2
    · simp
    · have := hlt r hr2
      omega
  · intro b hb p hp
    rw [IsValid_congr w (AddObserver_Private R w (some c) Observer Callback Channel).2 rfl]
    simp only [FWorld.Systems, AddObserver_Private, List.mem_cons] at hb
    rcases hb with rfl | hb
    · simp only [TMultiMap.Add, List.mem_append, List.mem_singleton] at hp
      rcases hp with hp | rfl
      · exact hcls w.This (by simp [FWorld.Systems]) p hp
      · simpa [hget] using hc
    · exact hcls b (by simp [FWorld.Systems, hb]) p hp

theorem AddObserver_Private_adds_one (R : FReflection) (w : FWorld) (c o : Nat)
    (Callback : TFunction) (Channel : FName)
    (hCls : IsValid w (TSubclassOf.Get R (some c)) = true) :
    (AddObserver_Private R w (some c) (some o) Callback Channel).1 =
      { ObserverKey := (some c, Channel)
        ObserverRecord := some ⟨w.Allocated, ⟨Channel, some o, Callback⟩⟩ } ∧
    (AddObserver_Private R w (some c) (some o) Callback Channel).2 =
      { w with
        Allocated := w.Allocated + 1
        This := { ObserverRecords := w.This.ObserverRecords ++
          [((some c, Channel), ⟨w.Allocated, ⟨Channel, some o, Callback⟩⟩)] } } ∧
    Num (AddObserver_Private R w (some c) (some o) Callback Channel).2 = Num w + 1 ∧
    IsHandleValid (AddObserver_Private R w (some c) (some o) Callback Channel).2
      (AddObserver_Private R w (some c) (some o) Callback Channel).1 = true ∧
    ContainsValidHandle (AddObserver_Private R w (some c) (some o) Callback Channel).2
      (AddObserver_Private R w (some c) (some o) Callback Channel).1 = true ∧
    ContainsObserver (AddObserver_Private R w (some c) (some o) Callback Channel).2 (some o)
      = true := by
  obtain ⟨hget, hc⟩ := TSubclassOf_Get_valid R w c hCls
  have hc' : IsValid (AddObserver_Private R w (some c) (some o) Callback Channel).2 (some c)
      = true := by
    rw [IsValid_congr w (AddObserver_Private R w (some c) (some o) Callback Channel).2 rfl]
    exact hc
  have hvalid : IsHandleValid (AddObserver_Private R w (some c) (some o) Callback Channel).2
      (AddObserver_Private R w (some c) (some o) Callback Channel).1 = true := by
    unfold IsHandleValid
    rw [Bool.and_eq_true]
    constructor
    · apply TWeakPtr_IsValid_of_mem
      have := This_subset_Shared (AddObserver_Private R w (some c) (some o) Callback Channel).2
        ((some c, Channel), ⟨w.Allocated, ⟨Channel, some o, Callback⟩⟩)
        (by simp [AddObserver_Private, TMultiMap.Add, hget])
      simpa [AddObserver_Private] using this
    · simpa [AddObserver_Private, hget] using hc'
  refine ⟨by simp [AddObserver_Private, hget], by simp [AddObserver_Private, TMultiMap.Add, hget],
    by simp [AddObserver_Private, TMultiMap.Add, ULES_EventSystem.Num], hvalid, ?_, ?_⟩
  · unfold ContainsValidHandle
    rw [hvalid]
    have hg : TWeakObjectPtr.Get (AddObserver_Private R w (some c) (some o) Callback Channel).2
        (some c) = some c := by
      simp [TWeakObjectPtr.Get, hc']
    simp only [Bool.not_true, Bool.false_eq_true, if_false]
    simp only [AddObserver_Private, hget] at hg ⊢
    rw [hg]
    simp [TMultiMap.Contains, TMultiMap.Add]
  · simp [ContainsObserver, AddObserver_Private, TMultiMap.Add, TWeakObjectPtr.Equals]

theorem FindCallbackFunction_eq_some_iff (R : FReflection) (o : Nat) (n : FName)
    (g : UFunction) :
    FindCallbackFunction R o n = some g ↔
      R.FindFunction o n = some g ∧
        ∃ p, g.Inputs = [p] ∧ g.Outputs = [] ∧ p.IsEventObject R = true := by
  unfold FindCallbackFunction
  cases hf : R.FindFunction o n with
  | none => simp
  | some f =>
    simp only [Option.isSome_some, Bool.true_and, Option.some.injEq]
    have hIn : (List.filter (fun p => !(p.PropertyFlags &&& CPF_OutParm != 0))
        (List.takeWhile (fun p => p.PropertyFlags &&& CPF_Parm != 0) f.ChildProperties))
        = f.Inputs := rfl
    have hOut : (List.filter (fun p => p.PropertyFlags &&& CPF_OutParm != 0)
        (List.takeWhile (fun p => p.PropertyFlags &&& CPF_Parm != 0) f.ChildProperties))
        = f.Outputs := rfl
    rw [hIn, hOut]
    constructor
    · intro h
      split at h
      · rename_i hc
        simp only [Bool.and_eq_true, beq_iff_eq, List.length_eq_zero] at hc
        obtain ⟨p, hp⟩ := List.length_eq_one.1 hc.1
        rw [hp] at h
        simp only [List.head?_cons] at h
        cases p with
        | Object fl c =>
          simp only [CastField_FObjectProperty] at h
          split at h
          · rename_i hchild
            cases h
            exact ⟨rfl, _, hp, hc.2, by simpa [FProperty.IsEventObject] using hchild⟩
          · cases h
        | Other fl => simp [CastField_FObjectProperty] at h
      · cases h
    · rintro ⟨rfl, p, hp, ho, he⟩
      simp only [hp, ho, List.length_singleton, List.length_nil, beq_self_eq_true, Bool.and_self,
        if_true, List.head?_cons]
      cases p with
      | Object fl c =>
        simp only [FProperty.IsEventObject] at he
        simp [CastField_FObjectProperty, he]
      | Other fl => simp [FProperty.IsEventObject] at he

theorem BP_AddObserver_Function_eq (R : FReflection) (w : FWorld) (E Observer : Nat)
    (FunctionName Channel : FName) (hObs : IsValid w (some Observer) = true)
    (hCls : IsValid w (TSubclassOf.Get R (some E)) = true) :
    BP_AddObserver_Function R w (some E) (some Observer) FunctionName Channel =
      match FindCallbackFunction R Observer FunctionName with
      | none => (FLES_ObserverHandle.Default, w)
      | some Callback =>
        AddObserver_Private R w (some E) (some Observer)
          (.Function (some Observer) (some Callback.Self)) Channel := by
  simp [BP_AddObserver_Function, hObs, hCls]

theorem IsHandleValid_Default (w : FWorld) :
    IsHandleValid w FLES_ObserverHandle.Default = false := by
  simp [IsHandleValid, FLES_ObserverHandle.Default, TWeakPtr.IsValid]

theorem ContainsValidHandle_Default (w : FWorld) :
    ContainsValidHandle w FLES_ObserverHandle.Default = false := by
  simp [ContainsValidHandle, IsHandleValid_Default]

/-! ## Properties of the subscribe functions -/

/-- C5: for a valid observer and a valid event class, each of the four subscribe functions
(`BP_AddObserver_Function` when the handler resolves) returns the state in which exactly
one record, allocated at a control block that no stored record uses, is added under
`(EventClass, Channel)` and nothing else has changed. `Num` grows by one whatever the index
held before, the returned handle passes `IsHandleValid` and `ContainsValidHandle`, and
`ContainsObserver` holds for the observer. -/
theorem subscribe_adds_exactly_one_record (R : FReflection) (w : FWorld)
    (EventClass Observer : Nat) (Channel : FName) (Method Functor : Nat)
    (Delegate : FLES_EventHandler) (FunctionName : FName) (hwf : w.WellFormed)
    (hObs : IsValid w (some Observer) = true)
    (hCls : IsValid w (TSubclassOf.Get R (some EventClass)) = true)
    (res : FLES_ObserverHandle × FWorld)
    (hres : res = AddObserver_Method R w EventClass (some Observer) Method Channel ∨
      res = AddObserver_Functor R w EventClass (some Observer) Functor Channel ∨
      res = BP_AddObserver_Event R w (some EventClass) (some Observer) Delegate Channel ∨
      ((FindCallbackFunction R Observer FunctionName).isSome = true ∧
        res = BP_AddObserver_Function R w (some EventClass) (some Observer) FunctionName
          Channel)) :
    ∃ Callback : TFunction,
      res.1 =
        { ObserverKey := (some EventClass, Channel)
          ObserverRecord := some ⟨w.Allocated, ⟨Channel, some Observer, Callback⟩⟩ } ∧
      res.2 = { w with
                Allocated := w.Allocated + 1
                This := { ObserverRecords := w.This.ObserverRecords ++
                  [((some EventClass, Channel),
                    ⟨w.Allocated, ⟨Channel, some Observer, Callback⟩⟩)] } } ∧
      (∀ q ∈ w.Shared, q.Block ≠ w.Allocated) ∧
      Num res.2 = Num w + 1 ∧
      IsHandleValid res.2 res.1 = true ∧
      ContainsValidHandle res.2 res.1 = true ∧
      ContainsObserver res.2 (some Observer) = true ∧
      res.2.WellFormed := by
  have hfresh : ∀ q ∈ w.Shared, q.Block ≠ w.Allocated := by
    intro q hq hb
    have := hwf.2.1 q hq
    omega
  rcases hres with rfl | rfl | rfl | ⟨hf, rfl⟩
  · refine ⟨.Method (some Observer) Method, ?_⟩
    have h := AddObserver_Private_adds_one R w EventClass Observer
      (.Method (some Observer) Method) Channel hCls
    have hw := AddObserver_Private_wellFormed R w EventClass (some Observer)
      (.Method (some Observer) Method) Channel hwf hCls
    simp only [AddObserver_Method, hObs, Bool.not_true, Bool.false_eq_true, if_false]
    exact ⟨h.1, h.2.1, hfresh, h.2.2.1, h.2.2.2.1, h.2.2.2.2.1, h.2.2.2.2.2, hw⟩
  · refine ⟨.Functor (some Observer) Functor, ?_⟩
    have h := AddObserver_Private_adds_one R w EventClass Observer
      (.Functor (some Observer) Functor) Channel hCls
    have hw := AddObserver_Private_wellFormed R w EventClass (some Observer)
      (.Functor (some Observer) Functor) Channel hwf hCls
    simp only [AddObserver_Functor, hObs, Bool.not_true, Bool.false_eq_true, if_false]
    exact ⟨h.1, h.2.1, hfresh, h.2.2.1, h.2.2.2.1, h.2.2.2.2.1, h.2.2.2.2.2, hw⟩
  · refine ⟨.Delegate (some Observer) Delegate, ?_⟩
    have h := AddObserver_Private_adds_one R w EventClass Observer
      (.Delegate (some Observer) Delegate) Channel hCls
    have hw := AddObserver_Private_wellFormed R w EventClass (some Observer)
      (.Delegate (some Observer) Delegate) Channel hwf hCls
    simp only [BP_AddObserver_Event, hObs, hCls, Bool.not_true, Bool.or_self,
      Bool.false_eq_true, if_false]
    exact ⟨h.1, h.2.1, hfresh, h.2.2.1, h.2.2.2.1, h.2.2.2.2.1, h.2.2.2.2.2, hw⟩
  · obtain ⟨f, hf⟩ := Option.isSome_iff_exists.1 hf
    refine ⟨.Function (some Observer) (some f.Self), ?_⟩
    have h := AddObserver_Private_adds_one R w EventClass Observer
      (.Function (some Observer) (some f.Self)) Channel hCls
    have hw := AddObserver_Private_wellFormed R w EventClass (some Observer)
      (.Function (some Observer) (some f.Self)) Channel hwf hCls
    simp only [BP_AddObserver_Function, hObs, hCls, hf, Bool.not_true, Bool.or_self,
      Bool.false_eq_true, if_false]
    exact ⟨h.1, h.2.1, hfresh, h.2.2.1, h.2.2.2.1, h.2.2.2.2.1, h.2.2.2.2.2, hw⟩

/-- Instance of C5: subscribing the observer, handler and channel of `Record0` once more
adds a record and returns a valid handle. -/
theorem subscribe_adds_exactly_one_record_witness :
    TestClasses.SendingEvents.WellFormed ∧
    ((some TestClasses.ULES_TestEvent_StaticClass, NAME_None), TestClasses.Record0) ∈
      TestClasses.SendingEvents.This.ObserverRecords ∧
    Num (AddObserver_Method TestClasses.Reflection TestClasses.SendingEvents
      TestClasses.ULES_TestEvent_StaticClass (some 100) 1 NAME_None).2 =
        Num TestClasses.SendingEvents + 1 ∧
    IsHandleValid
      (AddObserver_Method TestClasses.Reflection TestClasses.SendingEvents
        TestClasses.ULES_TestEvent_StaticClass (some 100) 1 NAME_None).2
      (AddObserver_Method TestClasses.Reflection TestClasses.SendingEvents
        TestClasses.ULES_TestEvent_StaticClass (some 100) 1 NAME_None).1 = true :=
  match subscribe_adds_exactly_one_record TestClasses.Reflection TestClasses.SendingEvents
      TestClasses.ULES_TestEvent_StaticClass 100 NAME_None 1 7 ⟨none, NAME_None⟩
      TestClasses.OnTestEvent (by decide) (by decide) (by decide)
      (AddObserver_Method TestClasses.Reflection TestClasses.SendingEvents
        TestClasses.ULES_TestEvent_StaticClass (some 100) 1 NAME_None) (Or.inl rfl) with
  | ⟨_, h⟩ => ⟨by decide, by decide, h.2.2.2.1, h.2.2.2.2.1⟩

/-- C6: a subscribe call with a null observer (any of the four functions), or with a null
event class (the two functions that take a class), returns the default handle, for which
`IsHandleValid` and `ContainsValidHandle` are false, and returns the state unchanged. -/
theorem subscribe_rejects_null (R : FReflection) (w : FWorld) (TEvent : Nat)
    (EventClass Observer : Option Nat) (Channel : FName) (Method Functor : Nat)
    (Delegate : FLES_EventHandler) (FunctionName : FName)
    (res : FLES_ObserverHandle × FWorld)
    (hres :
      (Observer = none ∧
        (res = AddObserver_Method R w TEvent Observer Method Channel ∨
         res = AddObserver_Functor R w TEvent Observer Functor Channel)) ∨
      ((Observer = none ∨ EventClass = none) ∧
        (res = BP_AddObserver_Event R w EventClass Observer Delegate Channel ∨
         res = BP_AddObserver_Function R w EventClass Observer FunctionName Channel))) :
    IsHandleValid res.2 res.1 = false ∧ ContainsValidHandle res.2 res.1 = false ∧
      res.2 = w ∧ Num res.2 = Num w ∧
      res.2.This.ObserverRecords = w.This.ObserverRecords := by
  have hdef : res = (FLES_ObserverHandle.Default, w) := by
    rcases hres with ⟨rfl, rfl | rfl⟩ | ⟨rfl | rfl, rfl | rfl⟩
    · simp [AddObserver_Method, IsValid]
    · simp [AddObserver_Functor, IsValid]
    · simp [BP_AddObserver_Event, IsValid]
    · simp [BP_AddObserver_Function, IsValid]
    · simp [BP_AddObserver_Event, IsValid, TSubclassOf.Get]
    · simp [BP_AddObserver_Function, IsValid, TSubclassOf.Get]
  subst hdef
  exact ⟨IsHandleValid_Default w, ContainsValidHandle_Default w, rfl, rfl, rfl⟩

/-- Instance of C6: `BP_AddObserver_Function(nullptr, nullptr, "OnTestEvent")`. -/
theorem subscribe_rejects_null_witness :
    IsHandleValid
      (BP_AddObserver_Function TestClasses.Reflection TestClasses.SendingEvents none none
        TestClasses.OnTestEvent NAME_None).2
      (BP_AddObserver_Function TestClasses.Reflection TestClasses.SendingEvents none none
        TestClasses.OnTestEvent NAME_None).1 = false ∧
    (BP_AddObserver_Function TestClasses.Reflection TestClasses.SendingEvents none none
        TestClasses.OnTestEvent NAME_None).2 = TestClasses.SendingEvents :=
  have h := subscribe_rejects_null TestClasses.Reflection TestClasses.SendingEvents
    TestClasses.ULES_TestEvent_StaticClass none none NAME_None 1 7 ⟨none, NAME_None⟩
    TestClasses.OnTestEvent
    (BP_AddObserver_Function TestClasses.Reflection TestClasses.SendingEvents none none
      TestClasses.OnTestEvent NAME_None) (Or.inr ⟨Or.inl rfl, Or.inr rfl⟩)
  ⟨h.1, h.2.2.1⟩

/-- C7, as stated, fails: `ULES_Event` is abstract, yet `BP_AddObserver_Event` and
`BP_AddObserver_Function` called with `ULES_Event::StaticClass()` on an empty event system
each return a valid handle and leave one record in the index. -/
theorem BP_AddObserver_abstract_class_counterexample :
    TestClasses.Reflection.IsAbstract ULES_Event.StaticClass = true ∧
    IsValid TestClasses.Fresh (some 100) = true ∧
    Num TestClasses.Fresh = 0 ∧
    IsHandleValid
      (BP_AddObserver_Event TestClasses.Reflection TestClasses.Fresh
        (some ULES_Event.StaticClass) (some 100) ⟨none, NAME_None⟩ NAME_None).2
      (BP_AddObserver_Event TestClasses.Reflection TestClasses.Fresh
        (some ULES_Event.StaticClass) (some 100) ⟨none, NAME_None⟩ NAME_None).1 = true ∧
    Num (BP_AddObserver_Event TestClasses.Reflection TestClasses.Fresh
        (some ULES_Event.StaticClass) (some 100) ⟨none, NAME_None⟩ NAME_None).2 = 1 ∧
    IsHandleValid
      (BP_AddObserver_Function TestClasses.Reflection TestClasses.Fresh
        (some ULES_Event.StaticClass) (some 100) TestClasses.OnEvent NAME_None).2
      (BP_AddObserver_Function TestClasses.Reflection TestClasses.Fresh
        (some ULES_Event.StaticClass) (some 100) TestClasses.OnEvent NAME_None).1 = true ∧
    Num (BP_AddObserver_Function TestClasses.Reflection TestClasses.Fresh
        (some ULES_Event.StaticClass) (some 100) TestClasses.OnEvent NAME_None).2 = 1 := by
  decide

/-- C7, amended: the two functions never read the abstract flag. Called with a valid
observer and an abstract class that is `ULES_Event` or derives from it,
`BP_AddObserver_Event` adds one record under `(EventClass, Channel)` and returns a valid
handle; `BP_AddObserver_Function` does the same when `FindCallbackFunction` resolves the
handler, and returns the default handle and the unchanged state when it does not. -/
theorem BP_AddObserver_ignores_abstract_flag (R : FReflection) (w : FWorld)
    (EventClass Observer : Nat) (Delegate : FLES_EventHandler) (FunctionName Channel : FName)
    (_hAbs : R.IsAbstract EventClass = true) (hObs : IsValid w (some Observer) = true)
    (hCls : IsValid w (TSubclassOf.Get R (some EventClass)) = true) :
    (IsHandleValid
        (BP_AddObserver_Event R w (some EventClass) (some Observer) Delegate Channel).2
        (BP_AddObserver_Event R w (some EventClass) (some Observer) Delegate Channel).1 = true ∧
      Num (BP_AddObserver_Event R w (some EventClass) (some Observer) Delegate Channel).2 =
        Num w + 1 ∧
      (BP_AddObserver_Event R w (some EventClass) (some Observer) Delegate
        Channel).2.This.ObserverRecords = w.This.ObserverRecords ++
          [((some EventClass, Channel),
            ⟨w.Allocated,
              ⟨Channel, some Observer, .Delegate (some Observer) Delegate⟩⟩)]) ∧
    (∀ f, FindCallbackFunction R Observer FunctionName = some f →
      IsHandleValid
        (BP_AddObserver_Function R w (some EventClass) (some Observer) FunctionName Channel).2
        (BP_AddObserver_Function R w (some EventClass) (some Observer) FunctionName Channel).1
          = true ∧
      Num (BP_AddObserver_Function R w (some EventClass) (some Observer) FunctionName
        Channel).2 = Num w + 1 ∧
      (BP_AddObserver_Function R w (some EventClass) (some Observer) FunctionName
        Channel).2.This.ObserverRecords = w.This.ObserverRecords ++
          [((some EventClass, Channel),
            ⟨w.Allocated,
              ⟨Channel, some Observer, .Function (some Observer) (some f.Self)⟩⟩)]) ∧
    (FindCallbackFunction R Observer FunctionName = none →
      BP_AddObserver_Function R w (some EventClass) (some Observer) FunctionName Channel =
        (FLES_ObserverHandle.Default, w)) := by
  refine ⟨?_, ?_, ?_⟩
  · have h := AddObserver_Private_adds_one R w EventClass Observer
      (.Delegate (some Observer) Delegate) Channel hCls
    simp only [BP_AddObserver_Event, hObs, hCls, Bool.not_true, Bool.or_self,
      Bool.false_eq_true, if_false]
    refine ⟨h.2.2.2.1, h.2.2.1, ?_⟩
    rw [h.2.1]
  · intro f hf
    have h := AddObserver_Private_adds_one R w EventClass Observer
      (.Function (some Observer) (some f.Self)) Channel hCls
    rw [BP_AddObserver_Function_eq R w EventClass Observer FunctionName Channel hObs hCls, hf]
    refine ⟨h.2.2.2.1, h.2.2.1, ?_⟩
    rw [h.2.1]
  · intro hf
    rw [BP_AddObserver_Function_eq R w EventClass Observer FunctionName Channel hObs hCls, hf]

/-- Instance of the amended C7: the abstract class `ULES_Event` on `FirstChannel`. -/
theorem BP_AddObserver_ignores_abstract_flag_witness :
    TestClasses.Reflection.IsAbstract ULES_Event.StaticClass = true ∧
    Num (BP_AddObserver_Event TestClasses.Reflection TestClasses.SendingEvents
        (some ULES_Event.StaticClass) (some 100) ⟨none, NAME_None⟩
        TestClasses.FirstChannel).2 = Num TestClasses.SendingEvents + 1 :=
  ⟨by decide,
    (BP_AddObserver_ignores_abstract_flag TestClasses.Reflection TestClasses.SendingEvents
      ULES_Event.StaticClass 100 ⟨none, NAME_None⟩ TestClasses.OnEvent TestClasses.FirstChannel
      (by decide) (by decide) (by decide)).1.2.1⟩

/-- C8, the code at the failing input: `OnDerivedEvent` takes exactly one parameter, a
`ULES_DerivedEvent`, and `OnOtherTestEvent` exactly one `ULES_OtherTestEvent`; neither type
is assignable from `ULES_TestEvent`. Yet `BP_AddObserver_Function` called with event class
`ULES_TestEvent` and either name returns a valid handle and adds a record. -/
theorem BP_AddObserver_Function_mismatch_counterexample :
    (TestClasses.Reflection.FindFunction 100 TestClasses.OnDerivedEvent).map
        UFunction.Parameters =
      some [FProperty.Object (CPF_Parm ||| 0x2) TestClasses.ULES_DerivedEvent_StaticClass] ∧
    TestClasses.Reflection.IsChildOf TestClasses.ULES_TestEvent_StaticClass
      TestClasses.ULES_DerivedEvent_StaticClass = false ∧
    (TestClasses.Reflection.FindFunction 100 TestClasses.OnOtherTestEvent).map
        UFunction.Parameters =
      some [FProperty.Object (CPF_Parm ||| 0x2) TestClasses.ULES_OtherTestEvent_StaticClass] ∧
    TestClasses.Reflection.IsChildOf TestClasses.ULES_TestEvent_StaticClass
      TestClasses.ULES_OtherTestEvent_StaticClass = false ∧
    IsValid TestClasses.Fresh (some 100) = true ∧
    Num TestClasses.Fresh = 0 ∧
    IsHandleValid
      (BP_AddObserver_Function TestClasses.Reflection TestClasses.Fresh
        (some TestClasses.ULES_TestEvent_StaticClass) (some 100) TestClasses.OnDerivedEvent
        NAME_None).2
      (BP_AddObserver_Function TestClasses.Reflection TestClasses.Fresh
        (some TestClasses.ULES_TestEvent_StaticClass) (some 100) TestClasses.OnDerivedEvent
        NAME_None).1 = true ∧
    Num (BP_AddObserver_Function TestClasses.Reflection TestClasses.Fresh
        (some TestClasses.ULES_TestEvent_StaticClass) (some 100) TestClasses.OnDerivedEvent
        NAME_None).2 = 1 ∧
    IsHandleValid
      (BP_AddObserver_Function TestClasses.Reflection TestClasses.Fresh
        (some TestClasses.ULES_TestEvent_StaticClass) (some 100) TestClasses.OnOtherTestEvent
        NAME_None).2
      (BP_AddObserver_Function TestClasses.Reflection TestClasses.Fresh
        (some TestClasses.ULES_TestEvent_StaticClass) (some 100) TestClasses.OnOtherTestEvent
        NAME_None).1 = true ∧
    Num (BP_AddObserver_Function TestClasses.Reflection TestClasses.Fresh
        (some TestClasses.ULES_TestEvent_StaticClass) (some 100) TestClasses.OnOtherTestEvent
        NAME_None).2 = 1 := by
  decide

/-- The test that `FindCallbackFunction` makes on the parameter: when the named function
exists on the observer with exactly one parameter, an input, `BP_AddObserver_Function`
returns the default handle and the unchanged state if the parameter is not an object pointer
of class `ULES_Event` or of a class deriving from it; if it is one, the call adds one record
under `(E, Channel)` and returns a valid handle, whatever the relation between the parameter
class and the declared event class `E`. -/
theorem BP_AddObserver_Function_checks_event_base_only (R : FReflection) (w : FWorld)
    (E Observer : Nat) (FunctionName Channel : FName) (f : UFunction) (p : FProperty)
    (hObs : IsValid w (some Observer) = true)
    (hCls : IsValid w (TSubclassOf.Get R (some E)) = true)
    (hf : R.FindFunction Observer FunctionName = some f) (hparams : f.Parameters = [p])
    (hin : (p.PropertyFlags &&& CPF_OutParm != 0) = false) :
    (p.IsEventObject R = false →
      BP_AddObserver_Function R w (some E) (some Observer) FunctionName Channel =
        (FLES_ObserverHandle.Default, w)) ∧
    (p.IsEventObject R = true →
      IsHandleValid
        (BP_AddObserver_Function R w (some E) (some Observer) FunctionName Channel).2
        (BP_AddObserver_Function R w (some E) (some Observer) FunctionName Channel).1 = true ∧
      Num (BP_AddObserver_Function R w (some E) (some Observer) FunctionName Channel).2 =
        Num w + 1 ∧
      (BP_AddObserver_Function R w (some E) (some Observer) FunctionName
        Channel).2.This.ObserverRecords = w.This.ObserverRecords ++
          [((some E, Channel),
            ⟨w.Allocated,
              ⟨Channel, some Observer, .Function (some Observer) (some f.Self)⟩⟩)]) := by
  have hIn : f.Inputs = [p] := by simp [UFunction.Inputs, hparams, hin]
  have hOut : f.Outputs = [] := by simp [UFunction.Outputs, hparams, hin]
  rw [BP_AddObserver_Function_eq R w E Observer FunctionName Channel hObs hCls]
  constructor
  · intro hp
    cases hc : FindCallbackFunction R Observer FunctionName with
    | none => rfl
    | some g =>
      obtain ⟨hg, q, hq, _, hqe⟩ :=
        (FindCallbackFunction_eq_some_iff R Observer FunctionName g).1 hc
      rw [hf] at hg
      cases hg
      rw [hIn] at hq
      cases hq
      rw [hp] at hqe
      cases hqe
  · intro hp
    have hc : FindCallbackFunction R Observer FunctionName = some f :=
      (FindCallbackFunction_eq_some_iff R Observer FunctionName f).2 ⟨hf, p, hIn, hOut, hp⟩
    have h := AddObserver_Private_adds_one R w E Observer
      (.Function (some Observer) (some f.Self)) Channel hCls
    rw [hc]
    refine ⟨h.2.2.2.1, h.2.2.1, ?_⟩
    rw [h.2.1]

/-- Instance of the test on the parameter: `OnDerivedEvent` registered for
`ULES_TestEvent`. -/
theorem BP_AddObserver_Function_checks_event_base_only_witness :
    TestClasses.Reflection.IsChildOf TestClasses.ULES_TestEvent_StaticClass
      TestClasses.ULES_DerivedEvent_StaticClass = false ∧
    Num (BP_AddObserver_Function TestClasses.Reflection TestClasses.SendingEvents
        (some TestClasses.ULES_TestEvent_StaticClass) (some 100) TestClasses.OnDerivedEvent
        NAME_None).2 = Num TestClasses.SendingEvents + 1 :=
  ⟨by decide,
    ((BP_AddObserver_Function_checks_event_base_only TestClasses.Reflection
      TestClasses.SendingEvents TestClasses.ULES_TestEvent_StaticClass 100
      TestClasses.OnDerivedEvent NAME_None
      (TestClasses.HandlerFunction 52 TestClasses.ULES_DerivedEvent_StaticClass)
      (FProperty.Object (CPF_Parm ||| 0x2) TestClasses.ULES_DerivedEvent_StaticClass)
      (by decide) (by decide) (by decide) (by decide) (by decide)).2 (by decide)).2.1⟩

/-- C9: for a valid observer and a valid event class, `BP_AddObserver_Function` returns the
default handle, which is invalid, and the unchanged state whenever the name resolves to no
function of the observer, or the function does not have exactly one input parameter, or it
has an output or return parameter, or its single input is not an object of an event class.
It adds a record, and then returns a valid handle, exactly when the function exists with
one input parameter that is an object of an event class and with no output. -/
theorem BP_AddObserver_Function_resolves_handler (R : FReflection) (w : FWorld)
    (E Observer : Nat) (FunctionName Channel : FName)
    (hObs : IsValid w (some Observer) = true)
    (hCls : IsValid w (TSubclassOf.Get R (some E)) = true) :
    IsHandleValid w FLES_ObserverHandle.Default = false ∧
    (R.FindFunction Observer FunctionName = none →
      BP_AddObserver_Function R w (some E) (some Observer) FunctionName Channel =
        (FLES_ObserverHandle.Default, w)) ∧
    (∀ f, R.FindFunction Observer FunctionName = some f → f.Inputs.length ≠ 1 →
      BP_AddObserver_Function R w (some E) (some Observer) FunctionName Channel =
        (FLES_ObserverHandle.Default, w)) ∧
    (∀ f, R.FindFunction Observer FunctionName = some f → f.Outputs ≠ [] →
      BP_AddObserver_Function R w (some E) (some Observer) FunctionName Channel =
        (FLES_ObserverHandle.Default, w)) ∧
    (∀ f p, R.FindFunction Observer FunctionName = some f → f.Inputs = [p] →
      p.IsEventObject R = false →
      BP_AddObserver_Function R w (some E) (some Observer) FunctionName Channel =
        (FLES_ObserverHandle.Default, w)) ∧
    (∀ f p, R.FindFunction Observer FunctionName = some f → f.Inputs = [p] →
      f.Outputs = [] → p.IsEventObject R = true →
      IsHandleValid
        (BP_AddObserver_Function R w (some E) (some Observer) FunctionName Channel).2
        (BP_AddObserver_Function R w (some E) (some Observer) FunctionName Channel).1 = true ∧
      Num (BP_AddObserver_Function R w (some E) (some Observer) FunctionName Channel).2 =
        Num w + 1 ∧
      (BP_AddObserver_Function R w (some E) (some Observer) FunctionName
        Channel).2.This.ObserverRecords = w.This.ObserverRecords ++
          [((some E, Channel),
            ⟨w.Allocated,
              ⟨Channel, some Observer, .Function (some Observer) (some f.Self)⟩⟩)]) ∧
    ((BP_AddObserver_Function R w (some E) (some Observer) FunctionName
        Channel).2.This.ObserverRecords ≠ w.This.ObserverRecords →
      ∃ f p, R.FindFunction Observer FunctionName = some f ∧ f.Inputs = [p] ∧
        f.Outputs = [] ∧ p.IsEventObject R = true) := by
  have hfail : FindCallbackFunction R Observer FunctionName = none →
      BP_AddObserver_Function R w (some E) (some Observer) FunctionName Channel =
        (FLES_ObserverHandle.Default, w) := by
    intro hc
    rw [BP_AddObserver_Function_eq R w E Observer FunctionName Channel hObs hCls, hc]
  have hnone : ∀ P : Prop,
      (∀ g, FindCallbackFunction R Observer FunctionName = some g → P) →
      (¬ P) → FindCallbackFunction R Observer FunctionName = none := by
    intro P h hn
    cases hc : FindCallbackFunction R Observer FunctionName with
    | none => rfl
    | some g => exact absurd (h g hc) hn
  refine ⟨IsHandleValid_Default w, ?_, ?_, ?_, ?_, ?_, ?_⟩
  · intro hf
    apply hfail
    apply hnone False _ id
    intro g hc
    have := ((FindCallbackFunction_eq_some_iff R Observer FunctionName g).1 hc).1
    rw [hf] at this
    cases this
  · intro f hf hlen
    apply hfail
    apply hnone False _ id
    intro g hc
    obtain ⟨hg, q, hq, _, _⟩ :=
      (FindCallbackFunction_eq_some_iff R Observer FunctionName g).1 hc
    rw [hf] at hg
    cases hg
    rw [hq] at hlen
    exact hlen rfl
  · intro f hf hout
    apply hfail
    apply hnone False _ id
    intro g hc
    obtain ⟨hg, q, _, ho, _⟩ :=
      (FindCallbackFunction_eq_some_iff R Observer FunctionName g).1 hc
    rw [hf] at hg
    cases hg
    exact hout ho
  · intro f p hf hIn hp
    apply hfail
    apply hnone False _ id
    intro g hc
    obtain ⟨hg, q, hq, _, hqe⟩ :=
      (FindCallbackFunction_eq_some_iff R Observer FunctionName g).1 hc
    rw [hf] at hg
    cases hg
    rw [hIn] at hq
    cases hq
    rw [hp] at hqe
    cases hqe
  · intro f p hf hIn hOut hp
    have hc : FindCallbackFunction R Observer FunctionName = some f :=
      (FindCallbackFunction_eq_some_iff R Observer FunctionName f).2 ⟨hf, p, hIn, hOut, hp⟩
    have h := AddObserver_Private_adds_one R w E Observer
      (.Function (some Observer) (some f.Self)) Channel hCls
    rw [BP_AddObserver_Function_eq R w E Observer FunctionName Channel hObs hCls, hc]
    refine ⟨h.2.2.2.1, h.2.2.1, ?_⟩
    rw [h.2.1]
  · intro hne
    cases hc : FindCallbackFunction R Observer FunctionName with
    | none =>
      rw [hfail hc] at hne
      exact absurd rfl hne
    | some g =>
      obtain ⟨hg, q, hq, ho, hqe⟩ :=
        (FindCallbackFunction_eq_some_iff R Observer FunctionName g).1 hc
      exact ⟨g, q, hg, hq, ho, hqe⟩

/-- Instance of C9: an unknown function name is rejected, `OnTestEvent` is registered. -/
theorem BP_AddObserver_Function_resolves_handler_witness :
    IsValid TestClasses.SendingEvents (some 100) = true ∧
    BP_AddObserver_Function TestClasses.Reflection TestClasses.SendingEvents
        (some TestClasses.ULES_TestEvent_StaticClass) (some 100) 99 NAME_None =
      (FLES_ObserverHandle.Default, TestClasses.SendingEvents) ∧
    Num (BP_AddObserver_Function TestClasses.Reflection TestClasses.SendingEvents
        (some TestClasses.ULES_TestEvent_StaticClass) (some 100) TestClasses.OnTestEvent
        NAME_None).2 = Num TestClasses.SendingEvents + 1 :=
  ⟨by decide,
    (BP_AddObserver_Function_resolves_handler TestClasses.Reflection TestClasses.SendingEvents
      TestClasses.ULES_TestEvent_StaticClass 100 99 NAME_None (by decide) (by decide)).2.1
      (by decide),
    ((BP_AddObserver_Function_resolves_handler TestClasses.Reflection TestClasses.SendingEvents
      TestClasses.ULES_TestEvent_StaticClass 100 TestClasses.OnTestEvent NAME_None (by decide)
      (by decide)).2.2.2.2.2.1
      (TestClasses.HandlerFunction 51 TestClasses.ULES_TestEvent_StaticClass)
      (FProperty.Object (CPF_Parm ||| 0x2) TestClasses.ULES_TestEvent_StaticClass)
      (by decide) (by decide) (by decide) (by decide)).2.1⟩

/-! ## Lemmas on `RemoveByHandle` -/

theorem WellFormed_filter (w : FWorld) (hwf : w.WellFormed) (f : FKey × FRecord → Bool) :
    FWorld.WellFormed
      { w with This := { ObserverRecords := w.This.ObserverRecords.filter f } } := by
  obtain ⟨hnd, hlt, hcls⟩ := hwf
  have hsub : List.Sublist
      (FWorld.Shared { w with This := { ObserverRecords := w.This.ObserverRecords.filter f } })
      w.Shared := by
    rw [Shared_eq, Shared_eq]
    exact List.Sublist.append (List.Sublist.map _ (List.filter_sublist _)) (List.Sublist.refl _)
  refine ⟨List.Nodup.sublist (List.Sublist.map _ hsub) hnd,
    fun r hr => hlt r (hsub.subset hr), ?_⟩
  intro b hb p hp
  rw [IsValid_congr w { w with This := { ObserverRecords := w.This.ObserverRecords.filter f } } rfl]
  simp only [FWorld.Systems, List.mem_cons] at hb
  rcases hb with rfl | hb
  · exact hcls w.This (by simp [FWorld.Systems]) p (List.mem_filter.1 hp).1
  · exact hcls b (by simp [FWorld.Systems, hb]) p hp

theorem Others_block_ne (w : FWorld) (hwf : w.WellFormed) (p : FKey × FRecord)
    (hp : p ∈ w.This.ObserverRecords) (q : FRecord)
    (hq : q ∈ (w.Others.flatMap fun b => b.ObserverRecords).map Prod.snd) :
    q.Block ≠ p.2.Block := by
  have h := hwf.1
  rw [Shared_eq, List.map_append] at h
  have hdis := (List.nodup_append.1 h).2.2
  intro hb
  exact hdis (List.mem_map.2 ⟨p.2, List.mem_map.2 ⟨p, hp, rfl⟩, rfl⟩)
    (List.mem_map.2 ⟨q, hq, hb⟩)

theorem TWeakPtr_IsValid_iff (w : FWorld) (r : FRecord) :
    TWeakPtr.IsValid w (some r) = true ↔
      (∃ q ∈ w.Shared, q.Block = r.Block) ∨ w.Retains r = true := by
  simp [TWeakPtr.IsValid, FWorld.Owners, FWorld.Retains, or_and_right, exists_or]

theorem mem_Shared_filter (w : FWorld) (f : FKey × FRecord → Bool) (q : FRecord) :
    q ∈ FWorld.Shared
        { w with This := { ObserverRecords := w.This.ObserverRecords.filter f } } ↔
      (∃ p ∈ w.This.ObserverRecords, f p = true ∧ p.2 = q) ∨
        q ∈ (w.Others.flatMap fun b => b.ObserverRecords).map Prod.snd := by
  rw [Shared_eq, List.mem_append]
  apply or_congr _ Iff.rfl
  simp only [List.mem_map, List.mem_filter]
  constructor
  · rintro ⟨p, ⟨hp, hf⟩, rfl⟩
    exact ⟨p, hp, hf, rfl⟩
  · rintro ⟨p, hp, hf, rfl⟩
    exact ⟨p, ⟨hp, hf⟩, rfl⟩

theorem mem_Shared_iff (w : FWorld) (q : FRecord) :
    q ∈ w.Shared ↔
      (∃ p ∈ w.This.ObserverRecords, p.2 = q) ∨
        q ∈ (w.Others.flatMap fun b => b.ObserverRecords).map Prod.snd := by
  rw [Shared_eq, List.mem_append]
  apply or_congr _ Iff.rfl
  simp only [List.mem_map]

theorem RemoveByHandle_invalid (w : FWorld) (h : FLES_ObserverHandle)
    (hv : IsHandleValid w h = false) : RemoveByHandle w h = (0, w) := by
  simp [RemoveByHandle, hv]

/-! ## Properties of `RemoveByHandle` -/

theorem Equals_valid (w : FWorld) (X : Nat) (hX : IsValid w (some X) = true)
    (p : Option Nat) : TWeakObjectPtr.Equals w p (some X) = decide (p = some X) := by
  simp [TWeakObjectPtr.Equals, hX]

theorem length_filter_add (m : TMultiMap) (f : FKey × FRecord → Bool) :
    (m.filter f).length + (m.filter fun p => !f p).length = m.length := by
  induction m with
  | nil => rfl
  | cons p rest ih =>
    by_cases h : f p = true
    · simp only [List.filter_cons, h, if_true, Bool.not_true, Bool.false_eq_true, if_false,
        List.length_cons]
      omega
    · simp only [Bool.not_eq_true] at h
      simp only [List.filter_cons, h, Bool.false_eq_true, if_false, Bool.not_false, if_true,
        List.length_cons]
      omega

theorem IsHandleValid_filter (w : FWorld) (hwf : w.WellFormed) (f : FKey × FRecord → Bool)
    (h : FLES_ObserverHandle) (p : FKey × FRecord) (hp : p ∈ w.This.ObserverRecords)
    (hk : p.1 = h.ObserverKey) (he : TSharedPtr.Equals p.2 h.ObserverRecord = true) :
    IsHandleValid { w with This := { ObserverRecords := w.This.ObserverRecords.filter f } } h
      = (f p || w.Retains p.2) := by
  cases hr : h.ObserverRecord with
  | none => simp [hr, TSharedPtr.Equals] at he
  | some r =>
    have hb : p.2.Block = r.Block := by simpa [hr, TSharedPtr.Equals] using he
    have hcls : IsValid
        { w with This := { ObserverRecords := w.This.ObserverRecords.filter f } }
        h.ObserverKey.1 = true := by
      change IsValid w h.ObserverKey.1 = true
      rw [← hk]
      exact hwf.2.2 w.This (by simp [FWorld.Systems]) p hp
    have hret : w.Retains p.2 = w.Retains r := by
      simp only [FWorld.Retains, hb]
    simp only [IsHandleValid, hr, hcls, Bool.and_true]
    rw [Bool.eq_iff_iff, TWeakPtr_IsValid_iff, Bool.or_eq_true, hret]
    apply or_congr _ Iff.rfl
    constructor
    · rintro ⟨q, hq, hqb⟩
      rcases (mem_Shared_filter w f q).1 hq with ⟨p', hp', hf, rfl⟩ | ho
      · have : p' = p := key_unique w hwf p' p hp' hp (hqb.trans hb.symm)
        rw [← this]
        exact hf
      · exact absurd (hqb.trans hb.symm) (Others_block_ne w hwf p hp q ho)
    · intro hf
      exact ⟨p.2, (mem_Shared_filter w f p.2).2 (Or.inl ⟨p, hp, hf, rfl⟩), hb⟩

theorem RemoveByObserver_eq (w : FWorld) (X : Nat) (hX : IsValid w (some X) = true) :
    RemoveByObserver w (some X) =
      ((w.This.ObserverRecords.filter fun p => decide (p.2.Object.Observer = some X)).length,
       { w with This := { ObserverRecords :=
          w.This.ObserverRecords.filter fun p => !decide (p.2.Object.Observer = some X) } }) := by
  have h1 : (w.This.ObserverRecords.filter fun p =>
      TWeakObjectPtr.Equals w p.2.Object.Observer (some X)) =
      w.This.ObserverRecords.filter fun p => decide (p.2.Object.Observer = some X) :=
    List.filter_congr fun p _ => Equals_valid w X hX _
  have h2 : (w.This.ObserverRecords.filter fun p =>
      !TWeakObjectPtr.Equals w p.2.Object.Observer (some X)) =
      w.This.ObserverRecords.filter fun p => !decide (p.2.Object.Observer = some X) :=
    List.filter_congr fun p _ => by rw [Equals_valid w X hX]
  simp only [RemoveByObserver, h1, h2]

/-! ## Properties of `RemoveByObserver` and `Clean` -/

/-- C11: for a valid observer `X`, `RemoveByObserver` removes exactly the records whose
observer is `X`, under whatever key they are stored, and returns their number. Every other
record stays in place and a handle to it stays valid; a handle to a removed record is no
longer valid, unless a `SendEvent` call in progress holds the record in its array.
`ContainsObserver` is false for `X` afterwards, and a second call returns 0. -/
theorem RemoveByObserver_removes_all_records_of_observer (w : FWorld) (X : Nat)
    (hwf : w.WellFormed) (hX : IsValid w (some X) = true) :
    (RemoveByObserver w (some X)).2 =
      { w with This := { ObserverRecords :=
          w.This.ObserverRecords.filter fun p => !decide (p.2.Object.Observer = some X) } } ∧
    (RemoveByObserver w (some X)).1 =
      (w.This.ObserverRecords.filter fun p => decide (p.2.Object.Observer = some X)).length ∧
    Num (RemoveByObserver w (some X)).2 + (RemoveByObserver w (some X)).1 = Num w ∧
    (∀ p ∈ w.This.ObserverRecords,
      (p ∈ (RemoveByObserver w (some X)).2.This.ObserverRecords ↔
        p.2.Object.Observer ≠ some X) ∧
      ∀ h : FLES_ObserverHandle, p.1 = h.ObserverKey →
        TSharedPtr.Equals p.2 h.ObserverRecord = true →
        (IsHandleValid (RemoveByObserver w (some X)).2 h = true ↔
          p.2.Object.Observer ≠ some X ∨ w.Retains p.2 = true)) ∧
    (∀ p ∈ (RemoveByObserver w (some X)).2.This.ObserverRecords,
      p ∈ w.This.ObserverRecords) ∧
    ContainsObserver (RemoveByObserver w (some X)).2 (some X) = false ∧
    (RemoveByObserver (RemoveByObserver w (some X)).2 (some X)).1 = 0 ∧
    (RemoveByObserver w (some X)).2.WellFormed := by
  have heq := RemoveByObserver_eq w X hX
  have hX' : IsValid (RemoveByObserver w (some X)).2 (some X) = true := by
    rw [heq]
    exact hX
  refine ⟨by rw [heq], by rw [heq], ?_, ?_, ?_, ?_, ?_, ?_⟩
  · rw [heq]
    have := length_filter_add w.This.ObserverRecords
      fun p => !decide (p.2.Object.Observer = some X)
    simp only [Bool.not_not] at this
    exact this
  · intro p hp
    rw [heq]
    constructor
    · simp [List.mem_filter, hp]
    · intro h hk he
      rw [IsHandleValid_filter w hwf _ h p hp hk he]
      simp
  · intro p hp
    rw [heq] at hp
    exact (List.mem_filter.1 hp).1
  · rw [ContainsObserver, List.any_eq_false]
    intro p hp
    rw [Equals_valid _ X hX']
    rw [heq] at hp
    have := (List.mem_filter.1 hp).2
    simpa using this
  · rw [RemoveByObserver_eq _ X hX']
    simp only [heq, List.filter_filter, List.length_eq_zero, List.filter_eq_nil_iff]
    intro p _
    simp
  · rw [heq]
    exact WellFormed_filter w hwf _

/-- C12: `Clean` removes exactly the records whose observer is not valid and returns their
number: a record with a valid observer stays under its key and a handle to it stays
valid; a handle to a removed record is no longer valid, unless a `SendEvent` call in
progress holds the record in its array. `Num` afterwards is `Num` before minus the returned
count and is the number of records with a valid observer, and a repeated `Clean` returns
0. -/
theorem Clean_removes_exactly_the_stale_records (w : FWorld) (hwf : w.WellFormed) :
    (Clean w).2 =
      { w with This := { ObserverRecords :=
          w.This.ObserverRecords.filter fun p => IsValid w p.2.Object.Observer } } ∧
    (Clean w).1 =
      (w.This.ObserverRecords.filter fun p => !IsValid w p.2.Object.Observer).length ∧
    Num (Clean w).2 + (Clean w).1 = Num w ∧
    Num (Clean w).2 =
      (w.This.ObserverRecords.filter fun p => IsValid w p.2.Object.Observer).length ∧
    (∀ p ∈ w.This.ObserverRecords,
      (p ∈ (Clean w).2.This.ObserverRecords ↔ IsValid w p.2.Object.Observer = true) ∧
      ∀ h : FLES_ObserverHandle, p.1 = h.ObserverKey →
        TSharedPtr.Equals p.2 h.ObserverRecord = true →
        (IsHandleValid (Clean w).2 h = true ↔
          IsValid w p.2.Object.Observer = true ∨ w.Retains p.2 = true)) ∧
    (∀ p ∈ (Clean w).2.This.ObserverRecords, p ∈ w.This.ObserverRecords) ∧
    (Clean (Clean w).2).1 = 0 ∧
    (Clean (Clean w).2).2 = (Clean w).2 ∧
    (Clean w).2.WellFormed := by
  refine ⟨rfl, rfl, ?_, rfl, ?_, ?_, ?_, ?_, WellFormed_filter w hwf _⟩
  · exact length_filter_add w.This.ObserverRecords fun p => IsValid w p.2.Object.Observer
  · intro p hp
    constructor
    · simp [Clean, List.mem_filter, hp]
    · intro h hk he
      simp only [Clean]
      rw [IsHandleValid_filter w hwf _ h p hp hk he, Bool.or_eq_true]
  · intro p hp
    exact (List.mem_filter.1 hp).1
  · simp only [Clean, List.filter_filter, List.length_eq_zero, List.filter_eq_nil_iff]
    intro p _
    have : ∀ o, IsValid
        { w with This := { ObserverRecords :=
          w.This.ObserverRecords.filter fun p => IsValid w p.2.Object.Observer } } o
        = IsValid w o := fun o => IsValid_congr w _ rfl o
    simp [this]
  · have : ∀ o, IsValid
        { w with This := { ObserverRecords :=
          w.This.ObserverRecords.filter fun p => IsValid w p.2.Object.Observer } } o
        = IsValid w o := fun o => IsValid_congr w _ rfl o
    simp [Clean, this, List.filter_filter]

/-- Instance of C11: removing `Observers[3]` from the index of the test "Sending events"
removes its five records and leaves the handle of `Observers[0]` valid. -/
theorem RemoveByObserver_removes_all_records_of_observer_witness :
    TestClasses.SendingEvents.WellFormed ∧
    IsValid TestClasses.SendingEvents (some 103) = true ∧
    (RemoveByObserver TestClasses.SendingEvents (some 103)).1 = 5 ∧
    Num (RemoveByObserver TestClasses.SendingEvents (some 103)).2 + 5 = 9 ∧
    IsHandleValid (RemoveByObserver TestClasses.SendingEvents (some 103)).2
      TestClasses.Handle1 = true ∧
    ContainsObserver (RemoveByObserver TestClasses.SendingEvents (some 103)).2 (some 103)
      = false ∧
    (RemoveByObserver (RemoveByObserver TestClasses.SendingEvents (some 103)).2
      (some 103)).1 = 0 :=
  have h := RemoveByObserver_removes_all_records_of_observer TestClasses.SendingEvents 103
    (by decide) (by decide)
  ⟨by decide, by decide, h.2.1.trans (by decide),
    (congrArg (fun n => Num (RemoveByObserver TestClasses.SendingEvents (some 103)).2 + n)
      (h.2.1.trans (by decide))).symm.trans (h.2.2.1.trans (by decide)),
    ((h.2.2.2.1 ((some TestClasses.ULES_TestEvent_StaticClass, NAME_None), TestClasses.Record1)
      (by decide)).2 TestClasses.Handle1 rfl (by decide)).2 (by decide),
    h.2.2.2.2.2.1, h.2.2.2.2.2.2.1⟩

/-- Instance of C12: after `Observers[0]` is destroyed, `Clean` removes its two records and
a second `Clean` removes nothing. -/
theorem Clean_removes_exactly_the_stale_records_witness :
    (TestClasses.SendingEvents.Destroy 100).WellFormed ∧
    (Clean (TestClasses.SendingEvents.Destroy 100)).1 = 2 ∧
    Num (Clean (TestClasses.SendingEvents.Destroy 100)).2 +
      (Clean (TestClasses.SendingEvents.Destroy 100)).1 =
        Num (TestClasses.SendingEvents.Destroy 100) ∧
    (Clean (Clean (TestClasses.SendingEvents.Destroy 100)).2).1 = 0 :=
  have h := Clean_removes_exactly_the_stale_records (TestClasses.SendingEvents.Destroy 100)
    (by decide)
  ⟨by decide, h.2.1.trans (by decide), h.2.2.1, h.2.2.2.2.2.2.1⟩

/-! ## Lemmas on the invariant of an issued handle -/

theorem RemoveSingle_sublist (m : TMultiMap) (Key : FKey) (Value : Option FRecord) :
    List.Sublist (TMultiMap.RemoveSingle m Key Value).2 m := by
  induction m with
  | nil => exact List.Sublist.refl _
  | cons p rest ih =>
    simp only [TMultiMap.RemoveSingle]
    split
    · exact List.sublist_cons_self _ _
    · exact List.Sublist.cons₂ _ ih

theorem Tracks_handle (w : FWorld) (k : FKey) (r : FRecord) (ht : w.Tracks k r) :
    (IsHandleValid w { ObserverKey := k, ObserverRecord := some r } = true ↔
      (k, r) ∈ w.This.ObserverRecords ∨ (w.Retains r = true ∧ IsValid w k.1 = true)) ∧
    (w.Holds { ObserverKey := k, ObserverRecord := some r } ↔
      (k, r) ∈ w.This.ObserverRecords) ∧
    (TWeakPtr.IsValid w (some r) = true ↔
      (k, r) ∈ w.This.ObserverRecords ∨ w.Retains r = true) := by
  obtain ⟨_, _, _, hown, hoth⟩ := ht
  have hholds : w.Holds { ObserverKey := k, ObserverRecord := some r } ↔
      (k, r) ∈ w.This.ObserverRecords := by
    constructor
    · rintro ⟨p, hp, _, he⟩
      have hb : p.2.Block = r.Block := by simpa [TSharedPtr.Equals] using he
      rw [← (hown p hp hb).1]
      exact hp
    · intro hp
      exact ⟨(k, r), hp, rfl, by simp [TSharedPtr.Equals]⟩
  have hweak : TWeakPtr.IsValid w (some r) = true ↔
      (k, r) ∈ w.This.ObserverRecords ∨ w.Retains r = true := by
    rw [TWeakPtr_IsValid_iff]
    apply or_congr _ Iff.rfl
    constructor
    · rintro ⟨q, hq, hqb⟩
      rcases (mem_Shared_iff w q).1 hq with ⟨p, hp, rfl⟩ | ho
      · rw [← (hown p hp hqb).1]
        exact hp
      · exact absurd hqb (hoth q ho)
    · intro hp
      exact ⟨r, This_subset_Shared w (k, r) hp, rfl⟩
  refine ⟨?_, hholds, hweak⟩
  simp only [IsHandleValid, Bool.and_eq_true, hweak]
  constructor
  · rintro ⟨hp | hrun, hc⟩
    · exact Or.inl hp
    · exact Or.inr ⟨hrun, hc⟩
  · rintro (hp | ⟨hrun, hc⟩)
    · exact ⟨Or.inl hp, (hown (k, r) hp rfl).2⟩
    · exact ⟨Or.inr hrun, hc⟩

theorem Tracks_quiet (w : FWorld) (k : FKey) (r : FRecord) (ht : w.Tracks k r)
    (hrun : w.Running = []) :
    (IsHandleValid w { ObserverKey := k, ObserverRecord := some r } = true ↔
      (k, r) ∈ w.This.ObserverRecords) ∧
    (TWeakPtr.IsValid w (some r) = true ↔ (k, r) ∈ w.This.ObserverRecords) := by
  have hret : w.Retains r = false := by simp [FWorld.Retains, hrun]
  obtain ⟨h1, _, h3⟩ := Tracks_handle w k r ht
  rw [h1, h3, hret]
  simp

theorem Tracks_Leave (w : FWorld) (k : FKey) (r : FRecord) (Records : List FRecord) :
    (w.Leave Records).Tracks k r ↔ w.Tracks k r := Iff.rfl

theorem Tracks_sublist (w w' : FWorld) (k : FKey) (r : FRecord) (ht : w.Tracks k r)
    (hd : w'.Destroyed = w.Destroyed) (ha : w'.Allocated = w.Allocated)
    (ho : w'.Others = w.Others)
    (hs : List.Sublist w'.This.ObserverRecords w.This.ObserverRecords) : w'.Tracks k r := by
  obtain ⟨hnd, hlt, hb, hown, hoth⟩ := ht
  have hsub : List.Sublist w'.Shared w.Shared := by
    rw [Shared_eq, Shared_eq, ho]
    exact List.Sublist.append (List.Sublist.map _ hs) (List.Sublist.refl _)
  refine ⟨List.Nodup.sublist (List.Sublist.map _ hsub) hnd, ?_, ?_, ?_, ?_⟩
  · intro q hq
    rw [ha]
    exact hlt q (hsub.subset hq)
  · rw [ha]
    exact hb
  · intro p hp hpb
    rw [IsValid_congr w w' hd]
    exact hown p (hs.subset hp) hpb
  · rw [ho]
    exact hoth

theorem absent_sublist (w w' : FWorld) (k : FKey) (r : FRecord)
    (hs : List.Sublist w'.This.ObserverRecords w.This.ObserverRecords)
    (hno : (k, r) ∉ w.This.ObserverRecords) : (k, r) ∉ w'.This.ObserverRecords :=
  fun h => hno (hs.subset h)

theorem Tracks_add (R : FReflection) (w : FWorld) (k : FKey) (r : FRecord)
    (ht : w.Tracks k r) (EventClass Observer : Option Nat) (Callback : TFunction)
    (Channel : FName) :
    (AddObserver_Private R w EventClass Observer Callback Channel).2.Tracks k r ∧
    ((k, r) ∉ w.This.ObserverRecords →
      (k, r) ∉
        (AddObserver_Private R w EventClass Observer Callback Channel).2.This.ObserverRecords)
    := by
  obtain ⟨hnd, hlt, hb, hown, hoth⟩ := ht
  have hperm : (AddObserver_Private R w EventClass Observer Callback Channel).2.Shared.Perm
      (⟨w.Allocated, ⟨Channel, Observer, Callback⟩⟩ :: w.Shared) := by
    rw [Shared_eq, Shared_eq]
    simp only [AddObserver_Private, TMultiMap.Add, List.map_append, List.map_cons, List.map_nil,
      List.append_assoc, List.singleton_append]
    exact List.perm_middle
  refine ⟨⟨?_, ?_, ?_, ?_, hoth⟩, ?_⟩
  · rw [(hperm.map _).nodup_iff]
    simp only [List.map_cons, List.nodup_cons, List.mem_map, not_exists, not_and]
    refine ⟨?_, hnd⟩
    intro q hq hqb
    have := hlt q hq
    omega
  · intro q hq
    have hq2 := hperm.subset hq
    simp only [List.mem_cons] at hq2
    simp only [AddObserver_Private]
    rcases hq2 with rfl | hq2
    · simp
    · have := hlt q hq2
      omega
  · simp only [AddObserver_Private]
    omega
  · intro p hp hpb
    simp only [AddObserver_Private, TMultiMap.Add, List.mem_append, List.mem_singleton] at hp
    rcases hp with hp | rfl
    · exact hown p hp hpb
    · simp only at hpb
      omega
  · intro hno hin
    simp only [AddObserver_Private, TMultiMap.Add, List.mem_append, List.mem_singleton] at hin
    rcases hin with hin | hin
    · exact hno hin
    · have : r.Block = w.Allocated := by
        have := congrArg (fun x => x.2.Block) hin
        simpa using this
      omega

theorem Tracks_CollectGarbage (w : FWorld) (k : FKey) (r : FRecord) (ht : w.Tracks k r)
    (X : Nat) : (w.CollectGarbage X).Tracks k r := by
  unfold FWorld.CollectGarbage
  split
  · exact ht
  · rename_i hheld
    obtain ⟨hnd, hlt, hb, hown, hoth⟩ := ht
    refine ⟨hnd, hlt, hb, ?_, hoth⟩
    intro p hp hpb
    obtain ⟨hpe, hv⟩ := hown p hp hpb
    refine ⟨hpe, ?_⟩
    have hne : k.1 ≠ some X := by
      intro hk
      apply hheld
      simp only [FWorld.StronglyHeld, FWorld.Systems, List.any_cons, Bool.or_eq_true,
        List.any_eq_true, decide_eq_true_eq]
      exact Or.inl ⟨p, hp, by rw [hpe]; exact hk⟩
    cases hk1 : k.1 with
    | none => simp [hk1, IsValid] at hv
    | some c =>
      rw [hk1] at hv hne
      have hcX : c ≠ X := fun h => hne (by rw [h])
      simp only [IsValid, FWorld.Destroy, List.mem_cons, not_or, decide_eq_true_eq] at hv ⊢
      exact ⟨hcX, hv⟩

theorem subscribe_cases (R : FReflection) (V : FHooks) (U : FUserCode) (op : FOp)
    (hsub : op.IsSubscribe = true) (w : FWorld) :
    op.Call R V U w = (FLES_ObserverHandle.Default, w) ∨
      ∃ EventClass Callback, IsValid w op.Observer = true ∧
        op.Call R V U w =
          AddObserver_Private R w EventClass op.Observer Callback op.Channel := by
  cases op with
  | AddObserver_Method TEvent Observer Callback Channel =>
    simp only [FOp.Call, AddObserver_Method, FOp.Observer, FOp.Channel]
    split
    · exact Or.inl rfl
    · rename_i hv
      exact Or.inr ⟨_, _, by simpa using hv, rfl⟩
  | AddObserver_Functor TEvent Observer Callback Channel =>
    simp only [FOp.Call, AddObserver_Functor, FOp.Observer, FOp.Channel]
    split
    · exact Or.inl rfl
    · rename_i hv
      exact Or.inr ⟨_, _, by simpa using hv, rfl⟩
  | BP_AddObserver_Event EventClass Observer Callback Channel =>
    simp only [FOp.Call, BP_AddObserver_Event, FOp.Observer, FOp.Channel]
    split
    · exact Or.inl rfl
    · rename_i hv
      simp only [Bool.or_eq_true, Bool.not_eq_true', not_or, Bool.not_eq_false] at hv
      exact Or.inr ⟨_, _, hv.1, rfl⟩
  | BP_AddObserver_Function EventClass Observer FunctionName Channel =>
    simp only [FOp.Call, BP_AddObserver_Function, FOp.Observer, FOp.Channel]
    split
    · exact Or.inl rfl
    · rename_i hv
      simp only [Bool.or_eq_true, Bool.not_eq_true', not_or, Bool.not_eq_false] at hv
      split
      · exact Or.inl rfl
      · split
        · exact Or.inl rfl
        · exact Or.inr ⟨_, _, hv.1, rfl⟩
  | RemoveByHandle _ => simp [FOp.IsSubscribe] at hsub
  | RemoveByObserver _ => simp [FOp.IsSubscribe] at hsub
  | RemoveAll => simp [FOp.IsSubscribe] at hsub
  | Clean => simp [FOp.IsSubscribe] at hsub
  | SendEvent _ => simp [FOp.IsSubscribe] at hsub
  | CollectGarbage _ => simp [FOp.IsSubscribe] at hsub

theorem Passive_respects (U : FUserCode) (hU : U.Passive) (k : FKey) (r : FRecord) :
    U.Respects k r := by
  intro h e w ht
  rw [hU h e w]
  exact ⟨ht, id, rfl⟩

theorem SendEvent_respects (R : FReflection) (V : FHooks) (U : FUserCode) (hV : V.Passive)
    (k : FKey) (r : FRecord) (hU : U.Respects k r) (w : FWorld) (ht : w.Tracks k r)
    (Event : Option ULES_Event) :
    (SendEvent R V U w Event).1.Tracks k r ∧
    ((k, r) ∉ w.This.ObserverRecords →
      (k, r) ∉ (SendEvent R V U w Event).1.This.ObserverRecords) ∧
    (SendEvent R V U w Event).1.Running = w.Running := by
  obtain ⟨hBS, hBR, hAR, hAS⟩ := hV
  cases Event with
  | none => exact ⟨ht, id, rfl⟩
  | some e =>
    simp only [SendEvent]
    split
    · exact ⟨ht, id, rfl⟩
    · split
      · rw [hBS]
        exact ⟨ht, id, rfl⟩
      · rw [hBS]
        have hloop := SendEvent_Loop_invariant R V U
          (fun s => s.Tracks k r ∧
            ((k, r) ∉ w.This.ObserverRecords → (k, r) ∉ s.This.ObserverRecords) ∧
            s.Running = TMultiMap.MultiFind w.This.ObserverRecords (some e.Class, e.Channel) ++
              w.Running)
          (fun e o s hs => by rw [hBR]; exact hs)
          (fun e o s hs => by rw [hAR]; exact hs)
          (fun h e s hs =>
            ⟨(hU h e s hs.1).1, fun hno => (hU h e s hs.1).2.1 (hs.2.1 hno),
              (hU h e s hs.1).2.2.trans hs.2.2⟩) e
          (TMultiMap.MultiFind w.This.ObserverRecords (some e.Class, e.Channel))
          (w.Enter (TMultiMap.MultiFind w.This.ObserverRecords (some e.Class, e.Channel)))
          ⟨ht, id, rfl⟩
        rw [hAS]
        obtain ⟨h1, h2, h3⟩ := hloop
        refine ⟨h1, h2, ?_⟩
        show List.drop _ (SendEvent_Loop R V U e _ _).1.Running = w.Running
        rw [h3, List.drop_left]

theorem Tracks_Call (R : FReflection) (V : FHooks) (U : FUserCode) (hV : V.Passive)
    (w : FWorld) (k : FKey) (r : FRecord) (hU : U.Respects k r) (ht : w.Tracks k r)
    (op : FOp) :
    (op.Call R V U w).2.Tracks k r ∧
    ((k, r) ∉ w.This.ObserverRecords → (k, r) ∉ (op.Call R V U w).2.This.ObserverRecords) ∧
    (op.Call R V U w).2.Running = w.Running := by
  by_cases hsub : op.IsSubscribe = true
  · rcases subscribe_cases R V U op hsub w with h | ⟨ec, cb, _, h⟩
    · rw [h]
      exact ⟨ht, id, rfl⟩
    · rw [h]
      exact ⟨(Tracks_add R w k r ht ec op.Observer cb op.Channel).1,
        (Tracks_add R w k r ht ec op.Observer cb op.Channel).2, rfl⟩
  · have key : ∀ w' : FWorld, w'.Destroyed = w.Destroyed → w'.Allocated = w.Allocated →
        w'.Others = w.Others → w'.Running = w.Running →
        List.Sublist w'.This.ObserverRecords w.This.ObserverRecords →
        w'.Tracks k r ∧
          ((k, r) ∉ w.This.ObserverRecords → (k, r) ∉ w'.This.ObserverRecords) ∧
          w'.Running = w.Running :=
      fun w' hd ha ho hr hs =>
        ⟨Tracks_sublist w w' k r ht hd ha ho hs, absent_sublist w w' k r hs, hr⟩
    cases op with
    | AddObserver_Method _ _ _ _ => simp [FOp.IsSubscribe] at hsub
    | AddObserver_Functor _ _ _ _ => simp [FOp.IsSubscribe] at hsub
    | BP_AddObserver_Event _ _ _ _ => simp [FOp.IsSubscribe] at hsub
    | BP_AddObserver_Function _ _ _ _ => simp [FOp.IsSubscribe] at hsub
    | RemoveByHandle h =>
      simp only [FOp.Call, RemoveByHandle]
      split
      · exact ⟨ht, id, rfl⟩
      · exact key _ rfl rfl rfl rfl (RemoveSingle_sublist _ _ _)
    | RemoveByObserver o =>
      exact key _ rfl rfl rfl rfl (List.filter_sublist _)
    | RemoveAll =>
      exact key _ rfl rfl rfl rfl (List.nil_sublist _)
    | Clean =>
      exact key _ rfl rfl rfl rfl (List.filter_sublist _)
    | SendEvent e =>
      exact SendEvent_respects R V U hV k r hU w ht e
    | CollectGarbage X =>
      refine ⟨Tracks_CollectGarbage w k r ht X, ?_, ?_⟩
      · intro hno
        simp only [FOp.Call, FWorld.CollectGarbage]
        split
        · exact hno
        · exact hno
      · simp only [FOp.Call, FWorld.CollectGarbage]
        split <;> rfl

theorem Tracks_Run (R : FReflection) (V : FHooks) (U : FUserCode) (hV : V.Passive)
    (k : FKey) (r : FRecord) (hU : U.Respects k r) (ops : List FOp) (w : FWorld)
    (ht : w.Tracks k r) :
    (FWorld.Run R V U ops w).Tracks k r ∧
    ((k, r) ∉ w.This.ObserverRecords →
      (k, r) ∉ (FWorld.Run R V U ops w).This.ObserverRecords) ∧
    (FWorld.Run R V U ops w).Running = w.Running := by
  induction ops generalizing w with
  | nil => exact ⟨ht, id, rfl⟩
  | cons op ops ih =>
    obtain ⟨h1, h2, h3⟩ := Tracks_Call R V U hV w k r hU ht op
    obtain ⟨h4, h5, h6⟩ := ih (op.Call R V U w).2 h1
    exact ⟨h4, fun hno => h5 (h2 hno), h6.trans h3⟩

theorem Script_respects (R : FReflection) (V : FHooks) (hV : V.Passive)
    (S : FHandler → ULES_Event → List FOp) (k : FKey) (r : FRecord) (n : Nat) :
    (FUserCode.Script R V S n).Respects k r := by
  induction n with
  | zero => exact fun h e w ht => ⟨ht, id, rfl⟩
  | succ n ih => exact fun h e w ht => Tracks_Run R V _ hV k r ih (S h e) w ht

theorem Tracks_subscribe (R : FReflection) (V : FHooks) (U : FUserCode) (w : FWorld)
    (hwf : w.WellFormed) (sub : FOp) (hsub : sub.IsSubscribe = true)
    (hok : IsHandleValid (sub.Call R V U w).2 (sub.Call R V U w).1 = true) :
    ∃ k r, (sub.Call R V U w).1 = { ObserverKey := k, ObserverRecord := some r } ∧
      r.Block = w.Allocated ∧ k.2 = sub.Channel ∧ r.Object.Observer = sub.Observer ∧
      (k, r) ∈ (sub.Call R V U w).2.This.ObserverRecords ∧
      (sub.Call R V U w).2.Tracks k r := by
  rcases subscribe_cases R V U sub hsub w with h | ⟨ec, cb, _, h⟩
  · rw [h, IsHandleValid_Default] at hok
    cases hok
  · rw [h] at hok ⊢
    refine ⟨(TSubclassOf.Get R ec, sub.Channel),
      ⟨w.Allocated, ⟨sub.Channel, sub.Observer, cb⟩⟩, rfl, rfl, rfl, rfl,
      by simp [AddObserver_Private, TMultiMap.Add], ?_⟩
    obtain ⟨hnd, hlt, _⟩ := hwf
    have hcls : IsValid w (TSubclassOf.Get R ec) = true := by
      simp only [IsHandleValid, Bool.and_eq_true] at hok
      exact hok.2
    have hperm : (AddObserver_Private R w ec sub.Observer cb sub.Channel).2.Shared.Perm
        (⟨w.Allocated, ⟨sub.Channel, sub.Observer, cb⟩⟩ :: w.Shared) := by
      rw [Shared_eq, Shared_eq]
      simp only [AddObserver_Private, TMultiMap.Add, List.map_append, List.map_cons,
        List.map_nil, List.append_assoc, List.singleton_append]
      exact List.perm_middle
    refine ⟨?_, ?_, ?_, ?_, ?_⟩
    · rw [(hperm.map _).nodup_iff]
      simp only [List.map_cons, List.nodup_cons, List.mem_map, not_exists, not_and]
      refine ⟨?_, hnd⟩
      intro q hq hqb
      have := hlt q hq
      omega
    · intro q hq
      have hq2 := hperm.subset hq
      simp only [List.mem_cons] at hq2
      simp only [AddObserver_Private]
      rcases hq2 with rfl | hq2
      · simp
      · have := hlt q hq2
        omega
    · simp only [AddObserver_Private]
      omega
    · intro p hp hpb
      simp only [AddObserver_Private, TMultiMap.Add, List.mem_append, List.mem_singleton] at hp
      rcases hp with hp | rfl
      · have := hlt p.2 (This_subset_Shared w p hp)
        simp only at hpb
        omega
      · exact ⟨rfl, hcls⟩
    · intro q hq hqb
      have := hlt q ((mem_Shared_iff w q).2 (Or.inr hq))
      simp only [AddObserver_Private] at hqb
      omega

/-! ## Handle validity along a sequence of operations -/

/-- C14, the code at the failing input: this event system stores only `Record0`, another
event system stores `Record1` under the same key. The handle of `Record1` is valid and
`Record1` is not in the index of this event system, yet `ContainsValidHandle` is true,
because it tests only that the index contains the key of the handle. -/
theorem ContainsValidHandle_accepts_a_foreign_handle :
    IsHandleValid TestClasses.TwoSystems TestClasses.Handle1 = true ∧
    TestClasses.Handle1.ObserverRecord = some TestClasses.Record1 ∧
    (∀ p ∈ TestClasses.TwoSystems.This.ObserverRecords,
      p.2.Block ≠ TestClasses.Record1.Block) ∧
    ¬ TestClasses.TwoSystems.Holds TestClasses.Handle1 ∧
    TMultiMap.Contains TestClasses.TwoSystems.This.ObserverRecords
      TestClasses.Handle1.ObserverKey = true ∧
    ContainsValidHandle TestClasses.TwoSystems TestClasses.Handle1 = true := by
  decide

/-- C15, as stated, fails: after `RemoveByHandle` the handle that `Observers[3]` got for
`SecondChannel` is invalid, yet `GetChannel` still returns `SecondChannel`, which is not
the default channel. -/
theorem GetChannel_of_removed_handle_counterexample :
    TestClasses.SendingEvents.Holds TestClasses.Handle4 ∧
    IsHandleValid (RemoveByHandle TestClasses.SendingEvents TestClasses.Handle4).2
      TestClasses.Handle4 = false ∧
    GetChannel TestClasses.Handle4 = TestClasses.SecondChannel ∧
    TestClasses.SecondChannel ≠ NAME_None := by
  decide

/-- The behaviour of `GetEventClass` on the same input: the handle is invalid and the class
of its key is returned, because only the class pointer is tested. -/
theorem GetEventClass_of_removed_handle :
    IsHandleValid (RemoveByHandle TestClasses.SendingEvents TestClasses.Handle4).2
      TestClasses.Handle4 = false ∧
    GetEventClass (RemoveByHandle TestClasses.SendingEvents TestClasses.Handle4).2
      TestClasses.Handle4 = some TestClasses.ULES_TestEvent_StaticClass := by
  decide

/-- C15, amended: `GetChannel` returns the channel that the handle carries, whether the
handle is valid or not. For the handle `h` of a successful subscribe call it is the channel
of that call, and it is still that channel once the record has been removed, by `RemoveAll`
or by whatever sequence of operations, and `h` is invalid. For the default handle it is the
default channel. -/
theorem GetChannel_returns_the_stored_channel (R : FReflection) (V : FHooks) (hV : V.Passive)
    (S : FHandler → ULES_Event → List FOp) (n : Nat) (U : FUserCode)
    (hU : U = FUserCode.Script R V S n) (w₀ : FWorld) (hwf : w₀.WellFormed)
    (hrun : w₀.Running = []) (sub : FOp) (hsub : sub.IsSubscribe = true)
    (hok : IsHandleValid (sub.Call R V U w₀).2 (sub.Call R V U w₀).1 = true)
    (h : FLES_ObserverHandle) (hh : h = (sub.Call R V U w₀).1) :
    GetChannel h = sub.Channel ∧
    (IsHandleValid (RemoveAll (sub.Call R V U w₀).2) h = false ∧
      GetChannel h = sub.Channel) ∧
    (∀ ops : List FOp, ¬ (FWorld.Run R V U ops (sub.Call R V U w₀).2).Holds h →
      IsHandleValid (FWorld.Run R V U ops (sub.Call R V U w₀).2) h = false ∧
      GetChannel h = sub.Channel) ∧
    GetChannel FLES_ObserverHandle.Default = NAME_None := by
  obtain ⟨k, r, hkr, _, hch, _, _, ht₀⟩ := Tracks_subscribe R V U w₀ hwf sub hsub hok
  have hh' : h = { ObserverKey := k, ObserverRecord := some r } := hh.trans hkr
  have hR : U.Respects k r := hU ▸ Script_respects R V hV S k r n
  have hrun₀ : (sub.Call R V U w₀).2.Running = [] := by
    rcases subscribe_cases R V U sub hsub w₀ with hc | ⟨ec, cb, _, hc⟩
    · rw [hc]
      exact hrun
    · rw [hc]
      exact hrun
  subst hh'
  have hgone : ∀ ops : List FOp,
      ¬ (FWorld.Run R V U ops (sub.Call R V U w₀).2).Holds
        { ObserverKey := k, ObserverRecord := some r } →
      IsHandleValid (FWorld.Run R V U ops (sub.Call R V U w₀).2)
        { ObserverKey := k, ObserverRecord := some r } = false := by
    intro ops hno
    obtain ⟨ht', _, hr'⟩ := Tracks_Run R V U hV k r hR ops _ ht₀
    rw [← Bool.not_eq_true, (Tracks_quiet _ k r ht' (hr'.trans hrun₀)).1,
      ← (Tracks_handle _ k r ht').2.1]
    exact hno
  refine ⟨hch, ⟨?_, hch⟩, fun ops hno => ⟨hgone ops hno, hch⟩, rfl⟩
  apply hgone [.RemoveAll]
  rintro ⟨p, hp, _⟩
  simp [FWorld.Run, FOp.Call, RemoveAll] at hp

/-- Instance of the amended C15: the handle of a subscribe call on `SecondChannel` keeps
that channel after `RemoveAll` has made it invalid. -/
theorem GetChannel_returns_the_stored_channel_witness :
    GetChannel (TestClasses.SubscribeSecond.Call TestClasses.Reflection DefaultHooks
      (FUserCode.Script TestClasses.Reflection DefaultHooks TestClasses.RemovingAll 1)
      TestClasses.Fresh).1 = TestClasses.SecondChannel ∧
    IsHandleValid
      (RemoveAll (TestClasses.SubscribeSecond.Call TestClasses.Reflection DefaultHooks
        (FUserCode.Script TestClasses.Reflection DefaultHooks TestClasses.RemovingAll 1)
        TestClasses.Fresh).2)
      (TestClasses.SubscribeSecond.Call TestClasses.Reflection DefaultHooks
        (FUserCode.Script TestClasses.Reflection DefaultHooks TestClasses.RemovingAll 1)
        TestClasses.Fresh).1 = false :=
  have h := GetChannel_returns_the_stored_channel TestClasses.Reflection DefaultHooks
    ⟨fun _ _ => rfl, fun _ _ _ => rfl, fun _ _ _ => rfl, fun _ _ => rfl⟩
    TestClasses.RemovingAll 1 _ rfl TestClasses.Fresh (by decide) rfl
    TestClasses.SubscribeSecond rfl (by decide) _ rfl
  ⟨h.1, h.2.1.1⟩

/-- C17: `SendEvent` of a null event, or of an event object that is not valid, makes no call
at all and leaves the state as it is; `SendEvent` of a valid event whose `BeforeSend`
returns false makes the one call `BeforeSend` and nothing else: no callback, no
`BeforeReceive`, no `AfterReceive`, no `AfterSend`. The hooks and handlers are arbitrary. -/
theorem SendEvent_aborts_before_any_notification (R : FReflection) (V : FHooks)
    (U : FUserCode) (w : FWorld) (e : ULES_Event) (hvalid : IsValid w (some e.Self) = true)
    (hveto : (V.BeforeSend e w).1 = false) :
    SendEvent R V U w none = (w, []) ∧
    (∀ e0 : ULES_Event, IsValid w (some e0.Self) = false →
      SendEvent R V U w (some e0) = (w, [])) ∧
    SendEvent R V U w (some e) = ((V.BeforeSend e w).2, [FCall.BeforeSend e]) ∧
    (∀ c ∈ (SendEvent R V U w (some e)).2, c = FCall.BeforeSend e) := by
  have h3 : SendEvent R V U w (some e) = ((V.BeforeSend e w).2, [FCall.BeforeSend e]) := by
    simp [SendEvent, hvalid, hveto]
  refine ⟨rfl, ?_, h3, ?_⟩
  · intro e0 h0
    simp [SendEvent, h0]
  · intro c hc
    rw [h3] at hc
    simpa using hc

/-- Instance of C17: with hooks that refuse every event, `SendEvent` of `TestEvent` on the
index of the test "Sending events" calls `BeforeSend` and nothing else. -/
theorem SendEvent_aborts_before_any_notification_witness :
    SendEvent TestClasses.Reflection TestClasses.Veto TestClasses.Idle TestClasses.SendingEvents
      none = (TestClasses.SendingEvents, []) ∧
    SendEvent TestClasses.Reflection TestClasses.Veto TestClasses.Idle TestClasses.SendingEvents
      (some TestClasses.TestEvent) =
        (TestClasses.SendingEvents, [FCall.BeforeSend TestClasses.TestEvent]) :=
  have h := SendEvent_aborts_before_any_notification TestClasses.Reflection TestClasses.Veto
    TestClasses.Idle TestClasses.SendingEvents TestClasses.TestEvent (by decide) rfl
  ⟨h.1, h.2.2.1⟩

theorem SendEvent_Loop_quiet (R : FReflection) (V : FHooks) (U : FUserCode)
    (hBR : ∀ e o w, (V.BeforeReceive e o w).2 = w) (hAR : ∀ e o w, V.AfterReceive e o w = w)
    (hU : U.Passive) (e : ULES_Event) (Records : List FRecord) (w : FWorld) :
    SendEvent_Loop R V U e Records w = (w, Records.flatMap (SendEvent_Visit V e w)) := by
  induction Records with
  | nil => rfl
  | cons Record Records ih =>
    simp only [SendEvent_Loop, List.flatMap_cons, SendEvent_Visit]
    by_cases hv : IsValid w Record.Object.Observer = true
    · by_cases hb : (V.BeforeReceive e (TWeakObjectPtr.Get w Record.Object.Observer) w).1 = true
      · simp [hv, hb, hBR, hAR, Call_passive R U hU, ih]
      · simp [hv, hb, hBR, ih]
    · simp [hv, ih]

theorem count_callback_accepting (V : FHooks) (hBR : ∀ e o w, (V.BeforeReceive e o w).1 = true)
    (e : ULES_Event) (w : FWorld) (Records : List FRecord) (r : FRecord) (e' : ULES_Event) :
    (Records.flatMap (SendEvent_Visit V e w)).count (FCall.Callback r e') =
      if e' = e ∧ IsValid w r.Object.Observer = true then Records.count r else 0 := by
  induction Records with
  | nil => simp
  | cons Record Records ih =>
    simp only [List.flatMap_cons, List.count_append, ih, List.count_cons]
    by_cases hv : IsValid w Record.Object.Observer = true
    · by_cases hr : Record = r
      · subst hr
        by_cases he : e' = e
        · subst he
          simp [SendEvent_Visit, hBR, hv, List.count_cons]
          omega
        · have he2 : ¬ e = e' := fun h => he h.symm
          simp [SendEvent_Visit, hBR, hv, List.count_cons, he, he2]
      · have hr2 : ¬ r = Record := fun h => hr h.symm
        simp [SendEvent_Visit, hBR, hv, List.count_cons, hr, hr2]
    · by_cases hr : Record = r
      · subst hr
        simp [SendEvent_Visit, hv]
      · simp [SendEvent_Visit, hv, hr]

theorem count_callback_after_BeforeSend (R : FReflection) (V : FHooks) (U : FUserCode)
    (w : FWorld) (e : ULES_Event) (hwf : (V.BeforeSend e w).2.WellFormed)
    (hvalid : IsValid w (some e.Self) = true) (hsend : (V.BeforeSend e w).1 = true)
    (hBR : ∀ e o w, V.BeforeReceive e o w = (true, w)) (hAR : ∀ e o w, V.AfterReceive e o w = w)
    (hU : U.Passive) (r : FRecord) (e' : ULES_Event) :
    ((SendEvent R V U w (some e)).2).count (FCall.Callback r e') =
      if e' = e ∧ ((some e.Class, e.Channel), r) ∈ (V.BeforeSend e w).2.This.ObserverRecords ∧
          IsValid (V.BeforeSend e w).2 r.Object.Observer = true then 1 else 0 := by
  have hBR1 : ∀ e o w, (V.BeforeReceive e o w).1 = true := fun e o w => by rw [hBR]
  have hBR2 : ∀ e o w, (V.BeforeReceive e o w).2 = w := fun e o w => by rw [hBR]
  simp only [SendEvent, hvalid, hsend, Bool.not_true, Bool.false_eq_true, if_false,
    SendEvent_Loop_quiet R V U hBR2 hAR hU, List.count_append,
    count_callback_accepting V hBR1, count_MultiFind _ hwf, IsValid_Enter]
  simp only [List.count_cons, List.count_nil, beq_iff_eq, reduceCtorEq, if_false, zero_add,
    add_zero]
  by_cases h1 : e' = e <;>
    by_cases h2 : ((some e.Class, e.Channel), r) ∈ (V.BeforeSend e w).2.This.ObserverRecords <;>
    by_cases h3 : IsValid (V.BeforeSend e w).2 r.Object.Observer = true <;> simp [h1, h2, h3]

/-! ## Subscribing while an event is sent -/

/-- C19, counterexample: on an empty index, a `BeforeSend` hook that subscribes observer
100 under the key of the event creates the record `Record0` during the pass, and the same
pass calls the callback of that record. -/
theorem reentrant_subscribe_in_BeforeSend_counterexample :
    TestClasses.Fresh.This.ObserverRecords = [] ∧
    (AddObserver_Method TestClasses.Reflection TestClasses.Fresh TestClasses.TestEvent.Class
      (some 100) 1 TestClasses.TestEvent.Channel).1.ObserverRecord = some TestClasses.Record0 ∧
    (TestClasses.SubscribingHooks.BeforeSend TestClasses.TestEvent
      TestClasses.Fresh).2.This.ObserverRecords =
        [((some TestClasses.TestEvent.Class, TestClasses.TestEvent.Channel),
          TestClasses.Record0)] ∧
    (SendEvent TestClasses.Reflection TestClasses.SubscribingHooks TestClasses.Idle
      TestClasses.Fresh (some TestClasses.TestEvent)).2 =
        [FCall.BeforeSend TestClasses.TestEvent,
         FCall.BeforeReceive TestClasses.TestEvent (some 100),
         FCall.Callback TestClasses.Record0 TestClasses.TestEvent,
         FCall.AfterReceive TestClasses.TestEvent (some 100),
         FCall.AfterSend TestClasses.TestEvent] := by
  decide

/-- C19, amended: `SendEvent` calls only callbacks of records that were in the index under
the key of the event when `BeforeSend` returned, whatever the hooks and handlers do. A
record that a subscribe call creates in a state where the allocator has handed out at
least the blocks it had handed out when `BeforeSend` returned, as in a callback or in
`BeforeReceive`, `AfterReceive` or `AfterSend`, is therefore not called in the pass. A
`SendEvent` that starts after the subscribe call, with the default hooks and passive
handlers, calls the new record exactly once. A record that `BeforeSend` itself subscribes
is in the index when `BeforeSend` returns: when the other hooks are the default ones and
the handlers are passive, the pass calls exactly once each record that is then under the
key with a valid observer. -/
theorem SendEvent_calls_only_the_records_of_its_snapshot (R : FReflection) (V : FHooks)
    (U : FUserCode) (w : FWorld) (e : ULES_Event) (hwf : (V.BeforeSend e w).2.WellFormed) :
    (∀ r e0, FCall.Callback r e0 ∈ (SendEvent R V U w (some e)).2 →
      ((some e.Class, e.Channel), r) ∈ (V.BeforeSend e w).2.This.ObserverRecords) ∧
    (∀ (s : FWorld) (EventClass Observer : Option Nat) (Callback : TFunction) (Channel : FName)
        (r : FRecord), (V.BeforeSend e w).2.Allocated ≤ s.Allocated →
      (AddObserver_Private R s EventClass Observer Callback Channel).1.ObserverRecord = some r →
      ∀ e0, FCall.Callback r e0 ∉ (SendEvent R V U w (some e)).2) ∧
    (∀ (s : FWorld) (U0 : FUserCode) (o : Nat) (Callback : TFunction) (r : FRecord),
      s.WellFormed → U0.Passive → IsValid s (some e.Self) = true → IsValid s (some o) = true →
      IsValid s (TSubclassOf.Get R (some e.Class)) = true →
      (AddObserver_Private R s (some e.Class) (some o) Callback e.Channel).1.ObserverRecord =
        some r →
      (SendEvent R DefaultHooks U0
        (AddObserver_Private R s (some e.Class) (some o) Callback e.Channel).2
        (some e)).2.count (FCall.Callback r e) = 1) ∧
    (IsValid w (some e.Self) = true → (V.BeforeSend e w).1 = true →
      (∀ e0 o s, V.BeforeReceive e0 o s = (true, s)) → (∀ e0 o s, V.AfterReceive e0 o s = s) →
      U.Passive → ∀ r,
      (SendEvent R V U w (some e)).2.count (FCall.Callback r e) =
        if ((some e.Class, e.Channel), r) ∈ (V.BeforeSend e w).2.This.ObserverRecords ∧
            IsValid (V.BeforeSend e w).2 r.Object.Observer = true then 1 else 0) := by
  have h1 : ∀ r e0, FCall.Callback r e0 ∈ (SendEvent R V U w (some e)).2 →
      ((some e.Class, e.Channel), r) ∈ (V.BeforeSend e w).2.This.ObserverRecords :=
    fun r e0 h => (SendEvent_callback R V U w e r e0 h).1
  refine ⟨h1, ?_, ?_, ?_⟩
  · intro s EventClass Observer Callback Channel r hle hr e0 hmem
    have hin := This_subset_Shared _ _ (h1 r e0 hmem)
    have hlt := hwf.2.1 _ hin
    have hb : r.Block = s.Allocated := by
      simp only [AddObserver_Private, Option.some.injEq] at hr
      rw [← hr]
    simp only at hlt
    omega
  · intro s U0 o Callback r hs hU0 hev ho hcls hr
    have hwf2 := AddObserver_Private_wellFormed R s e.Class (some o) Callback e.Channel hs hcls
    obtain ⟨h, hstate, _⟩ := AddObserver_Private_adds_one R s e.Class o Callback e.Channel hcls
    have hr2 : r = ⟨s.Allocated, ⟨e.Channel, some o, Callback⟩⟩ := by
      rw [h] at hr
      simp only [Option.some.injEq] at hr
      exact hr.symm
    have hev2 : IsValid (AddObserver_Private R s (some e.Class) (some o) Callback e.Channel).2
        (some e.Self) = true := hev
    rw [count_callback_SendEvent R U0 _ e hwf2 hev2 hU0 r e, if_pos]
    refine ⟨rfl, ?_, ?_⟩
    · rw [hstate, hr2]
      simp
    · rw [hr2]
      exact ho
  · intro hvalid hsend hBR hAR hU r
    rw [count_callback_after_BeforeSend R V U w e hwf hvalid hsend hBR hAR hU r e]
    simp

/-- Instance of the amended C19: on the index of the test "Sending events", the first
handler that `TestEvent` reaches subscribes observer 100 again and creates `Record9`; the
pass stores `Record9` and does not call it, and a `SendEvent` that starts after that
subscribe call calls it once. -/
theorem SendEvent_calls_only_the_records_of_its_snapshot_witness :
    ((some TestClasses.TestEvent.Class, TestClasses.TestEvent.Channel), TestClasses.Record9) ∈
      (SendEvent TestClasses.Reflection DefaultHooks TestClasses.Resubscribe
        TestClasses.SendingEvents (some TestClasses.TestEvent)).1.This.ObserverRecords ∧
    FCall.Callback TestClasses.Record9 TestClasses.TestEvent ∉
      (SendEvent TestClasses.Reflection DefaultHooks TestClasses.Resubscribe
        TestClasses.SendingEvents (some TestClasses.TestEvent)).2 ∧
    (SendEvent TestClasses.Reflection DefaultHooks TestClasses.Idle
      (AddObserver_Private TestClasses.Reflection TestClasses.SendingEvents
        (some TestClasses.TestEvent.Class) (some 100) (.Method (some 100) 1)
        TestClasses.TestEvent.Channel).2
      (some TestClasses.TestEvent)).2.count
        (FCall.Callback TestClasses.Record9 TestClasses.TestEvent) = 1 :=
  have h := SendEvent_calls_only_the_records_of_its_snapshot TestClasses.Reflection
    DefaultHooks TestClasses.Resubscribe TestClasses.SendingEvents TestClasses.TestEvent
    (by decide)
  ⟨by decide,
   h.2.1 TestClasses.SendingEvents (some TestClasses.TestEvent.Class) (some 100)
     (.Method (some 100) 1) TestClasses.TestEvent.Channel TestClasses.Record9 (by decide) rfl
     TestClasses.TestEvent,
   h.2.2.1 TestClasses.SendingEvents TestClasses.Idle 100 (.Method (some 100) 1)
     TestClasses.Record9 (by decide) (fun _ _ _ => rfl) (by decide) (by decide) (by decide) rfl⟩

/-! ## Lemmas on what `SendEvent` preserves -/

theorem SendEvent_keepsSystems (R : FReflection) (V : FHooks) (U : FUserCode)
    (hV : V.KeepsSystems) (hU : U.KeepsSystems) (w : FWorld) (Event : Option ULES_Event) :
    (SendEvent R V U w Event).1.SameSystems w := by
  obtain ⟨hBS, hBR, hAR, hAS⟩ := hV
  have trans : ∀ a b c : FWorld, a.SameSystems b → b.SameSystems c → a.SameSystems c :=
    fun a b c h1 h2 => ⟨h1.1.trans h2.1, h1.2.1.trans h2.2.1, h1.2.2.trans h2.2.2⟩
  cases Event with
  | none => exact ⟨rfl, rfl, rfl⟩
  | some e =>
    simp only [SendEvent]
    split
    · exact ⟨rfl, rfl, rfl⟩
    · split
      · exact hBS e w
      · have hloop := SendEvent_Loop_invariant R V U
          (fun s => s.SameSystems ((V.BeforeSend e w).2.Enter
            (TMultiMap.MultiFind (V.BeforeSend e w).2.This.ObserverRecords
              (some e.Class, e.Channel))))
          (fun e o s hs => trans _ _ _ (hBR e o s) hs)
          (fun e o s hs => trans _ _ _ (hAR e o s) hs)
          (fun h e s hs => trans _ _ _ (hU h e s) hs) e
          (TMultiMap.MultiFind (V.BeforeSend e w).2.This.ObserverRecords
            (some e.Class, e.Channel)) _ ⟨rfl, rfl, rfl⟩
        obtain ⟨h1, h2, h3⟩ := trans _ _ _ (hAS e _) hloop
        obtain ⟨g1, g2, g3⟩ := hBS e w
        refine ⟨h1.trans g1, h2.trans g2, ?_⟩
        show List.drop _ (V.AfterSend e _).Running = w.Running
        rw [h3]
        show List.drop _ (_ ++ (V.BeforeSend e w).2.Running) = w.Running
        rw [List.drop_left]
        exact g3

/-! ## `SendEvent` and the index -/

/-- C20: when the hooks and handlers leave every event system as they find it, `SendEvent`
of any event, null or not, leaves the index as it was: the same pairs in the same order,
the same `Num`, the same result of `GetChannels`, and every record pointer of a handle
stays valid or invalid as it was, so that `IsHandleValid` and `ContainsValidHandle` answer
as before for every handle whose class object has the same validity. Pairs whose observer
is not valid stay in the index and `Num` counts them. When the hooks and handlers do not
touch the process state at all, the state after the call is the state before. -/
theorem SendEvent_leaves_the_index (R : FReflection) (V : FHooks) (U : FUserCode)
    (hV : V.KeepsSystems) (hU : U.KeepsSystems) (w : FWorld) (Event : Option ULES_Event) :
    (SendEvent R V U w Event).1.This.ObserverRecords = w.This.ObserverRecords ∧
    (SendEvent R V U w Event).1.Others = w.Others ∧
    Num (SendEvent R V U w Event).1 = Num w ∧
    (∀ Out Out0, GetChannels (SendEvent R V U w Event).1 Out = GetChannels w Out0) ∧
    (∀ h : FLES_ObserverHandle,
      TWeakPtr.IsValid (SendEvent R V U w Event).1 h.ObserverRecord =
        TWeakPtr.IsValid w h.ObserverRecord) ∧
    (∀ h : FLES_ObserverHandle,
      IsValid (SendEvent R V U w Event).1 h.ObserverKey.1 = IsValid w h.ObserverKey.1 →
      IsHandleValid (SendEvent R V U w Event).1 h = IsHandleValid w h ∧
      ContainsValidHandle (SendEvent R V U w Event).1 h = ContainsValidHandle w h) ∧
    (∀ p ∈ w.This.ObserverRecords, IsValid w p.2.Object.Observer = false →
      p ∈ (SendEvent R V U w Event).1.This.ObserverRecords) ∧
    Num (SendEvent R V U w Event).1 =
      (w.This.ObserverRecords.filter fun p => IsValid w p.2.Object.Observer).length +
      (w.This.ObserverRecords.filter fun p => !IsValid w p.2.Object.Observer).length ∧
    (V.Passive → U.Passive → (SendEvent R V U w Event).1 = w) := by
  obtain ⟨hT, hO, hR⟩ := SendEvent_keepsSystems R V U hV hU w Event
  have hS : (SendEvent R V U w Event).1.Owners = w.Owners := by
    unfold FWorld.Owners FWorld.Shared FWorld.Systems
    rw [hT, hO, hR]
  have hW : ∀ h : FLES_ObserverHandle,
      TWeakPtr.IsValid (SendEvent R V U w Event).1 h.ObserverRecord =
        TWeakPtr.IsValid w h.ObserverRecord := by
    intro h
    unfold TWeakPtr.IsValid
    rw [hS]
  refine ⟨by rw [hT], hO, by unfold ULES_EventSystem.Num; rw [hT], ?_, hW, ?_, ?_, ?_, ?_⟩
  · intro Out Out0
    unfold GetChannels
    rw [hT]
  · intro h hc
    have h1 : IsHandleValid (SendEvent R V U w Event).1 h = IsHandleValid w h := by
      unfold IsHandleValid
      rw [hW, hc]
    refine ⟨h1, ?_⟩
    unfold ContainsValidHandle TWeakObjectPtr.Get
    rw [h1, hc, hT]
  · intro p hp _
    rw [hT]
    exact hp
  · unfold ULES_EventSystem.Num
    rw [hT]
    exact (length_filter_add _ _).symm
  · exact fun hVp hUp => SendEvent_passive_state R V U hVp hUp w Event

/-- Instance of C20: on the index of the test "Sending events" with observer 101
destroyed, and with handlers that destroy observer 103 when they run, `SendEvent` of
`TestEvent` leaves all nine pairs in the index. -/
theorem SendEvent_leaves_the_index_witness :
    (SendEvent TestClasses.Reflection DefaultHooks (fun _ _ w => w.Destroy 103)
      (TestClasses.SendingEvents.Destroy 101)
      (some TestClasses.TestEvent)).1.This.ObserverRecords =
        TestClasses.SendingEvents.This.ObserverRecords ∧
    Num (SendEvent TestClasses.Reflection DefaultHooks (fun _ _ w => w.Destroy 103)
      (TestClasses.SendingEvents.Destroy 101) (some TestClasses.TestEvent)).1 = 9 :=
  have h := SendEvent_leaves_the_index TestClasses.Reflection DefaultHooks
    (fun _ _ w => w.Destroy 103)
    ⟨fun _ _ => ⟨rfl, rfl, rfl⟩, fun _ _ _ => ⟨rfl, rfl, rfl⟩, fun _ _ _ => ⟨rfl, rfl, rfl⟩,
      fun _ _ => ⟨rfl, rfl, rfl⟩⟩
    (fun _ _ _ => ⟨rfl, rfl, rfl⟩) (TestClasses.SendingEvents.Destroy 101)
    (some TestClasses.TestEvent)
  ⟨h.1, h.2.2.1⟩


/-! ## Lemmas on `GetChannels` -/

theorem foldl_addUnique {α β : Type} [∀ (b : β) (l : List β), Decidable (b ∈ l)] (g : α → β)
    (l : List α) (acc : List β)
    (hacc : acc.Nodup) :
    (l.foldl (fun acc x => if g x ∈ acc then acc else acc ++ [g x]) acc).Nodup ∧
    ∀ c, c ∈ l.foldl (fun acc x => if g x ∈ acc then acc else acc ++ [g x]) acc ↔
      c ∈ acc ∨ ∃ x ∈ l, g x = c := by
  induction l generalizing acc with
  | nil => exact ⟨hacc, fun c => by simp⟩
  | cons k l ih =>
    have hnd : (if g k ∈ acc then acc else acc ++ [g k]).Nodup := by
      split
      · exact hacc
      · rename_i hk
        exact List.nodup_append.2 ⟨hacc, List.nodup_singleton _, by
          intro a ha hb
          rw [List.mem_singleton] at hb
          exact hk (hb ▸ ha)⟩
    have hmem : ∀ c, c ∈ (if g k ∈ acc then acc else acc ++ [g k]) ↔ c ∈ acc ∨ g k = c := by
      intro c
      split
      · rename_i hk
        constructor
        · exact Or.inl
        · rintro (h | h)
          · exact h
          · exact h ▸ hk
      · simp [eq_comm]
    obtain ⟨h1, h2⟩ := ih _ hnd
    refine ⟨h1, fun c => ?_⟩
    rw [List.foldl_cons, h2 c, hmem c]
    simp only [List.mem_cons, exists_eq_or_imp, or_assoc]

theorem GetKeys_spec (m : TMultiMap) :
    (TMultiMap.GetKeys m).Nodup ∧ ∀ k, k ∈ TMultiMap.GetKeys m ↔ ∃ p ∈ m, p.1 = k := by
  obtain ⟨h1, h2⟩ := foldl_addUnique (fun p : FKey × FRecord => p.1) m [] List.nodup_nil
  exact ⟨h1, fun k => by
    rw [TMultiMap.GetKeys, h2 k]
    simp⟩

/-! ## Properties of `GetChannels` and `RemoveAll` -/

/-- C21: `GetChannels` does not depend on what `OutChannels` held before the call. The list
it leaves there has no duplicates and contains a channel exactly when some pair of the
index, whatever the state of its observer, has that channel in its key; this holds for the
default channel `NAME_None` as for any other. The returned number is the length of the
list, and both are empty, respectively 0, for an empty index. -/
theorem GetChannels_lists_the_channels_of_the_index (w : FWorld) (OutChannels : List FName) :
    (∀ Other : List FName, GetChannels w OutChannels = GetChannels w Other) ∧
    (GetChannels w OutChannels).2.Nodup ∧
    (∀ c, c ∈ (GetChannels w OutChannels).2 ↔ ∃ p ∈ w.This.ObserverRecords, p.1.2 = c) ∧
    (NAME_None ∈ (GetChannels w OutChannels).2 ↔
      ∃ p ∈ w.This.ObserverRecords, p.1.2 = NAME_None) ∧
    (∀ p ∈ w.This.ObserverRecords, IsValid w p.2.Object.Observer = false →
      p.1.2 ∈ (GetChannels w OutChannels).2) ∧
    (GetChannels w OutChannels).1 = (GetChannels w OutChannels).2.length ∧
    (w.This.ObserverRecords = [] → GetChannels w OutChannels = (0, [])) := by
  obtain ⟨hnd, hmem⟩ := foldl_addUnique (fun k : FKey => k.2)
    (TMultiMap.GetKeys w.This.ObserverRecords) [] List.nodup_nil
  have hiff : ∀ c, c ∈ (GetChannels w OutChannels).2 ↔
      ∃ p ∈ w.This.ObserverRecords, p.1.2 = c := by
    intro c
    show c ∈ (TMultiMap.GetKeys w.This.ObserverRecords).foldl
      (fun acc Key => TArray.AddUnique acc Key.2) [] ↔ _
    unfold TArray.AddUnique
    rw [hmem c]
    simp only [List.not_mem_nil, false_or, (GetKeys_spec _).2]
    constructor
    · rintro ⟨k, ⟨p, hp, rfl⟩, hk⟩
      exact ⟨p, hp, hk⟩
    · rintro ⟨p, hp, hk⟩
      exact ⟨p.1, ⟨p, hp, rfl⟩, hk⟩
  refine ⟨fun _ => rfl, hnd, hiff, hiff NAME_None, ?_, rfl, ?_⟩
  · intro p hp _
    exact (hiff p.1.2).2 ⟨p, hp, rfl⟩
  · intro h
    simp [GetChannels, h, TMultiMap.GetKeys]

/-- Instance of C21: the index of the test "Sending events" uses three channels. -/
theorem GetChannels_lists_the_channels_of_the_index_witness :
    GetChannels TestClasses.SendingEvents [TestClasses.FirstChannel, TestClasses.FirstChannel] =
      (3, [NAME_None, TestClasses.FirstChannel, TestClasses.SecondChannel]) ∧
    (GetChannels TestClasses.SendingEvents
      [TestClasses.FirstChannel, TestClasses.FirstChannel]).2.Nodup :=
  ⟨by decide,
   (GetChannels_lists_the_channels_of_the_index TestClasses.SendingEvents
     [TestClasses.FirstChannel, TestClasses.FirstChannel]).2.1⟩


theorem Call_keepsObjects (R : FReflection) (U : FUserCode) (hU : U.KeepsObjects)
    (f : TFunction) (e : ULES_Event) (w : FWorld) :
    (TFunction.Call R U f e w).Destroyed = w.Destroyed :=
  Call_invariant R U (fun s => s.Destroyed = w.Destroyed)
    (fun h e s hs => (hU h e s).trans hs) f e w rfl

theorem SendEvent_Loop_keepsObjects (R : FReflection) (V : FHooks) (U : FUserCode)
    (hBRd : ∀ e o w, (V.BeforeReceive e o w).2.Destroyed = w.Destroyed)
    (hARd : ∀ e o w, (V.AfterReceive e o w).Destroyed = w.Destroyed) (hU : U.KeepsObjects)
    (hBR : ∀ e o w, (V.BeforeReceive e o w).1 = true) (e : ULES_Event) (w₀ : FWorld)
    (Records : List FRecord) (w : FWorld) (hw : w.Destroyed = w₀.Destroyed) :
    (SendEvent_Loop R V U e Records w).2 = Records.flatMap (SendEvent_Visit V e w₀) := by
  induction Records generalizing w with
  | nil => rfl
  | cons Record Records ih =>
    have hv0 : IsValid w Record.Object.Observer = IsValid w₀ Record.Object.Observer :=
      IsValid_congr w₀ w hw _
    simp only [SendEvent_Loop, List.flatMap_cons, SendEvent_Visit, hBR, hv0]
    by_cases hv : IsValid w₀ Record.Object.Observer = true
    · have hg : ∀ s : FWorld, s.Destroyed = w₀.Destroyed →
          TWeakObjectPtr.Get s Record.Object.Observer = Record.Object.Observer := by
        intro s hs
        unfold TWeakObjectPtr.Get
        rw [IsValid_congr w₀ s hs, hv, if_pos rfl]
      have h2 : (TFunction.Call R U Record.Object.Callback e
          (V.BeforeReceive e Record.Object.Observer w).2).Destroyed = w₀.Destroyed := by
        rw [Call_keepsObjects R U hU, hBRd, hw]
      have h3 := ih (V.AfterReceive e Record.Object.Observer
        (TFunction.Call R U Record.Object.Callback e
          (V.BeforeReceive e Record.Object.Observer w).2))
        ((hARd _ _ _).trans h2)
      simp only [hv, Bool.not_true, Bool.false_eq_true, if_false, if_true, hg w hw,
        hg w₀ rfl, hg _ h2, h3]
    · simp only [hv, Bool.not_false, if_true, List.nil_append]
      exact ih w hw

theorem SendEvent_keepsObjects (R : FReflection) (V : FHooks) (U : FUserCode)
    (hV : V.KeepObjects) (hU : U.KeepsObjects)
    (hBR : ∀ e o w, (V.BeforeReceive e o w).1 = true) (w : FWorld) (e : ULES_Event)
    (hvalid : IsValid w (some e.Self) = true) (hsend : (V.BeforeSend e w).1 = true) :
    (SendEvent R V U w (some e)).2 =
      [FCall.BeforeSend e] ++
        (TMultiMap.MultiFind (V.BeforeSend e w).2.This.ObserverRecords
          (some e.Class, e.Channel)).flatMap (SendEvent_Visit V e (V.BeforeSend e w).2) ++
        [FCall.AfterSend e] := by
  have hloop := SendEvent_Loop_keepsObjects R V U hV.2.1 hV.2.2.1 hU hBR e (V.BeforeSend e w).2
    (TMultiMap.MultiFind (V.BeforeSend e w).2.This.ObserverRecords (some e.Class, e.Channel))
    ((V.BeforeSend e w).2.Enter
      (TMultiMap.MultiFind (V.BeforeSend e w).2.This.ObserverRecords (some e.Class, e.Channel)))
    rfl
  simp only [SendEvent, hvalid, hsend, Bool.not_true, Bool.false_eq_true, if_false, hloop]

/-! ## Removing records while an event is sent -/

/-- C23: `SendEvent` walks the array of records it copied from the index when `BeforeSend`
returned. Let the hooks and handlers destroy no object, let `BeforeReceive` accept every
observer, and let the hooks and handlers otherwise do anything to the index, such as
`RemoveByHandle`, `RemoveByObserver` and `RemoveAll`. Then the calls of the pass are the
ones it makes when nothing is removed: for each copied record with a valid observer, in
order, `BeforeReceive`, the callback of the record, `AfterReceive`. So a record that was
under the key of the event when `BeforeSend` returned and whose observer is valid is
called exactly once, also when a handler has removed it before its turn; no record is
called twice; and only copied records are called. -/
theorem SendEvent_dispatches_over_its_snapshot (R : FReflection) (V : FHooks)
    (U : FUserCode) (hV : V.KeepObjects) (hU : U.KeepsObjects)
    (hBR : ∀ e o w, (V.BeforeReceive e o w).1 = true) (w : FWorld) (e : ULES_Event)
    (hwf : (V.BeforeSend e w).2.WellFormed) (hvalid : IsValid w (some e.Self) = true)
    (hsend : (V.BeforeSend e w).1 = true) :
    (SendEvent R V U w (some e)).2 =
      [FCall.BeforeSend e] ++
        (TMultiMap.MultiFind (V.BeforeSend e w).2.This.ObserverRecords
          (some e.Class, e.Channel)).flatMap
          (fun Record =>
            if IsValid w Record.Object.Observer then
              [FCall.BeforeReceive e Record.Object.Observer, FCall.Callback Record e,
               FCall.AfterReceive e Record.Object.Observer]
            else []) ++
        [FCall.AfterSend e] ∧
    (∀ r, ((some e.Class, e.Channel), r) ∈ (V.BeforeSend e w).2.This.ObserverRecords →
      IsValid w r.Object.Observer = true →
      (SendEvent R V U w (some e)).2.count (FCall.Callback r e) = 1) ∧
    (∀ r e0, (SendEvent R V U w (some e)).2.count (FCall.Callback r e0) ≤ 1) ∧
    (∀ r e0, FCall.Callback r e0 ∈ (SendEvent R V U w (some e)).2 →
      ((some e.Class, e.Channel), r) ∈ (V.BeforeSend e w).2.This.ObserverRecords ∧ e0 = e ∧
      IsValid w r.Object.Observer = true) := by
  have hD : ∀ p, IsValid (V.BeforeSend e w).2 p = IsValid w p :=
    fun p => IsValid_congr w _ (hV.1 e w) p
  have hvisit : ∀ Record : FRecord, SendEvent_Visit V e (V.BeforeSend e w).2 Record =
      if IsValid w Record.Object.Observer then
        [FCall.BeforeReceive e Record.Object.Observer, FCall.Callback Record e,
         FCall.AfterReceive e Record.Object.Observer]
      else [] := by
    intro Record
    unfold SendEvent_Visit TWeakObjectPtr.Get
    by_cases hv : IsValid w Record.Object.Observer = true
    · simp [hv, hD, hBR]
    · simp [hv, hD]
  have htrace := SendEvent_keepsObjects R V U hV hU hBR w e hvalid hsend
  have hcount : ∀ r e0, (SendEvent R V U w (some e)).2.count (FCall.Callback r e0) =
      if e0 = e ∧ ((some e.Class, e.Channel), r) ∈ (V.BeforeSend e w).2.This.ObserverRecords ∧
          IsValid w r.Object.Observer = true then 1 else 0 := by
    intro r e0
    rw [htrace]
    simp only [List.count_append, count_callback_accepting V hBR, count_MultiFind _ hwf, hD]
    simp only [List.count_cons, List.count_nil, beq_iff_eq, reduceCtorEq, if_false, zero_add,
      add_zero]
    by_cases h1 : e0 = e <;>
      by_cases h2 : ((some e.Class, e.Channel), r) ∈
        (V.BeforeSend e w).2.This.ObserverRecords <;>
      by_cases h3 : IsValid w r.Object.Observer = true <;> simp [h1, h2, h3]
  refine ⟨?_, ?_, ?_, ?_⟩
  · rw [htrace, funext hvisit]
  · intro r hr hv
    rw [hcount, if_pos ⟨rfl, hr, hv⟩]
  · intro r e0
    rw [hcount]
    split <;> omega
  · intro r e0 hmem
    have hpos : 0 < (SendEvent R V U w (some e)).2.count (FCall.Callback r e0) :=
      List.count_pos_iff.2 hmem
    rw [hcount] at hpos
    split at hpos
    · rename_i h
      exact ⟨h.2.1, h.1, h.2.2⟩
    · omega

/-- Instance of C23: on the index of the test "Sending events" the first handler that
`TestEvent` reaches removes `Record1` and both records of `Observers[3]`; the pass leaves
them out of the index and has still called `Record1` and `Record8` once. With handlers that
call `RemoveAll`, the pass empties the index and has still called `Record8` once. -/
theorem SendEvent_dispatches_over_its_snapshot_witness :
    ((some TestClasses.TestEvent.Class, TestClasses.TestEvent.Channel), TestClasses.Record1) ∉
      (SendEvent TestClasses.Reflection DefaultHooks TestClasses.Unsubscribing
        TestClasses.SendingEvents (some TestClasses.TestEvent)).1.This.ObserverRecords ∧
    ((some TestClasses.TestEvent.Class, TestClasses.TestEvent.Channel), TestClasses.Record8) ∉
      (SendEvent TestClasses.Reflection DefaultHooks TestClasses.Unsubscribing
        TestClasses.SendingEvents (some TestClasses.TestEvent)).1.This.ObserverRecords ∧
    (SendEvent TestClasses.Reflection DefaultHooks TestClasses.Unsubscribing
      TestClasses.SendingEvents (some TestClasses.TestEvent)).2.count
        (FCall.Callback TestClasses.Record1 TestClasses.TestEvent) = 1 ∧
    (SendEvent TestClasses.Reflection DefaultHooks TestClasses.Unsubscribing
      TestClasses.SendingEvents (some TestClasses.TestEvent)).2.count
        (FCall.Callback TestClasses.Record8 TestClasses.TestEvent) = 1 ∧
    (SendEvent TestClasses.Reflection DefaultHooks TestClasses.Clearing
      TestClasses.SendingEvents (some TestClasses.TestEvent)).1.This.ObserverRecords = [] ∧
    (SendEvent TestClasses.Reflection DefaultHooks TestClasses.Clearing
      TestClasses.SendingEvents (some TestClasses.TestEvent)).2.count
        (FCall.Callback TestClasses.Record8 TestClasses.TestEvent) = 1 :=
  have hU : TestClasses.Unsubscribing.KeepsObjects := fun _ _ w => by
    simp only [TestClasses.Unsubscribing, RemoveByObserver, RemoveByHandle]
    split <;> rfl
  have h := SendEvent_dispatches_over_its_snapshot TestClasses.Reflection DefaultHooks
    TestClasses.Unsubscribing
    ⟨fun _ _ => rfl, fun _ _ _ => rfl, fun _ _ _ => rfl, fun _ _ => rfl⟩ hU
    (fun _ _ _ => rfl) TestClasses.SendingEvents TestClasses.TestEvent (by decide) (by decide)
    rfl
  have h' := SendEvent_dispatches_over_its_snapshot TestClasses.Reflection DefaultHooks
    TestClasses.Clearing
    ⟨fun _ _ => rfl, fun _ _ _ => rfl, fun _ _ _ => rfl, fun _ _ => rfl⟩ (fun _ _ _ => rfl)
    (fun _ _ _ => rfl) TestClasses.SendingEvents TestClasses.TestEvent (by decide) (by decide)
    rfl
  ⟨by decide, by decide, h.2.1 TestClasses.Record1 (by decide) (by decide),
   h.2.1 TestClasses.Record8 (by decide) (by decide), by decide,
   h'.2.1 TestClasses.Record8 (by decide) (by decide)⟩


/-! ## Properties of `LES::Create` -/

/-- C24, as stated, fails: `LES::Create` for `ULES_IntegerEvent`, whose member `Value` is
an `int32`, called with the 64 bit value 5000000000, returns an event whose `Value` is
705032704 and not the argument. -/
theorem Create_narrows_the_value_counterexample :
    (LES.Create int64_to_int32 TestClasses.NewObject TestClasses.ULES_IntegerEvent_StaticClass
      (5000000000 : Int) (some 100) NAME_None GetTransientPackage).Value = 705032704 ∧
    (LES.Create int64_to_int32 TestClasses.NewObject TestClasses.ULES_IntegerEvent_StaticClass
      (5000000000 : Int) (some 100) NAME_None GetTransientPackage).Value ≠ 5000000000 := by
  decide

/-- C24, amended: `LES::Create` returns an event of class `TEvent` whose `Channel` and
`Sender` are the arguments and whose `Value` is the argument converted to the type of the
member by the assignment: the argument itself when the types are the same, and for a 64
bit integer assigned to an `int32` member the argument exactly when it is in the range of
`int32`. A call that omits `Channel` gets the declared default `NAME_Name`, which is not
the default `NAME_None` of the subscribe functions. A subscribe call that omits its channel
stores its record under a key with channel `NAME_None`, and `SendEvent` of an event created
without a channel calls no record stored under such a key, whatever the hooks and handlers
do, provided `BeforeSend` leaves the index as it found it. -/
theorem Create_without_channel_reaches_no_default_subscriber {TValue TMember : Type}
    (Assign : TValue → TMember) (R : FReflection) (V : FHooks) (U : FUserCode)
    (NewObject : Nat → Option Nat → Nat) (TEvent : Nat) (Value : TValue)
    (Sender : Option Nat) (w : FWorld) (hwf : w.WellFormed)
    (hBS : (V.BeforeSend (LES.Create_Default Assign NewObject TEvent Value Sender).toULES_Event
      w).2.This = w.This) :
    (∀ (Channel : FName) (Outer : Option Nat),
      (LES.Create Assign NewObject TEvent Value Sender Channel Outer).Channel = Channel ∧
      (LES.Create Assign NewObject TEvent Value Sender Channel Outer).Sender = Sender ∧
      (LES.Create Assign NewObject TEvent Value Sender Channel Outer).Value = Assign Value ∧
      (LES.Create Assign NewObject TEvent Value Sender Channel Outer).Class = TEvent ∧
      (LES.Create Assign NewObject TEvent Value Sender Channel Outer).Self =
        NewObject TEvent Outer) ∧
    (∀ (Channel : FName) (Outer : Option Nat),
      (LES.Create (fun v : TValue => v) NewObject TEvent Value Sender Channel Outer).Value =
        Value) ∧
    (∀ (v : Int) (Channel : FName) (Outer : Option Nat),
      ((LES.Create int64_to_int32 NewObject TEvent v Sender Channel Outer).Value = v ↔
        -2147483648 ≤ v ∧ v < 2147483648)) ∧
    LES.Create_Default Assign NewObject TEvent Value Sender =
      LES.Create Assign NewObject TEvent Value Sender NAME_Name GetTransientPackage ∧
    (LES.Create_Default Assign NewObject TEvent Value Sender).Channel = NAME_Name ∧
    NAME_Name ≠ AddObserver_Channel_Default ∧
    AddObserver_Channel_Default = NAME_None ∧
    (∀ (sub : FOp) (w₀ : FWorld) (k : FKey) (r : FRecord), sub.IsSubscribe = true →
      sub.Channel = AddObserver_Channel_Default →
      (sub.Call R V U w₀).1 = { ObserverKey := k, ObserverRecord := some r } →
      k.2 = NAME_None ∧ (k, r) ∈ (sub.Call R V U w₀).2.This.ObserverRecords) ∧
    (∀ (Class : Option Nat) (r : FRecord) (e0 : ULES_Event),
      ((Class, AddObserver_Channel_Default), r) ∈ w.This.ObserverRecords →
      FCall.Callback r e0 ∉
        (SendEvent R V U w
          (some (LES.Create_Default Assign NewObject TEvent Value Sender).toULES_Event)).2)
    := by
  refine ⟨fun _ _ => ⟨rfl, rfl, rfl, rfl, rfl⟩, fun _ _ => rfl, ?_, rfl, rfl, by decide, rfl,
    ?_, ?_⟩
  · intro v Channel Outer
    show int64_to_int32 v = v ↔ _
    unfold int64_to_int32
    omega
  · intro sub w₀ k r hsub hch hcall
    rcases subscribe_cases R V U sub hsub w₀ with hc | ⟨ec, cb, _, hc⟩
    · rw [hc] at hcall
      simp [FLES_ObserverHandle.Default] at hcall
    · rw [hc] at hcall ⊢
      simp only [AddObserver_Private, FLES_ObserverHandle.mk.injEq, Option.some.injEq]
        at hcall
      obtain ⟨hk, hr⟩ := hcall
      subst hk hr
      exact ⟨hch, by simp [AddObserver_Private, TMultiMap.Add]⟩
  · intro Class r e0 hin hc
    have hD := (SendEvent_callback R V U w _ r e0 hc).1
    rw [hBS] at hD
    have heq := key_unique w hwf _ _ hin hD rfl
    have hch : AddObserver_Channel_Default =
        (LES.Create_Default Assign NewObject TEvent Value Sender).Channel :=
      congrArg (fun p : FKey × FRecord => p.1.2) heq
    have hne : AddObserver_Channel_Default ≠ NAME_Name := by decide
    exact hne hch

/-- Instance of the amended C24: `Observers[0]` listens for `ULES_IntegerEvent` without
naming a channel. An event created from the 64 bit value 7 without a channel has the value
7 and reaches no record; the same event created on `NAME_None` reaches the record of
`Observers[0]`. -/
theorem Create_without_channel_reaches_no_default_subscriber_witness :
    (LES.Create_Default int64_to_int32 TestClasses.NewObject
      TestClasses.ULES_IntegerEvent_StaticClass (7 : Int) (some 100)).Value = 7 ∧
    FCall.Callback TestClasses.Record0
      (LES.Create_Default int64_to_int32 TestClasses.NewObject
        TestClasses.ULES_IntegerEvent_StaticClass (7 : Int) (some 100)).toULES_Event ∉
      (SendEvent TestClasses.Reflection_BasicEvents DefaultHooks TestClasses.Idle
        TestClasses.IntegerListener
        (some (LES.Create_Default int64_to_int32 TestClasses.NewObject
          TestClasses.ULES_IntegerEvent_StaticClass (7 : Int) (some 100)).toULES_Event)).2 ∧
    FCall.Callback TestClasses.Record0
      (LES.Create int64_to_int32 TestClasses.NewObject
        TestClasses.ULES_IntegerEvent_StaticClass (7 : Int) (some 100) NAME_None
        GetTransientPackage).toULES_Event ∈
      (SendEvent TestClasses.Reflection_BasicEvents DefaultHooks TestClasses.Idle
        TestClasses.IntegerListener
        (some (LES.Create int64_to_int32 TestClasses.NewObject
          TestClasses.ULES_IntegerEvent_StaticClass (7 : Int) (some 100) NAME_None
          GetTransientPackage).toULES_Event)).2 :=
  have h := Create_without_channel_reaches_no_default_subscriber int64_to_int32
    TestClasses.Reflection_BasicEvents DefaultHooks TestClasses.Idle TestClasses.NewObject
    TestClasses.ULES_IntegerEvent_StaticClass (7 : Int) (some 100) TestClasses.IntegerListener
    (by decide) rfl
  ⟨(h.2.2.1 7 NAME_Name GetTransientPackage).2 (by decide),
   h.2.2.2.2.2.2.2.2 (some TestClasses.ULES_IntegerEvent_StaticClass) TestClasses.Record0 _
     (by decide),
   by decide⟩

end LightEventSystem
